import Mathlib

/-!
# GNU/Linux target-dependent code of GDB (`gdb/linux-tdep.c`)

A shallow embedding of the mapping-line parser (`read_mapping`), the live
memory-region enumerator (`linux_find_memory_regions_full`), the writer of the
file-mapping note (`linux_make_mappings_callback`,
`linux_make_mappings_corefile_notes`), the reader of that note
(`linux_core_info_proc_mappings`), the builder of the core notes
(`linux_make_corefile_notes` and its callbacks), the siginfo layout
(`linux_get_siginfo_type`) and the process report (`linux_info_proc`),
followed by theorems about them.

Conventions of the embedding.

* A C `char` / byte is its numeric code, a `Nat`.  A C string is the list of
  its characters; reading at the end of the list reads the terminating NUL,
  and a `0` inside a list terminates the string there, as in C.
* A `const char *` into a line is the remaining suffix of that line.
* `ULONGEST` is a `Nat` reduced modulo `2 ^ 64` wherever the C code can wrap.
-/

namespace LinuxTdep

/-! ## C strings -/

/-- The characters of a Lean string literal as C character codes. -/
def cs (s : String) : List Nat := s.toList.map Char.toNat

/-- The character under a pointer: `*p`.  The end of the list is the NUL. -/
def deref (p : List Nat) : Nat := p.headD 0

/-- The C-locale `isspace`: space, `\t`, `\n`, `\v`, `\f`, `\r`. -/
def isspace (c : Nat) : Bool := c == 32 || (9 ≤ c && c ≤ 13)

/-- The C-locale `isdigit`. -/
def isdigit (c : Nat) : Bool := 48 ≤ c && c ≤ 57

/-- The C-locale `isalpha`. -/
def isalpha (c : Nat) : Bool := (65 ≤ c && c ≤ 90) || (97 ≤ c && c ≤ 122)

/-- The C-locale `isalnum`. -/
def isalnum (c : Nat) : Bool := isdigit c || isalpha c

/-- The C-locale `tolower`. -/
def tolower (c : Nat) : Nat := if 65 ≤ c ∧ c ≤ 90 then c + 32 else c

/-- The string a pointer points to: the characters before the first NUL. -/
def cstring (p : List Nat) : List Nat := p.takeWhile (fun c => c != 0)

/-- The C `strlen`. -/
def strlen (p : List Nat) : Nat := (cstring p).length

/-- The C `strcmp (a, b) == 0`. -/
def streq (a b : List Nat) : Bool := cstring a == cstring b

/-- The loop `while (*p && isspace (*p)) p++;`. -/
def skip_spaces : List Nat → List Nat
  | [] => []
  | c :: p => if c != 0 && isspace c then skip_spaces p else c :: p

/-- The loop `while (*p && !isspace (*p)) p++;`. -/
def skip_nonspaces : List Nat → List Nat
  | [] => []
  | c :: p => if c != 0 && !isspace c then skip_nonspaces p else c :: p

/-- The C `memchr (p, c, len) != 0` on the `len` characters under `p`. -/
def memchr (p : List Nat) (c : Nat) (len : Nat) : Bool :=
  (p.take len).contains c

/-! ## `strtoulst` (gdb/utils.c) -/

/-- The width of `ULONGEST`: values are reduced modulo `2 ^ 64`. -/
def ULONGEST_MOD : Nat := 2 ^ 64

/-- Modelled from the spec: `is_digit_in_base` of gdb/utils.c is not under
src/.  A character is a digit of the base when it is alphanumeric and its
digit value is below the base. -/
def is_digit_in_base (digit : Nat) (base : Nat) : Bool :=
  if !isalnum digit then false
  else if base ≤ 10 then isdigit digit && digit < base + 48
  else isdigit digit || tolower digit < base - 10 + 97

/-- Modelled from the spec: `digit_to_int` of gdb/utils.c is not under src/.
The value of a digit character. -/
def digit_to_int (c : Nat) : Nat :=
  if isdigit c then c - 48 else tolower c - 97 + 10

/-- The digit loop of `strtoulst`: accumulates the digits of the base; stops
before the first character that is not a digit.  When the value no longer fits
`ULONGEST` the loop breaks AT that digit and the result is the overflow marker
`none`. -/
def strtoulst_digits (base : Nat) : List Nat → Nat → Option Nat × List Nat
  | [], acc => (some acc, [])
  | c :: p, acc =>
    if is_digit_in_base c base then
      if acc * base + digit_to_int c < ULONGEST_MOD then
        strtoulst_digits base p (acc * base + digit_to_int c)
      else (none, c :: p)
    else (some acc, c :: p)

/-- The loop `while (isspace (num[i])) i++;` of `strtoulst`. -/
def skip_isspace : List Nat → List Nat
  | [] => []
  | c :: p => if isspace c then skip_isspace p else c :: p

/-- Modelled from the spec: `strtoulst (num, &trailer, base)` of gdb/utils.c is
not under src/; the spec says fields are parsed as unsigned integers in the
given base, that trailing garbage is accepted and that parsing stops at the
first non-numeric character.  As in gdb/utils.c it skips leading white space,
takes an optional sign, for base 16 an optional `0x`/`0X`, then the longest run
of digits of the base; an overflowing run yields `~0` and stops at the digit
that overflowed.  Returns the value and the trailer pointer.  Only bases 2..36
are modelled (`read_mapping` passes 16 and 10). -/
def strtoulst (num : List Nat) (base : Nat) : Nat × List Nat :=
  let p := skip_isspace num
  let (minus, p) :=
    if deref p = 43 then (false, p.tail)
    else if deref p = 45 then (true, p.tail)
    else (false, p)
  let p :=
    if base = 16 ∧ deref p = 48 ∧ (deref p.tail = 120 ∨ deref p.tail = 88)
    then p.tail.tail else p
  if base < 2 ∨ 36 < base then (0, num)
  else
    match strtoulst_digits base p 0 with
    | (none, trailer) => (ULONGEST_MOD - 1, trailer)
    | (some result, trailer) =>
      (if minus then (ULONGEST_MOD - result) % ULONGEST_MOD else result, trailer)

/-! ## `read_mapping` -/

/-- The out-parameters of `read_mapping`.  `permissions`, `device` and
`filename` are pointers into the line (the suffix starting there). -/
structure Mapping where
  addr : Nat
  endaddr : Nat
  permissions : List Nat
  permissions_len : Nat
  offset : Nat
  device : List Nat
  device_len : Nat
  inode : Nat
  filename : List Nat
  deriving DecidableEq, Repr

/-- Service function for corefiles and info proc: `read_mapping`. -/
def read_mapping (line : List Nat) : Mapping :=
  let p := line
  let (addr, p) := strtoulst p 16
  let p := if deref p = 45 then p.tail else p
  let (endaddr, p) := strtoulst p 16
  let p := skip_spaces p
  let permissions := p
  let p := skip_nonspaces p
  let permissions_len := permissions.length - p.length
  let (offset, p) := strtoulst p 16
  let p := skip_spaces p
  let device := p
  let p := skip_nonspaces p
  let device_len := device.length - p.length
  let (inode, p) := strtoulst p 10
  let p := skip_spaces p
  { addr := addr, endaddr := endaddr,
    permissions := permissions, permissions_len := permissions_len,
    offset := offset, device := device, device_len := device_len,
    inode := inode, filename := p }

/-! ## The live enumerator `linux_find_memory_regions_full` -/

/-- The tokens `strtok (data, "\n")`, `strtok (NULL, "\n")`, ... deliver: the
maximal non-empty runs of characters other than newline, up to the NUL.  The
second argument is the token under construction. -/
def strtok_tokens : List Nat → List Nat → List (List Nat)
  | [], tok => if tok = [] then [] else [tok]
  | c :: p, tok =>
    if c = 0 then (if tok = [] then [] else [tok])
    else if c = 10 then
      (if tok = [] then strtok_tokens p [] else tok :: strtok_tokens p [])
    else strtok_tokens p (tok ++ [c])

/-- The run of decimal digits under `p` as a number, and how many there are. -/
def scan_decimal : List Nat → Nat → Nat → Nat × Nat
  | [], acc, n => (acc, n)
  | c :: p, acc, n =>
    if isdigit c then scan_decimal p (acc * 10 + (c - 48)) (n + 1) else (acc, n)

/-- The `%lu` conversion of `sscanf`: skips white space, takes an optional
sign and at least one decimal digit; the value saturates at `ULONG_MAX` (a
64-bit `unsigned long`) and a minus sign negates it.  `none` is a matching
failure. -/
def scan_lu (p : List Nat) : Option Nat :=
  let p := skip_isspace p
  let (minus, p) :=
    if deref p = 43 then (false, p.tail)
    else if deref p = 45 then (true, p.tail)
    else (false, p)
  match scan_decimal p 0 0 with
  | (_, 0) => none
  | (v, _ + 1) =>
    let v := if v < ULONGEST_MOD then v else ULONGEST_MOD - 1
    some (if minus then (ULONGEST_MOD - v) % ULONGEST_MOD else v)

/-- The call `sscanf (line, "%64s%lu kB\n", keyword, &number)`: `some
(keyword, number)` when it returns 2, `none` otherwise.  `%64s` skips white
space and takes at most 64 characters that are not white space. -/
def sscanf_keyword_number (line : List Nat) : Option (List Nat × Nat) :=
  let p := skip_isspace (cstring line)
  let word := (p.takeWhile (fun c => !isspace c)).take 64
  if word = [] then none
  else
    match scan_lu (p.drop word.length) with
    | none => none
    | some number => some (word, number)

/-- The arguments of one invocation of a `linux_find_memory_region_ftype`
callback (without the user datum).  The `int` flags are 0/1 truth values. -/
structure RegionArgs where
  vaddr : Nat
  size : Nat
  offset : Nat
  inode : Nat
  read : Bool
  write : Bool
  exec : Bool
  modified : Bool
  filename : List Nat
  deriving DecidableEq, Repr

/-- The inner `for` loop of `linux_find_memory_regions_full` that parses the
smaps counters.  Takes the tokens from the one `strtok (NULL, "\n")` returns
first, and the current `modified` and `has_anonymous`; returns their final
values and the tokens from the current `line` on when the loop is left.  A
line that `sscanf` does not parse leaves the loop by `break` and stays the
current line; the warning printed there is not part of the model. -/
def scan_smaps_counters :
    List (List Nat) → Bool → Bool → Bool × Bool × List (List Nat)
  | [], modified, has_anonymous => (modified, has_anonymous, [])
  | line :: rest, modified, has_anonymous =>
    if 65 ≤ deref line ∧ deref line ≤ 90 then
      match sscanf_keyword_number line with
      | none => (modified, has_anonymous, line :: rest)
      | some (keyword, number) =>
        scan_smaps_counters rest
          (modified ||
            (number != 0 && (streq keyword (cs "Shared_Dirty:")
                              || streq keyword (cs "Private_Dirty:")
                              || streq keyword (cs "Swap:")
                              || streq keyword (cs "Anonymous:"))))
          (has_anonymous || streq keyword (cs "Anonymous:"))
    else (modified, has_anonymous, line :: rest)

/-- What the body of the outer loop passes to the callback for the mapping
line `line`, given the outcome of the counter scan. -/
def region_of_line (line : List Nat) (modified has_anonymous : Bool) :
    RegionArgs :=
  let m := read_mapping line
  { vaddr := m.addr,
    size := (m.endaddr + ULONGEST_MOD - m.addr) % ULONGEST_MOD,
    offset := m.offset,
    inode := m.inode,
    read := memchr m.permissions 114 m.permissions_len,
    write := memchr m.permissions 119 m.permissions_len,
    exec := memchr m.permissions 120 m.permissions_len,
    modified := modified || !has_anonymous,
    filename := m.filename }

/-- The outer `while (line)` loop of `linux_find_memory_regions_full` over the
tokens from the current `line` on.  `func` is the callback with its datum as
explicit state; its `int` result is ignored, as in the source.  Every pass
consumes at least the mapping line, so `fuel` = number of tokens is enough;
`none` means the fuel ran out. -/
def regions_loop {σ : Type} (func : RegionArgs → σ → Int × σ) :
    Nat → List (List Nat) → σ → Option σ
  | _, [], obfd => some obfd
  | 0, _ :: _, _ => none
  | fuel + 1, line :: rest, obfd =>
    match scan_smaps_counters rest false false with
    | (modified, has_anonymous, rest') =>
      regions_loop func fuel rest'
        (func (region_of_line line modified has_anonymous) obfd).2

/-- The live process as `linux_find_memory_regions_full` sees it:
`current_inferior ()->fake_pid_p`, and what `target_fileio_read_stralloc`
returns for `/proc/PID/smaps` and `/proc/PID/maps` (`none` is `NULL`). -/
structure Inferior where
  fake_pid_p : Bool
  smaps : Option (List Nat)
  maps : Option (List Nat)
  deriving DecidableEq, Repr

/-- List memory regions in the inferior for a corefile:
`linux_find_memory_regions_full`.  Returns the `int` result and the final
datum of the callback. -/
def linux_find_memory_regions_full {σ : Type} (inf : Inferior)
    (func : RegionArgs → σ → Int × σ) (obfd : σ) : Option (Int × σ) :=
  if inf.fake_pid_p then some (1, obfd)
  else
    let data := match inf.smaps with
      | some d => some d
      | none => inf.maps
    match data with
    | some d =>
      let lines := strtok_tokens d []
      (regions_loop func lines.length lines obfd).map (fun o => (0, o))
    | none => some (1, obfd)

/-- A callback that records its arguments: the datum is the list of the
invocations so far. -/
def record_region (r : RegionArgs) (calls : List RegionArgs) :
    Int × List RegionArgs := (0, calls ++ [r])

/-- The callback invocations of `linux_find_memory_regions_full`, in order. -/
def delivered_regions (inf : Inferior) : List RegionArgs :=
  match linux_find_memory_regions_full inf record_region [] with
  | some (_, calls) => calls
  | none => []

/-! ## The file-mapping note: writer -/

/-- The two byte orders of a target (`enum bfd_endian`). -/
inductive bfd_endian where
  | BFD_ENDIAN_BIG
  | BFD_ENDIAN_LITTLE
  deriving DecidableEq, Repr

/-- What the code reads from a `struct gdbarch`: `gdbarch_long_bit`,
`gdbarch_addr_bit`, `gdbarch_int_bit`, `gdbarch_ptr_bit` and
`gdbarch_byte_order`. -/
structure Gdbarch where
  long_bit : Nat
  addr_bit : Nat
  int_bit : Nat
  ptr_bit : Nat
  byte_order : bfd_endian
  deriving DecidableEq, Repr

/-- The `len` low bytes of `val` in the given byte order
(`store_signed_integer` / `store_unsigned_integer`). -/
def store_integer (len : Nat) (order : bfd_endian) (val : Nat) : List Nat :=
  match order with
  | .BFD_ENDIAN_LITTLE => (List.range len).map (fun i => val / 256 ^ i % 256)
  | .BFD_ENDIAN_BIG => ((List.range len).map (fun i => val / 256 ^ i % 256)).reverse

/-- The length `TYPE_LENGTH (long_type)` of the type `arch_integer_type
(gdbarch, gdbarch_long_bit (gdbarch), 0, "long")`, in bytes. -/
def long_length (gdbarch : Gdbarch) : Nat := gdbarch.long_bit / 8

/-- Modelled from the spec: `pack_long (buf, long_type, num)` of gdb/value.c is
not under src/.  For an integer type it stores the `TYPE_LENGTH` low bytes of
`num` in the byte order of the architecture; the result is those bytes. -/
def pack_long (gdbarch : Gdbarch) (num : Nat) : List Nat :=
  store_integer (long_length gdbarch) gdbarch.byte_order num

/-- A note handed to `elfcore_write_note`: name, type and descriptor bytes. -/
structure Note where
  name : List Nat
  type : Nat
  desc : List Nat
  deriving DecidableEq, Repr

/-- The note stream `char *note_data`: `none` is the `NULL` pointer, `some`
the notes accumulated so far. -/
abbrev NoteData := Option (List Note)

/-- The note type `NT_FILE` of elf/common.h. -/
def NT_FILE : Nat := 0x46494c45

/-- The struct `linux_make_mappings_data`; the obstacks are the bytes grown so
far.  The `long_type` member is determined by the architecture, which the
callback takes as an argument instead. -/
structure linux_make_mappings_data where
  file_count : Nat
  data_obstack : List Nat
  filename_obstack : List Nat
  deriving DecidableEq, Repr

/-- A callback for `linux_find_memory_regions_full` that updates the mappings
data for `linux_make_mappings_corefile_notes`. -/
def linux_make_mappings_callback (gdbarch : Gdbarch) (r : RegionArgs)
    (map_data : linux_make_mappings_data) : Int × linux_make_mappings_data :=
  if deref r.filename = 0 ∨ r.inode = 0 then (0, map_data)
  else
    (0, { file_count := (map_data.file_count + 1) % ULONGEST_MOD,
          data_obstack := map_data.data_obstack
            ++ pack_long gdbarch r.vaddr
            ++ pack_long gdbarch ((r.vaddr + r.size) % ULONGEST_MOD)
            ++ pack_long gdbarch r.offset,
          filename_obstack := map_data.filename_obstack
            ++ (cstring r.filename ++ [0]) })

/-- Write the file mapping data to the core file, if possible:
`linux_make_mappings_corefile_notes`.  `elfcore_write_note` is the note writer
of BFD, a parameter; the result is the new `note_data`.  The space reserved
for the count by `obstack_blank` is modelled as zero bytes until the count is
written over it. -/
def linux_make_mappings_corefile_notes (gdbarch : Gdbarch) (inf : Inferior)
    (elfcore_write_note : NoteData → Note → NoteData) (note_data : NoteData) :
    Option NoteData :=
  let mapping_data : linux_make_mappings_data :=
    { file_count := 0,
      data_obstack := List.replicate (long_length gdbarch) 0 ++ pack_long gdbarch 1,
      filename_obstack := [] }
  match linux_find_memory_regions_full inf
      (linux_make_mappings_callback gdbarch) mapping_data with
  | none => none
  | some (_, mapping_data) =>
    if mapping_data.file_count ≠ 0 then
      let data_obstack := pack_long gdbarch mapping_data.file_count
        ++ mapping_data.data_obstack.drop (long_length gdbarch)
      let data_obstack := data_obstack ++ mapping_data.filename_obstack
      some (elfcore_write_note note_data
        { name := cs "CORE", type := NT_FILE, desc := data_obstack })
    else some note_data

/-! ## The file-mapping note: reader -/

/-- The section `.note.linuxcore.file` of a core file: its bytes, and whether
`bfd_get_section_contents` succeeds.  `bfd_get_section_size` is the number of
bytes. -/
structure Section where
  contents : List Nat
  readable : Bool
  deriving DecidableEq, Repr

/-- What the reader uses of the core file `core_bfd`: the section
`.note.linuxcore.file` if there is one, `gdbarch_addr_bit` of
`gdbarch_from_bfd (core_bfd)`, and the byte order `bfd_get` decodes with. -/
structure CoreBfd where
  note_linuxcore_file : Option Section
  addr_bit : Nat
  byte_order : bfd_endian
  deriving DecidableEq, Repr

/-- The `error (...)` conditions of `linux_core_info_proc_mappings`. -/
inductive CoreError where
  | too_short_for_header
  | could_not_get_contents
  | does_not_end_with_nul
  | too_short_for_file_count
  | filenames_end_too_early
  deriving DecidableEq, Repr

/-- How a run of the reader ends. -/
inductive Stop where
  | returned
  | error (e : CoreError)
  | abort
  | read_outside_buffer
  | out_of_fuel
  deriving DecidableEq, Repr

/-- One item of output.  A table row holds the values handed to the
formatter: start, end, `end - start`, the file offset and the pathname;
`addr32` says which of the two column layouts is used. -/
inductive Output where
  | warning_unable_to_find_mappings
  | mapped_address_spaces
  | table_header (addr32 : Bool)
  | table_row (addr32 : Bool) (start end_ size file_ofs : Nat)
      (filename : List Nat)
  deriving DecidableEq, Repr

/-- What a run of the reader did: the output so far, and how it ended. -/
structure Outcome where
  out : List Output
  stop : Stop
  deriving DecidableEq, Repr

/-- The value of the bytes in the given byte order. -/
def bytes_value (order : bfd_endian) (bytes : List Nat) : Nat :=
  match order with
  | .BFD_ENDIAN_LITTLE => bytes.foldr (fun b acc => b % 256 + 256 * acc) 0
  | .BFD_ENDIAN_BIG => bytes.foldl (fun acc b => acc * 256 + b % 256) 0

/-- Modelled from the spec: the macro `bfd_get (bits, abfd, ptr)` of bfd.h is
not under src/.  It decodes `bits / 8` bytes at `ptr` in the byte order of the
BFD, for `bits` one of 8, 16, 32, 64, and calls `abort ()` for any other width.
`memory` is the buffer and `ptr` the offset into it; a read that is not inside
the buffer is reported as such. -/
def bfd_get (bits : Nat) (order : bfd_endian) (memory : List Nat) (ptr : Nat) :
    Except Stop Nat :=
  if bits = 8 ∨ bits = 16 ∨ bits = 32 ∨ bits = 64 then
    if ptr + bits / 8 ≤ memory.length then
      .ok (bytes_value order ((memory.drop ptr).take (bits / 8)))
    else .error .read_outside_buffer
  else .error .abort

/-- The loop `while (--count > 0)` of `linux_core_info_proc_mappings`.
`descdata` and `filenames` are offsets into `contents`; `descend` is
`contents.length`.  `filenames` advances by at least one in every pass and the
loop stops when it reaches `descend`, so `fuel` = `note_size + 1` is enough. -/
def mappings_loop (gdbarch : Gdbarch) (core : CoreBfd) (contents : List Nat)
    (page_size : Nat) : Nat → Nat → Nat → Nat → List Output → Outcome
  | 0, _, _, _, out => { out := out, stop := .out_of_fuel }
  | fuel + 1, count, descdata, filenames, out =>
    let count := (count + ULONGEST_MOD - 1) % ULONGEST_MOD
    if count > 0 then
      if filenames = contents.length then
        { out := out, stop := .error .filenames_end_too_early }
      else
        let addr_size := core.addr_bit / 8
        match bfd_get core.addr_bit core.byte_order contents descdata,
              bfd_get core.addr_bit core.byte_order contents (descdata + addr_size),
              bfd_get core.addr_bit core.byte_order contents
                (descdata + addr_size + addr_size) with
        | .ok start, .ok end_, .ok file_ofs =>
          let file_ofs := file_ofs * page_size % ULONGEST_MOD
          let name := cstring (contents.drop filenames)
          mappings_loop gdbarch core contents page_size fuel count
            (descdata + addr_size + addr_size + addr_size)
            (filenames + (1 + name.length))
            (out ++ [.table_row (gdbarch.addr_bit == 32) start end_
              ((end_ + ULONGEST_MOD - start) % ULONGEST_MOD) file_ofs name])
        | .error e, _, _ => { out := out, stop := e }
        | _, .error e, _ => { out := out, stop := e }
        | _, _, .error e => { out := out, stop := e }
    else { out := out, stop := .returned }

/-- Implement "info proc mappings" for a corefile:
`linux_core_info_proc_mappings`.  `gdbarch` is the architecture used for the
column layout, `core` the core file.  `addr_bit` is an `int`, so `2 *
addr_size` cannot wrap; the sum with `count * 3 * addr_size` is `ULONGEST`
arithmetic and wraps modulo `2 ^ 64`, as does the pointer sum computing
`filenames`.  Reading `descdata[note_size - 1]` of an empty section is a read
outside the buffer. -/
def linux_core_info_proc_mappings (gdbarch : Gdbarch) (core : CoreBfd) :
    Outcome :=
  match core.note_linuxcore_file with
  | none => { out := [.warning_unable_to_find_mappings], stop := .returned }
  | some sect =>
    let addr_size_bits := core.addr_bit
    let addr_size := addr_size_bits / 8
    let note_size := sect.contents.length
    if note_size < 2 * addr_size then
      { out := [], stop := .error .too_short_for_header }
    else if !sect.readable then
      { out := [], stop := .error .could_not_get_contents }
    else
      let contents := sect.contents
      if note_size = 0 then { out := [], stop := .read_outside_buffer }
      else if deref (contents.drop (note_size - 1)) ≠ 0 then
        { out := [], stop := .error .does_not_end_with_nul }
      else
        match bfd_get addr_size_bits core.byte_order contents 0,
              bfd_get addr_size_bits core.byte_order contents addr_size with
        | .ok count, .ok page_size =>
          if note_size < (2 * addr_size + count * 3 * addr_size) % ULONGEST_MOD then
            { out := [], stop := .error .too_short_for_file_count }
          else
            mappings_loop gdbarch core contents page_size (note_size + 1) count
              (addr_size + addr_size)
              ((addr_size + addr_size + count * 3 * addr_size) % ULONGEST_MOD)
              [.mapped_address_spaces, .table_header (gdbarch.addr_bit == 32)]
        | .error e, _ => { out := [], stop := e }
        | _, .error e => { out := [], stop := e }

/-! ## `linux_find_memory_regions` -/

/-- A callback for `linux_find_memory_regions` that converts between the
"full"-style callback and `find_memory_region_ftype`:
`linux_find_memory_regions_thunk`.  `func` is the original callback, with the
original datum as explicit state. -/
def linux_find_memory_regions_thunk {σ : Type}
    (func : Nat → Nat → Bool → Bool → Bool → Bool → σ → Int × σ)
    (r : RegionArgs) (obfd : σ) : Int × σ :=
  func r.vaddr r.size r.read r.write r.exec r.modified obfd

/-- A variant of `linux_find_memory_regions_full` that is suitable as the
gdbarch find_memory_regions method: `linux_find_memory_regions`. -/
def linux_find_memory_regions {σ : Type} (inf : Inferior)
    (func : Nat → Nat → Bool → Bool → Bool → Bool → σ → Int × σ) (obfd : σ) :
    Option (Int × σ) :=
  linux_find_memory_regions_full inf (linux_find_memory_regions_thunk func) obfd

/-! ## Threads and the stop signal -/

/-- A thread identifier `ptid_t`: process id, lwp id, thread id. -/
structure ptid_t where
  pid : Int
  lwp : Int
  tid : Int
  deriving DecidableEq, Repr

/-- The signal `GDB_SIGNAL_0`. -/
def GDB_SIGNAL_0 : Nat := 0

/-- What the code reads of a `struct thread_info`: `ptid` and
`suspend.stop_signal`. -/
structure thread_info where
  ptid : ptid_t
  stop_signal : Nat
  deriving DecidableEq, Repr

/-- Modelled from the spec: `iterate_over_threads (callback, data)` of
gdb/thread.c is not under src/.  It visits the threads of the thread list in
order, calls the callback on each with the datum, and stops at the first thread
for which the callback returns nonzero, which it returns; it returns `NULL`
(`none`) when no callback returned nonzero.  The datum is explicit state. -/
def iterate_over_threads {σ : Type} (callback : thread_info → σ → Int × σ) :
    List thread_info → σ → Option thread_info × σ
  | [], data => (none, data)
  | tp :: next, data =>
    if (callback tp data).1 ≠ 0 then (some tp, (callback tp data).2)
    else iterate_over_threads callback next (callback tp data).2

/-- Determine which signal stopped execution: `find_signalled_thread`.
`inferior_ptid` is the current-thread selector. -/
def find_signalled_thread (inferior_ptid : ptid_t) (info : thread_info)
    (data : Unit) : Int × Unit :=
  if info.stop_signal ≠ GDB_SIGNAL_0 ∧ info.ptid.pid = inferior_ptid.pid then (1, data)
  else (0, data)

/-- The function `find_stop_signal` on the thread list. -/
def find_stop_signal (threads : List thread_info) (inferior_ptid : ptid_t) : Nat :=
  match (iterate_over_threads (find_signalled_thread inferior_ptid) threads ()).1 with
  | some info => info.stop_signal
  | none => GDB_SIGNAL_0

/-! ## The note writers and the target -/

/-- The note types `NT_SIGINFO`, `NT_AUXV` and `NT_SPU` of elf/common.h. -/
def NT_SIGINFO : Nat := 0x53494749

/-- The note type `NT_AUXV`. -/
def NT_AUXV : Nat := 6

/-- The note type `NT_SPU`. -/
def NT_SPU : Nat := 1

/-- The note writers of BFD (elf.c), parameters of the model.  Each takes the
note stream and returns the new one, `none` (`NULL`) being the failure
sentinel.  `elfcore_write_prpsinfo` takes the file name and the argument
string, `elfcore_write_prstatus` the lwp, the host signal and the general
registers, `elfcore_write_register_note` the section name, the register bytes
and their size. -/
structure ElfcoreWriter where
  elfcore_write_note : NoteData → Note → NoteData
  elfcore_write_prpsinfo : NoteData → List Nat → List Nat → NoteData
  elfcore_write_prstatus : NoteData → Int → Int → List Nat → NoteData
  elfcore_write_register_note : NoteData → List Nat → List Nat → Nat → NoteData

/-- A register cache: the thread it belongs to, and the value of the
current-thread selector when `target_fetch_registers` filled it (`none` before
that).  The registers it holds are those of the selected thread. -/
structure regcache where
  ptid : ptid_t
  fetched_as : Option ptid_t
  deriving DecidableEq, Repr

/-- One entry of `gdbarch_core_regset_sections`: section name and size. -/
structure core_regset_section where
  sect_name : List Nat
  size : Nat
  deriving DecidableEq, Repr

/-- What note building reads of the architecture: the entries of
`gdbarch_core_regset_sections` before the terminating `NULL` name; the
`collect_regset` method of `gdbarch_regset_from_core_section (name, size)`,
which gives the `size` bytes of the section for a register cache (the
`gdb_assert` that it exists is a precondition); and `TYPE_LENGTH
(gdbarch_get_siginfo_type (gdbarch))`, `none` when
`gdbarch_get_siginfo_type_p` is false. -/
structure NoteArch where
  core_regset_sections : List core_regset_section
  collect_regset : List Nat → Nat → regcache → List Nat
  siginfo_length : Option Nat

/-- The live target as note building sees it: `get_exec_file (0)` and
`get_inferior_args ()` (`none` is `NULL`), the thread list, the
`TARGET_OBJECT_SIGNAL_INFO` object of each thread, the `TARGET_OBJECT_AUXV`
object, the `TARGET_OBJECT_SPU` objects without annex (the ids) and per annex
(`none`: the object cannot be read), `gdb_signal_to_host`, and the `/proc`
files of the inferior.  `target_gdbarch` is the architecture `target_gdbarch
()` returns.  `spu_ids_slack` gives the bytes that follow the ids object in the
buffer `target_read_alloc` returned for it: they are not part of the object,
and the loop over the ids reads up to three of them when the length of the
object is not a multiple of four. -/
structure LiveTarget where
  exec_file : Option (List Nat)
  inferior_args : Option (List Nat)
  threads : List thread_info
  siginfo_object : ptid_t → Option (List Nat)
  auxv_object : Option (List Nat)
  spu_ids_object : Option (List Nat)
  spu_object : List Nat → Option (List Nat)
  gdb_signal_to_host : Nat → Int
  inferior : Inferior
  target_gdbarch : Gdbarch
  spu_ids_slack : Nat → Nat

/-- Modelled from the spec: `target_read (ops, object, annex, buf, offset,
len)` of gdb/target.c is not under src/.  It reads at most `len` bytes of the
object from `offset` on; the result is the number of bytes read, -1 when the
object cannot be read, and the bytes. -/
def target_read (object : Option (List Nat)) (offset len : Nat) : Int × List Nat :=
  match object with
  | none => (-1, [])
  | some bytes => ((((bytes.drop offset).take len).length : Nat), (bytes.drop offset).take len)

/-- Modelled from the spec: `target_read_alloc (ops, object, annex, &buf)` of
gdb/target.c is not under src/.  It reads the whole object; the result is its
length, -1 when the object cannot be read, and the bytes. -/
def target_read_alloc (object : Option (List Nat)) : Int × List Nat :=
  match object with
  | none => (-1, [])
  | some bytes => ((bytes.length : Nat), bytes)

/-- The conversion of a `LONGEST` to an `int`, as in the assignment `auxv_len =
target_read_alloc (...)`: the value is reduced modulo `2 ^ 32` into the range
of `int`, which is what GCC defines for a value out of range. -/
def LONGEST_to_int (v : Int) : Int := (v + 2 ^ 31) % 2 ^ 32 - 2 ^ 31

/-- An observation of the run, kept for the statements only: a register fetch
and a signal-info read with the value of the current-thread selector at that
moment and the thread they are made for, and an invocation of the register
collector with the thread and the stop signal it is given. -/
inductive TraceEvent where
  | fetch_registers (selector thread : ptid_t)
  | read_siginfo (selector thread : ptid_t)
  | collect (thread : ptid_t) (stop_signal : Nat)
  deriving DecidableEq, Repr

/-- The shared state of the debugger that note building touches: the
current-thread selector `inferior_ptid`, and the observations so far. -/
structure World where
  inferior_ptid : ptid_t
  trace : List TraceEvent
  deriving DecidableEq, Repr

/-- The type `linux_collect_thread_registers_ftype` of a register collector:
register cache, ptid, note stream and stop signal to the new note stream. -/
abbrev Collector := regcache → ptid_t → NoteData → Nat → NoteData

/-! ## `linux_spu_make_corefile_notes` -/

/-- The table `spu_files`. -/
def spu_files : List (List Nat) :=
  [cs "object-id", cs "mem", cs "regs", cs "fpcr", cs "lslr", cs "decr",
   cs "decr_status", cs "signal1", cs "signal1_type", cs "signal2",
   cs "signal2_type", cs "event_mask", cs "event_status", cs "mbox_info",
   cs "ibox_info", cs "wbox_info", cs "dma_info", cs "proxydma_info"]

/-- The conversion `%d` of an `int`. -/
def format_d (n : Int) : List Nat :=
  if n < 0 then 45 :: (Nat.toDigits 10 n.natAbs).map Char.toNat
  else (Nat.toDigits 10 n.natAbs).map Char.toNat

/-- The `int fd` that `extract_unsigned_integer (spu_ids + i, 4, byte_order)`
is stored into. -/
def spu_fd (order : bfd_endian) (bytes : List Nat) : Int :=
  if bytes_value order bytes < 2 ^ 31 then (bytes_value order bytes : Nat)
  else (bytes_value order bytes : Nat) - (2 ^ 32 : Int)

/-- The groups of four bytes `spu_ids + i` that the loop `for (i = 0; i <
size; i += 4)` reads.  When fewer than four bytes of the object are left the
four bytes read are those and the bytes after the object in the buffer, given
by `slack`. -/
def spu_id_groups (slack : Nat → Nat) : List Nat → List (List Nat)
  | [] => []
  | b0 :: b1 :: b2 :: b3 :: rest => [b0, b1, b2, b3] :: spu_id_groups slack rest
  | [b0] => [[b0, slack 0, slack 1, slack 2]]
  | [b0, b1] => [[b0, b1, slack 0, slack 1]]
  | [b0, b1, b2] => [[b0, b1, b2, slack 0]]

/-- The inner loop of `linux_spu_make_corefile_notes` over the SPU files of
the context `fd`, from the file list given.  The result `none` is the early
`return NULL`; `some` is `note_data` at the end of the loop. -/
def spu_files_loop (w : ElfcoreWriter) (tgt : LiveTarget) (fd : Int) :
    List (List Nat) → NoteData → Option NoteData
  | [], note_data => some note_data
  | file :: files, note_data =>
    let annex := format_d fd ++ 47 :: file
    if 0 < (target_read_alloc (tgt.spu_object annex)).1 then
      match w.elfcore_write_note note_data
          { name := cs "SPU/" ++ annex, type := NT_SPU,
            desc := (target_read_alloc (tgt.spu_object annex)).2 } with
      | none => none
      | some stream => spu_files_loop w tgt fd files (some stream)
    else spu_files_loop w tgt fd files note_data

/-- The outer loop of `linux_spu_make_corefile_notes` over the SPU ids. -/
def spu_ids_loop (w : ElfcoreWriter) (tgt : LiveTarget) (order : bfd_endian) :
    List (List Nat) → NoteData → Option NoteData
  | [], note_data => some note_data
  | id :: ids, note_data =>
    match spu_files_loop w tgt (spu_fd order id) spu_files note_data with
    | none => none
    | some note_data => spu_ids_loop w tgt order ids note_data

/-- Generate corefile notes for SPU contexts:
`linux_spu_make_corefile_notes`.  The byte order is `gdbarch_byte_order
(target_gdbarch ())`. -/
def linux_spu_make_corefile_notes (w : ElfcoreWriter) (tgt : LiveTarget)
    (note_data : NoteData) : NoteData :=
  match spu_ids_loop w tgt tgt.target_gdbarch.byte_order
      (spu_id_groups tgt.spu_ids_slack (target_read_alloc tgt.spu_ids_object).2)
      note_data with
  | none => none
  | some note_data => note_data

/-! ## `linux_collect_thread_registers` -/

/-- The loop of `linux_collect_thread_registers` over the register sections. -/
def collect_sections_loop (arch : NoteArch) (tgt : LiveTarget) (w : ElfcoreWriter)
    (rc : regcache) (lwp : Int) (stop_signal : Nat) :
    List core_regset_section → NoteData → NoteData
  | [], note_data => note_data
  | sect :: sect_list, note_data =>
    let buf := arch.collect_regset sect.sect_name sect.size rc
    let note_data :=
      if streq sect.sect_name (cs ".reg") then
        w.elfcore_write_prstatus note_data lwp (tgt.gdb_signal_to_host stop_signal) buf
      else w.elfcore_write_register_note note_data sect.sect_name buf sect.size
    match note_data with
    | none => none
    | some stream => collect_sections_loop arch tgt w rc lwp stop_signal sect_list
        (some stream)

/-- Records the thread's register state for the corefile note section:
`linux_collect_thread_registers`. -/
def linux_collect_thread_registers (arch : NoteArch) (tgt : LiveTarget)
    (w : ElfcoreWriter) : Collector :=
  fun rc ptid note_data stop_signal =>
    let lwp := if ptid.lwp = 0 then ptid.tid else ptid.lwp
    collect_sections_loop arch tgt w rc lwp stop_signal arch.core_regset_sections
      note_data

/-! ## `linux_make_corefile_notes` -/

/-- Fetch the siginfo data for the current thread, if it exists:
`linux_get_siginfo_data`.  `inferior_ptid` is the current-thread selector the
target reads the object of. -/
def linux_get_siginfo_data (arch : NoteArch) (tgt : LiveTarget)
    (inferior_ptid : ptid_t) : Option (List Nat) :=
  match arch.siginfo_length with
  | none => none
  | some len =>
    if (target_read (tgt.siginfo_object inferior_ptid) 0 len).1 = (len : Int) then
      some (target_read (tgt.siginfo_object inferior_ptid) 0 len).2
    else none

/-- The struct `linux_corefile_thread_data`, without the members that do not
change (`gdbarch`, `obfd`, `collect`) and with `note_size` left to the
writers. -/
structure linux_corefile_thread_data where
  pid : Int
  note_data : NoteData
  num_notes : Int
  stop_signal : Nat
  deriving DecidableEq, Repr

/-- Called by gdbthread.c once per thread; records the thread's register state
for the corefile note section: `linux_corefile_thread_callback`.  The datum is
the thread data together with the shared state. -/
def linux_corefile_thread_callback (arch : NoteArch) (tgt : LiveTarget)
    (w : ElfcoreWriter) (collect : Collector) (info : thread_info)
    (data : linux_corefile_thread_data × World) :
    Int × (linux_corefile_thread_data × World) :=
  let args := data.1
  let world := data.2
  if info.ptid.pid = args.pid then
    -- old_chain = save_inferior_ptid (); inferior_ptid = info->ptid;
    let saved := world.inferior_ptid
    let world := { world with inferior_ptid := info.ptid }
    -- target_fetch_registers (regcache, -1);
    let rc : regcache := { ptid := info.ptid, fetched_as := some world.inferior_ptid }
    let world := { world with
      trace := world.trace ++ [TraceEvent.fetch_registers world.inferior_ptid info.ptid] }
    -- siginfo_data = linux_get_siginfo_data (args->gdbarch, &siginfo_size);
    let siginfo_data := linux_get_siginfo_data arch tgt world.inferior_ptid
    let world := { world with
      trace := world.trace ++ (match arch.siginfo_length with
        | some _ => [TraceEvent.read_siginfo world.inferior_ptid info.ptid]
        | none => []) }
    -- do_cleanups (old_chain);
    let world := { world with inferior_ptid := saved }
    let note_data := collect rc info.ptid args.note_data args.stop_signal
    let world := { world with
      trace := world.trace ++ [TraceEvent.collect info.ptid args.stop_signal] }
    let num_notes := args.num_notes + 1
    match siginfo_data with
    | some bytes =>
      let note_data := w.elfcore_write_note note_data
        { name := cs "CORE", type := NT_SIGINFO, desc := bytes }
      (if note_data = none then 1 else 0,
        ({ args with note_data := note_data, num_notes := num_notes + 1 }, world))
    | none =>
      (if note_data = none then 1 else 0,
        ({ args with note_data := note_data, num_notes := num_notes }, world))
  else (if args.note_data = none then 1 else 0, (args, world))

/-- The variable `int auxv_len` of `linux_make_corefile_notes` after the
assignment `auxv_len = target_read_alloc (&current_target, TARGET_OBJECT_AUXV,
NULL, &auxv)`. -/
def auxv_len (tgt : LiveTarget) : Int :=
  LONGEST_to_int (target_read_alloc tgt.auxv_object).1

/-- Modelled from the spec: `lbasename` of libiberty is not under src/.  The
part of a path after its last `/` (the loop `for (base = name; *name; name++)
if (*name == '/') base = name + 1;`). -/
def lbasename_loop : List Nat → List Nat → List Nat
  | [], base => base
  | c :: name, base =>
    if c = 0 then base
    else if c = 47 then lbasename_loop name name
    else lbasename_loop name base

/-- The basename of a path, as a string. -/
def lbasename (name : List Nat) : List Nat := cstring (lbasename_loop name name)

/-- Fills the "to_make_corefile_note" target vector; builds the note section
for a corefile: `linux_make_corefile_notes`.  The result is `note_data` and
the shared state at the return; the outer `none` only says that the fuel of the
mapping enumerator ran out.  Each `if ... then some (none, _)` is one of the
`if (!note_data) return NULL;` of the source.  The descriptor of the
auxiliary-vector note is what `elfcore_write_note (..., auxv, auxv_len)` is
given: the first `auxv_len` bytes of the buffer. -/
def linux_make_corefile_notes (gdbarch : Gdbarch) (arch : NoteArch)
    (tgt : LiveTarget) (w : ElfcoreWriter) (collect : Collector) (world : World) :
    Option (NoteData × World) :=
  -- Process information.
  let note_data : NoteData :=
    match tgt.exec_file with
    | some exec_file =>
      w.elfcore_write_prpsinfo none (lbasename exec_file)
        (match tgt.inferior_args with
          | some args => lbasename exec_file ++ cs " " ++ cstring args
          | none => lbasename exec_file)
    | none => none
  if tgt.exec_file ≠ none ∧ note_data = none then some (none, world)
  else
    -- Thread register information.
    let thread_args : linux_corefile_thread_data :=
      { pid := world.inferior_ptid.pid, note_data := note_data, num_notes := 0,
        stop_signal := find_stop_signal tgt.threads world.inferior_ptid }
    let iterated := iterate_over_threads
      (linux_corefile_thread_callback arch tgt w collect) tgt.threads
      (thread_args, world)
    let world := iterated.2.2
    if iterated.2.1.note_data = none then some (none, world)
    else
      -- Auxillary vector.
      let note_data : NoteData :=
        if 0 < auxv_len tgt then
          w.elfcore_write_note iterated.2.1.note_data
            { name := cs "CORE", type := NT_AUXV,
              desc := (target_read_alloc tgt.auxv_object).2.take (auxv_len tgt).toNat }
        else iterated.2.1.note_data
      if 0 < auxv_len tgt ∧ note_data = none then
        some (none, world)
      else
        -- SPU information.
        let note_data := linux_spu_make_corefile_notes w tgt note_data
        if note_data = none then some (none, world)
        else
          -- File mappings.
          match linux_make_mappings_corefile_notes gdbarch tgt.inferior
              w.elfcore_write_note note_data with
          | none => none
          | some note_data => some (note_data, world)

/-! ## `linux_get_siginfo_type` -/

/-- The type codes the siginfo layout uses (`enum type_code`). -/
inductive type_code where
  | TYPE_CODE_VOID
  | TYPE_CODE_INT
  | TYPE_CODE_PTR
  | TYPE_CODE_TYPEDEF
  | TYPE_CODE_ARRAY
  | TYPE_CODE_STRUCT
  | TYPE_CODE_UNION
  deriving DecidableEq, Repr

/-- What the code sets and reads of a `struct type`: the code, `TYPE_NAME`,
`TYPE_LENGTH` in bytes, `TYPE_UNSIGNED`, `TYPE_TARGET_STUB`, `TYPE_VECTOR`,
`TYPE_TARGET_TYPE`, the high bound of the index range of an array (the low
bound is 0), and the fields with their names and bit positions. -/
inductive gdb_type where
  | mk (code : type_code) (name : Option String) (length : Nat)
      (unsigned_p target_stub vector_p : Bool) (target_type : Option gdb_type)
      (high_bound : Int) (fields : List (String × Nat × gdb_type))

/-- The macro `TYPE_CODE`. -/
def TYPE_CODE : gdb_type → type_code
  | .mk code _ _ _ _ _ _ _ _ => code

/-- The macro `TYPE_LENGTH`. -/
def TYPE_LENGTH : gdb_type → Nat
  | .mk _ _ length _ _ _ _ _ _ => length

/-- The macro `TYPE_NAME`. -/
def TYPE_NAME : gdb_type → Option String
  | .mk _ name _ _ _ _ _ _ _ => name

/-- The fields of a composite type: name, `FIELD_BITPOS`, `FIELD_TYPE`. -/
def TYPE_FIELDS : gdb_type → List (String × Nat × gdb_type)
  | .mk _ _ _ _ _ _ _ _ fields => fields

/-- The number of elements of an array or vector type: `high_bound + 1`. -/
def array_elements : gdb_type → Int
  | .mk _ _ _ _ _ _ _ high_bound _ => high_bound + 1

/-- The type of the field of that name, if the type has one. -/
def field_type (t : gdb_type) (name : String) : Option gdb_type :=
  ((TYPE_FIELDS t).find? (fun f => f.1 == name)).map (fun f => f.2.2)

/-- Modelled from the spec: `arch_type (gdbarch, code, length, name)` of
gdb/gdbtypes.c is not under src/.  A new type of that code, length and name. -/
def arch_type (code : type_code) (length : Nat) (name : Option String) : gdb_type :=
  .mk code name length false false false none 0 []

/-- Modelled from the spec: `arch_integer_type (gdbarch, bit, unsigned_p,
name)` of gdb/gdbtypes.c is not under src/.  An integer type of `bit / 8`
bytes. -/
def arch_integer_type (bit : Nat) (unsigned_p : Bool) (name : String) : gdb_type :=
  .mk .TYPE_CODE_INT (some name) (bit / 8) unsigned_p false false none 0 []

/-- The type `builtin_type (gdbarch)->builtin_void`. -/
def builtin_void : gdb_type := arch_type .TYPE_CODE_VOID 1 (some "void")

/-- Modelled from the spec: `lookup_pointer_type (type)` of gdb/gdbtypes.c is
not under src/.  The pointer type to `type`, of `gdbarch_ptr_bit / 8` bytes. -/
def lookup_pointer_type (gdbarch : Gdbarch) (type : gdb_type) : gdb_type :=
  .mk .TYPE_CODE_PTR none (gdbarch.ptr_bit / 8) true false false (some type) 0 []

/-- A typedef as the code builds it: `arch_type (gdbarch, TYPE_CODE_TYPEDEF,
TYPE_LENGTH (target), name)`, then `TYPE_TARGET_TYPE` and `TYPE_TARGET_STUB`
are set. -/
def typedef_type (name : String) (target : gdb_type) : gdb_type :=
  .mk .TYPE_CODE_TYPEDEF (some name) (TYPE_LENGTH target) false true false
    (some target) 0 []

/-- Modelled from the spec: `arch_composite_type (gdbarch, name, code)` of
gdb/gdbtypes.c is not under src/.  An empty struct or union of length 0. -/
def arch_composite_type (name : Option String) (code : type_code) : gdb_type :=
  .mk code name 0 false false false none 0 []

/-- The assignment `TYPE_NAME (t) = xstrdup (name)`. -/
def set_type_name (t : gdb_type) (name : String) : gdb_type :=
  match t with
  | .mk code _ length u s v target high fields =>
    .mk code (some name) length u s v target high fields

/-- Modelled from the spec: `init_vector_type (elt_type, n)` of gdb/gdbtypes.c
is not under src/.  The vector of `n` elements: an array type over the index
range `0 .. n - 1`, of length `n` times the element length, and 0 when the
range is empty. -/
def init_vector_type (elt_type : gdb_type) (n : Int) : gdb_type :=
  .mk .TYPE_CODE_ARRAY none
    (if n - 1 < 0 then 0 else TYPE_LENGTH elt_type * (n - 1 + 1).toNat)
    false false true (some elt_type) (n - 1) []

/-- Modelled from the spec: `append_composite_type_field_aligned (t, name,
field, alignment)` of gdb/gdbtypes.c is not under src/; the spec says the
union sits at an offset aligned to the alignment given.  A union grows to the
length of its longest field.  A struct grows by the length of the field; the
field is placed after the previous one, moved up to the next multiple of the
alignment (in bytes, 0 for none), the length growing by the gap. -/
def append_composite_type_field_aligned (t : gdb_type) (name : String)
    (field : gdb_type) (alignment : Nat) : gdb_type :=
  match t with
  | .mk code tname length u s v target high fields =>
    if code = .TYPE_CODE_UNION then
      .mk code tname (if length < TYPE_LENGTH field then TYPE_LENGTH field else length)
        u s v target high (fields ++ [(name, 0, field)])
    else if code = .TYPE_CODE_STRUCT then
      match fields.getLast? with
      | none =>
        .mk code tname (length + TYPE_LENGTH field) u s v target high
          (fields ++ [(name, 0, field)])
      | some prev =>
        let bitpos := prev.2.1 + TYPE_LENGTH prev.2.2 * 8
        let left := if alignment = 0 then 0 else bitpos % (alignment * 8)
        if left ≠ 0 then
          .mk code tname (length + TYPE_LENGTH field + (alignment * 8 - left) / 8)
            u s v target high
            (fields ++ [(name, bitpos + (alignment * 8 - left), field)])
        else
          .mk code tname (length + TYPE_LENGTH field) u s v target high
            (fields ++ [(name, bitpos, field)])
    else .mk code tname length u s v target high (fields ++ [(name, 0, field)])

/-- Modelled from the spec: `append_composite_type_field (t, name, field)` of
gdb/gdbtypes.c is not under src/.  It appends without alignment. -/
def append_composite_type_field (t : gdb_type) (name : String) (field : gdb_type) :
    gdb_type :=
  append_composite_type_field_aligned t name field 0

/-- The number of elements `si_pad_size` of the `_pad` vector, an `int`. -/
def si_pad_size (gdbarch : Gdbarch) : Int :=
  let si_max_size : Int := 128
  let size_of_int : Int := ((gdbarch.int_bit / 8 : Nat) : Int)
  if gdbarch.ptr_bit = 64 then (si_max_size / size_of_int) - 4
  else (si_max_size / size_of_int) - 3

/-- The union `_sifields` as `linux_get_siginfo_type` builds it. -/
def build_sifields_type (gdbarch : Gdbarch) : gdb_type :=
  let int_type := arch_integer_type gdbarch.int_bit false "int"
  let uint_type := arch_integer_type gdbarch.int_bit true "unsigned int"
  let long_type := arch_integer_type gdbarch.long_bit false "long"
  let void_ptr_type := lookup_pointer_type gdbarch builtin_void
  -- sival_t
  let sigval_type := arch_composite_type none .TYPE_CODE_UNION
  let sigval_type := set_type_name sigval_type "sigval_t"
  let sigval_type := append_composite_type_field sigval_type "sival_int" int_type
  let sigval_type := append_composite_type_field sigval_type "sival_ptr" void_ptr_type
  -- __pid_t, __uid_t, __clock_t
  let pid_type := typedef_type "__pid_t" int_type
  let uid_type := typedef_type "__uid_t" uint_type
  let clock_type := typedef_type "__clock_t" long_type
  -- _sifields
  let sifields_type := arch_composite_type none .TYPE_CODE_UNION
  -- _pad
  let sifields_type := append_composite_type_field sifields_type "_pad"
    (init_vector_type int_type (si_pad_size gdbarch))
  -- _kill
  let type := arch_composite_type none .TYPE_CODE_STRUCT
  let type := append_composite_type_field type "si_pid" pid_type
  let type := append_composite_type_field type "si_uid" uid_type
  let sifields_type := append_composite_type_field sifields_type "_kill" type
  -- _timer
  let type := arch_composite_type none .TYPE_CODE_STRUCT
  let type := append_composite_type_field type "si_tid" int_type
  let type := append_composite_type_field type "si_overrun" int_type
  let type := append_composite_type_field type "si_sigval" sigval_type
  let sifields_type := append_composite_type_field sifields_type "_timer" type
  -- _rt
  let type := arch_composite_type none .TYPE_CODE_STRUCT
  let type := append_composite_type_field type "si_pid" pid_type
  let type := append_composite_type_field type "si_uid" uid_type
  let type := append_composite_type_field type "si_sigval" sigval_type
  let sifields_type := append_composite_type_field sifields_type "_rt" type
  -- _sigchld
  let type := arch_composite_type none .TYPE_CODE_STRUCT
  let type := append_composite_type_field type "si_pid" pid_type
  let type := append_composite_type_field type "si_uid" uid_type
  let type := append_composite_type_field type "si_status" int_type
  let type := append_composite_type_field type "si_utime" clock_type
  let type := append_composite_type_field type "si_stime" clock_type
  let sifields_type := append_composite_type_field sifields_type "_sigchld" type
  -- _sigfault
  let type := arch_composite_type none .TYPE_CODE_STRUCT
  let type := append_composite_type_field type "si_addr" void_ptr_type
  let sifields_type := append_composite_type_field sifields_type "_sigfault" type
  -- _sigpoll
  let type := arch_composite_type none .TYPE_CODE_STRUCT
  let type := append_composite_type_field type "si_band" long_type
  let type := append_composite_type_field type "si_fd" int_type
  append_composite_type_field sifields_type "_sigpoll" type

/-- The type `struct siginfo` as `linux_get_siginfo_type` builds it when the
slot is empty. -/
def build_siginfo_type (gdbarch : Gdbarch) : gdb_type :=
  let int_type := arch_integer_type gdbarch.int_bit false "int"
  let long_type := arch_integer_type gdbarch.long_bit false "long"
  let siginfo_type := arch_composite_type none .TYPE_CODE_STRUCT
  let siginfo_type := set_type_name siginfo_type "siginfo"
  let siginfo_type := append_composite_type_field siginfo_type "si_signo" int_type
  let siginfo_type := append_composite_type_field siginfo_type "si_errno" int_type
  let siginfo_type := append_composite_type_field siginfo_type "si_code" int_type
  append_composite_type_field_aligned siginfo_type "_sifields"
    (build_sifields_type gdbarch) (TYPE_LENGTH long_type)

/-- The struct `linux_gdbarch_data`. -/
structure linux_gdbarch_data where
  siginfo_type : Option gdb_type

/-- The per-architecture data `get_linux_gdbarch_data (gdbarch)` of every
`struct gdbarch`, the architectures being identified by a number. -/
abbrev GdbarchData := Nat → linux_gdbarch_data

/-- The data after `init_linux_gdbarch_data`: every slot is zeroed. -/
def init_linux_gdbarch_data : GdbarchData := fun _ => { siginfo_type := none }

/-- The function `linux_get_siginfo_type`, for the architecture number `id` of
description `gdbarch`: the result and the per-architecture data afterwards. -/
def linux_get_siginfo_type (gdbarch : Gdbarch) (id : Nat) (data : GdbarchData) :
    gdb_type × GdbarchData :=
  match (data id).siginfo_type with
  | some siginfo_type => (siginfo_type, data)
  | none =>
    (build_siginfo_type gdbarch,
      Function.update data id { siginfo_type := some (build_siginfo_type gdbarch) })

/-! ## `linux_info_proc` -/

/-- Modelled from the spec: `enum info_proc_what` of gdb/defs.h is not under
src/.  The report modes: the two presets "minimal" and "all", and one mode per
source. -/
inductive info_proc_what where
  | IP_MINIMAL
  | IP_MAPPINGS
  | IP_STATUS
  | IP_STAT
  | IP_CMDLINE
  | IP_EXE
  | IP_CWD
  | IP_ALL
  deriving DecidableEq, Repr

/-- The labels of the lines the stat decoder prints, in the order of the
source. -/
inductive StatLabel where
  | Process
  | Parent_process
  | Process_group
  | Session_id
  | TTY
  | TTY_owner_process_group
  | Flags
  | Minor_faults
  | Minor_faults_children
  | Major_faults
  | Major_faults_children
  | utime
  | stime
  | utime_children
  | stime_children
  | jiffies_remaining_in_current_time_slice
  | nice_value
  | jiffies_until_next_timeout
  | jiffies_until_next_SIGALRM
  | start_time
  | Virtual_memory_size
  | Resident_set_size
  | rlim
  | Start_of_text
  | End_of_text
  | Start_of_stack
  deriving DecidableEq, Repr

/-- One item of the output of `linux_info_proc`, with the values handed to the
formatter.  `stat_value` is a line `Label: %s` with a number printed by
`pulongest` (`hex` false) or `hex_string` (`hex` true); the warnings carry the
name of the `/proc` file. -/
inductive ProcOutput where
  | process (pid : Int)
  | cmdline (data : List Nat)
  | cwd (data : List Nat)
  | exe (data : List Nat)
  | mapped_address_spaces
  | table_header (addr32 : Bool)
  | table_row (addr32 : Bool) (addr endaddr size offset : Nat) (filename : List Nat)
  | status (data : List Nat)
  | stat_value (label : StatLabel) (hex : Bool) (value : Nat)
  | exec_file (name : List Nat)
  | state (c : Nat)
  | warning_unable_to_open (filename : List Nat)
  | warning_unable_to_read_link (filename : List Nat)
  deriving DecidableEq, Repr

/-- The `error (...)` conditions of `linux_info_proc`. -/
inductive InfoProcError where
  | no_current_process
  | cannot_determine_pid
  | too_many_parameters (args : List Nat)
  deriving DecidableEq, Repr

/-- What a run of `linux_info_proc` did: the output so far, and the error it
raised, if any. -/
structure ProcOutcome where
  out : List ProcOutput
  error : Option InfoProcError
  deriving DecidableEq, Repr

/-- What `linux_info_proc` reads of the debugger and the target:
`target_has_execution`, `current_inferior ()->fake_pid_p` and `->pid`, and the
results of `target_fileio_read_stralloc` and `target_fileio_readlink` for a
file name (`none` is `NULL`). -/
structure ProcTarget where
  target_has_execution : Bool
  fake_pid_p : Bool
  pid : Int
  target_fileio_read_stralloc : List Nat → Option (List Nat)
  target_fileio_readlink : List Nat → Option (List Nat)

/-- The `strtoul (nptr, &endptr, 10)` of the C library, for a 64-bit
`unsigned long`: white space, an optional sign, the longest run of decimal
digits.  Without a digit the value is 0 and `endptr` is `nptr`; a value that
does not fit is `ULONG_MAX`; a minus sign negates. -/
def strtoul (nptr : List Nat) : Nat × List Nat :=
  let p := skip_isspace nptr
  let (minus, p) :=
    if deref p = 43 then (false, p.tail)
    else if deref p = 45 then (true, p.tail)
    else (false, p)
  match scan_decimal p 0 0 with
  | (_, 0) => (0, nptr)
  | (v, n + 1) =>
    (if v < ULONGEST_MOD then (if minus then (ULONGEST_MOD - v) % ULONGEST_MOD else v)
      else ULONGEST_MOD - 1,
     p.drop (n + 1))

/-- The conversion of an `unsigned long` to the 64-bit `long pid`. -/
def to_long (v : Nat) : Int :=
  if v % 2 ^ 64 < 2 ^ 63 then ((v % 2 ^ 64 : Nat) : Int)
  else ((v % 2 ^ 64 : Nat) : Int) - 2 ^ 64

/-- The conversion `(int) n` of a pointer difference. -/
def to_int (n : Nat) : Int :=
  if n % 2 ^ 32 < 2 ^ 31 then ((n % 2 ^ 32 : Nat) : Int)
  else ((n % 2 ^ 32 : Nat) : Int) - 2 ^ 32

/-- The conversion `%.*s` of `printf`: at most `precision` characters of the
string; a negative precision is taken as if it were omitted. -/
def printf_precision_s (precision : Int) (s : List Nat) : List Nat :=
  if precision < 0 then cstring s else (cstring s).take precision.toNat

/-- The C `strchr (p, c)`: the pointer to the first `c` of the string. -/
def strchr : List Nat → Nat → Option (List Nat)
  | [], c => if c = 0 then some [] else none
  | d :: p, c =>
    if d = c then some (d :: p) else if d = 0 then none else strchr p c

/-- The name `/proc/PID/FILE` that `xsnprintf (filename, sizeof filename,
"/proc/%ld/FILE", pid)` builds. -/
def proc_file (pid : Int) (file : String) : List Nat :=
  cs "/proc/" ++ format_d pid ++ 47 :: cs file

/-- Modelled from the spec: `skip_spaces (chp)` of gdb/utils.c is not under
src/.  It returns `NULL` for `NULL`, and otherwise the pointer after the white
space the string begins with. -/
def skip_spaces_or_null (chp : Option (List Nat)) : Option (List Nat) :=
  chp.map skip_spaces

/-- The argument handling at the start of `linux_info_proc`, up to the test for
too many parameters: the pid, or the error raised. -/
def linux_info_proc_args (tgt : ProcTarget) (args : Option (List Nat)) :
    Except InfoProcError Int :=
  let digit : Bool :=
    match args with
    | some a => isdigit (deref a)
    | none => false
  let parsed : Except InfoProcError (Int × Option (List Nat)) :=
    if digit then
      .ok (to_long (strtoul (args.getD [])).1, args.map (fun a => (strtoul a).2))
    else if !tgt.target_has_execution then .error .no_current_process
    else if tgt.fake_pid_p then .error .cannot_determine_pid
    else .ok (tgt.pid, args)
  match parsed with
  | .error e => .error e
  | .ok (pid, args) =>
    match skip_spaces_or_null args with
    | some a =>
      if deref a ≠ 0 then .error (.too_many_parameters (cstring a)) else .ok pid
    | none => .ok pid

/-- The body of `if (cmdline_f)`. -/
def linux_info_proc_cmdline (tgt : ProcTarget) (pid : Int) : List ProcOutput :=
  match tgt.target_fileio_read_stralloc (proc_file pid "cmdline") with
  | some data => [.cmdline (cstring data)]
  | none => [.warning_unable_to_open (proc_file pid "cmdline")]

/-- The body of `if (cwd_f)`. -/
def linux_info_proc_cwd (tgt : ProcTarget) (pid : Int) : List ProcOutput :=
  match tgt.target_fileio_readlink (proc_file pid "cwd") with
  | some data => [.cwd (cstring data)]
  | none => [.warning_unable_to_read_link (proc_file pid "cwd")]

/-- The body of `if (exe_f)`. -/
def linux_info_proc_exe (tgt : ProcTarget) (pid : Int) : List ProcOutput :=
  match tgt.target_fileio_readlink (proc_file pid "exe") with
  | some data => [.exe (cstring data)]
  | none => [.warning_unable_to_read_link (proc_file pid "exe")]

/-- The row printed for one line of `/proc/PID/maps`. -/
def maps_row (gdbarch : Gdbarch) (line : List Nat) : ProcOutput :=
  let m := read_mapping line
  .table_row (gdbarch.addr_bit == 32) m.addr m.endaddr
    ((m.endaddr + ULONGEST_MOD - m.addr) % ULONGEST_MOD) m.offset (cstring m.filename)

/-- The body of `if (mappings_f)`. -/
def linux_info_proc_mappings (gdbarch : Gdbarch) (tgt : ProcTarget) (pid : Int) :
    List ProcOutput :=
  match tgt.target_fileio_read_stralloc (proc_file pid "maps") with
  | some data =>
    [.mapped_address_spaces, .table_header (gdbarch.addr_bit == 32)]
      ++ (strtok_tokens data []).map (maps_row gdbarch)
  | none => [.warning_unable_to_open (proc_file pid "maps")]

/-- The body of `if (status_f)`. -/
def linux_info_proc_status (tgt : ProcTarget) (pid : Int) : List ProcOutput :=
  match tgt.target_fileio_read_stralloc (proc_file pid "status") with
  | some data => [.status (cstring data)]
  | none => [.warning_unable_to_open (proc_file pid "status")]

/-- The labels of the statements `if (*p) printf_filtered (_("Label: %s\n"),
...)` of the stat decoder after the state, in the order of the source, with
whether the number is printed by `hex_string`. -/
def stat_fields : List (StatLabel × Bool) :=
  [(.Parent_process, false), (.Process_group, false), (.Session_id, false),
   (.TTY, false), (.TTY_owner_process_group, false), (.Flags, true),
   (.Minor_faults, false), (.Minor_faults_children, false), (.Major_faults, false),
   (.Major_faults_children, false), (.utime, false), (.stime, false),
   (.utime_children, false), (.stime_children, false),
   (.jiffies_remaining_in_current_time_slice, false), (.nice_value, false),
   (.jiffies_until_next_timeout, false), (.jiffies_until_next_SIGALRM, false),
   (.start_time, false), (.Virtual_memory_size, false), (.Resident_set_size, false),
   (.rlim, false), (.Start_of_text, true), (.End_of_text, true),
   (.Start_of_stack, true)]

/-- The statements `if (*p) printf_filtered (_("Label: %s\n"), pulongest
(strtoulst (p, &p, 10)));` of the stat decoder, one per label of the list. -/
def stat_fields_loop : List (StatLabel × Bool) → List Nat → List ProcOutput
  | [], _ => []
  | (label, hex) :: fields, p =>
    if deref p ≠ 0 then
      .stat_value label hex (strtoulst p 10).1
        :: stat_fields_loop fields (strtoulst p 10).2
    else stat_fields_loop fields p

/-- The statement `if (*p == '(') ...` of the stat decoder: the line with the
name of the executable, when the text at `p` holds a name in parentheses, and
`p` after it. -/
def stat_exec_file (p : List Nat) : List ProcOutput × List Nat :=
  if deref p = 40 then
    match strchr p 41 with
    | some ep =>
      ([.exec_file (printf_precision_s (to_int (p.length - ep.length - 1)) p.tail)],
       ep.tail)
    | none => ([], p)
  else ([], p)

/-- The statement `if (*p) printf_filtered (_("State: %c\n"), *p++);` of the
stat decoder. -/
def stat_state (p : List Nat) : List ProcOutput × List Nat :=
  if deref p ≠ 0 then ([.state (deref p)], p.tail) else ([], p)

/-- The stat decoder: what the body of `if (stat_f)` prints for the contents
`data` of `/proc/PID/stat`. -/
def stat_decoder (data : List Nat) : List ProcOutput :=
  let p := data
  let process := ProcOutput.stat_value .Process false (strtoulst p 10).1
  let p := (strtoulst p 10).2
  let p := skip_spaces p
  let exec_file := (stat_exec_file p).1
  let p := (stat_exec_file p).2
  let p := skip_spaces p
  let state := (stat_state p).1
  let p := (stat_state p).2
  process :: (exec_file ++ state ++ stat_fields_loop stat_fields p)

/-- The body of `if (stat_f)`. -/
def linux_info_proc_stat (tgt : ProcTarget) (pid : Int) : List ProcOutput :=
  match tgt.target_fileio_read_stralloc (proc_file pid "stat") with
  | some data => stat_decoder data
  | none => [.warning_unable_to_open (proc_file pid "stat")]

/-- Implement the "info proc" command: `linux_info_proc`. -/
def linux_info_proc (gdbarch : Gdbarch) (tgt : ProcTarget) (args : Option (List Nat))
    (what : info_proc_what) : ProcOutcome :=
  let cmdline_f : Bool := what = .IP_MINIMAL || what = .IP_CMDLINE || what = .IP_ALL
  let cwd_f : Bool := what = .IP_MINIMAL || what = .IP_CWD || what = .IP_ALL
  let exe_f : Bool := what = .IP_MINIMAL || what = .IP_EXE || what = .IP_ALL
  let mappings_f : Bool := what = .IP_MAPPINGS || what = .IP_ALL
  let status_f : Bool := what = .IP_STATUS || what = .IP_ALL
  let stat_f : Bool := what = .IP_STAT || what = .IP_ALL
  match linux_info_proc_args tgt args with
  | .error e => { out := [], error := some e }
  | .ok pid =>
    { out := [.process pid]
        ++ (if cmdline_f then linux_info_proc_cmdline tgt pid else [])
        ++ (if cwd_f then linux_info_proc_cwd tgt pid else [])
        ++ (if exe_f then linux_info_proc_exe tgt pid else [])
        ++ (if mappings_f then linux_info_proc_mappings gdbarch tgt pid else [])
        ++ (if status_f then linux_info_proc_status tgt pid else [])
        ++ (if stat_f then linux_info_proc_stat tgt pid else []),
      error := none }

/-! ## Vocabulary of the statements -/

/-- The callback invocations of the outer loop on the given tokens. -/
def regions_of_lines (lines : List (List Nat)) : List RegionArgs :=
  match regions_loop record_region lines.length lines [] with
  | some calls => calls
  | none => []

/-- The state update a callback performs (its `int` result dropped). -/
def callback_step {σ : Type} (func : RegionArgs → σ → Int × σ) (obfd : σ)
    (r : RegionArgs) : σ := (func r obfd).2

/-- A region that `linux_make_mappings_callback` does not skip: its pathname is
not empty and its inode is not zero. -/
def qualifies (r : RegionArgs) : Bool := deref r.filename != 0 && r.inode != 0

/-- The layout of the descriptor of the file-mapping note as the specification
words it, for fields of `w` bytes: the count, the page size 1, then for each
region the triple start, end, file offset, then the pathnames, each followed by
a NUL.  The end of a region is `vaddr + size` in `ULONGEST` arithmetic. -/
def file_mapping_layout (w : Nat) (order : bfd_endian) (q : List RegionArgs) :
    List Nat :=
  store_integer w order q.length ++ store_integer w order 1
    ++ q.flatMap (fun r => store_integer w order r.vaddr
          ++ store_integer w order ((r.vaddr + r.size) % ULONGEST_MOD)
          ++ store_integer w order r.offset)
    ++ q.flatMap (fun r => cstring r.filename ++ [0])

/-- The value of a string of digits of the base, most significant first. -/
def numeral_value (base : Nat) (ds : List Nat) : Nat :=
  ds.foldl (fun acc c => acc * base + digit_to_int c) 0

/-- A numeral of the base: a non-empty string of digits of the base. -/
def is_numeral (base : Nat) (ds : List Nat) : Prop :=
  ds ≠ [] ∧ ∀ c ∈ ds, is_digit_in_base c base = true

/-- The character of a digit value: `0`..`9`, then `a`..`z`. -/
def digit_char (d : Nat) : Nat := if d < 10 then 48 + d else 87 + d

/-- The shortest numeral of `n` in the base, in lower case (as `%lx` and `%lu`
print it). -/
def render (base n : Nat) : List Nat :=
  if n = 0 then [48] else (Nat.digits base n).reverse.map digit_char

/-- A token of a mapping line: not empty, without white space and NUL. -/
def is_token (t : List Nat) : Prop :=
  t ≠ [] ∧ ∀ c ∈ t, c ≠ 0 ∧ isspace c = false

/-- The mapping line `start-end perms offset dev inode pathname` with the
given numerals and tokens, fields separated by one space. -/
def mapping_line (start end_ perms offset dev inode pathname : List Nat) :
    List Nat :=
  start ++ 45 :: (end_ ++ 32 :: (perms ++ 32 :: (offset ++ 32 ::
    (dev ++ 32 :: (inode ++ 32 :: pathname)))))

/-- A detail line `Key: N kB` of the smaps format: the keyword (with its
colon), the number of spaces after it and the decimal digits of the number. -/
structure Detail where
  key : List Nat
  pad : Nat
  digits : List Nat
  deriving DecidableEq, Repr

/-- The text of a detail line. -/
def Detail.line (d : Detail) : List Nat :=
  d.key ++ (List.replicate d.pad 32 ++ (d.digits ++ cs " kB"))

/-- The number a detail line carries. -/
def Detail.number (d : Detail) : Nat :=
  d.digits.foldl (fun acc c => acc * 10 + (c - 48)) 0

/-- A well-formed detail line: the keyword starts with an upper-case letter,
has no white space or NUL and at most 64 characters; at least one space
follows; the number has at least one digit. -/
def Detail.wf (d : Detail) : Prop :=
  (65 ≤ deref d.key ∧ deref d.key ≤ 90)
    ∧ (∀ c ∈ d.key, c ≠ 0 ∧ isspace c = false)
    ∧ d.key.length ≤ 64
    ∧ 1 ≤ d.pad
    ∧ d.digits ≠ [] ∧ (∀ c ∈ d.digits, isdigit c = true)

/-- The keywords whose nonzero counter marks a region as modified. -/
def dirty_key (key : List Nat) : Bool :=
  key == cs "Shared_Dirty:" || key == cs "Private_Dirty:" || key == cs "Swap:"
    || key == cs "Anonymous:"

/-- A token that starts with an upper-case letter `A`..`Z`. -/
def starts_upper (line : List Nat) : Prop := 65 ≤ deref line ∧ deref line ≤ 90

instance (line : List Nat) : Decidable (starts_upper line) := by
  unfold starts_upper
  infer_instance

/-- The text the enumerator reads: none without a real pid, else the contents
of smaps when readable, else those of maps. -/
def enumerated_text (inf : Inferior) : Option (List Nat) :=
  if inf.fake_pid_p then none
  else match inf.smaps with
    | some d => some d
    | none => inf.maps

/-- A request to one of the note writers. -/
inductive WriteRequest where
  | prpsinfo (fname psargs : List Nat)
  | prstatus (lwp cursig : Int) (gregs : List Nat)
  | register_note (sect_name data : List Nat) (size : Nat)
  | note (n : Note)
  deriving DecidableEq, Repr

/-- The writer serves a request on a note stream. -/
def ElfcoreWriter.write (w : ElfcoreWriter) (note_data : NoteData) :
    WriteRequest → NoteData
  | .prpsinfo fname psargs => w.elfcore_write_prpsinfo note_data fname psargs
  | .prstatus lwp cursig gregs => w.elfcore_write_prstatus note_data lwp cursig gregs
  | .register_note sect_name data size =>
    w.elfcore_write_register_note note_data sect_name data size
  | .note n => w.elfcore_write_note note_data n

/-- A note-serialization step of the build: a request to a writer, or an
invocation of the register collector for a thread. -/
inductive BuildStep where
  | write (r : WriteRequest)
  | collect (rc : regcache) (ptid : ptid_t) (stop_signal : Nat)
  deriving DecidableEq, Repr

/-- A step performed on a note stream. -/
def run_step (w : ElfcoreWriter) (collect : Collector) (note_data : NoteData) :
    BuildStep → NoteData
  | .write r => w.write note_data r
  | .collect rc ptid stop_signal => collect rc ptid note_data stop_signal

/-- Every step of the list, performed in order from the stream given, succeeds:
none returns the failure sentinel. -/
def steps_succeed {α : Type} (run : NoteData → α → NoteData) :
    NoteData → List α → Prop
  | _, [] => True
  | note_data, s :: rest =>
    run note_data s ≠ none ∧ steps_succeed run (run note_data s) rest

/-- The argument string of the process-info note: the basename, then a space
and the inferior arguments when there are any. -/
def psargs_of (fname : List Nat) (inferior_args : Option (List Nat)) : List Nat :=
  match inferior_args with
  | some args => fname ++ cs " " ++ cstring args
  | none => fname

/-- The process-info step: one request when the executable path is known. -/
def prpsinfo_steps (tgt : LiveTarget) : List BuildStep :=
  match tgt.exec_file with
  | some exec_file =>
    [.write (.prpsinfo (lbasename exec_file)
      (psargs_of (lbasename exec_file) tgt.inferior_args))]
  | none => []

/-- The signal-info request of a thread: one note when signal-info bytes were
obtained with that thread selected. -/
def siginfo_requests (arch : NoteArch) (tgt : LiveTarget) (info : thread_info) :
    List WriteRequest :=
  match linux_get_siginfo_data arch tgt info.ptid with
  | some bytes => [.note { name := cs "CORE", type := NT_SIGINFO, desc := bytes }]
  | none => []

/-- The steps for one thread: the register collector, on a register cache
fetched with that thread selected, then the signal-info note. -/
def thread_steps (arch : NoteArch) (tgt : LiveTarget) (stop_signal : Nat)
    (info : thread_info) : List BuildStep :=
  .collect { ptid := info.ptid, fetched_as := some info.ptid } info.ptid stop_signal
    :: (siginfo_requests arch tgt info).map .write

/-- The threads of the thread list whose process id is `pid`, in order. -/
def threads_of (tgt : LiveTarget) (pid : Int) : List thread_info :=
  tgt.threads.filter (fun t => t.ptid.pid = pid)

/-- The auxiliary-vector request: one note, with the whole vector, when the
vector is not empty. -/
def nonempty_auxv_requests (tgt : LiveTarget) : List WriteRequest :=
  match tgt.auxv_object with
  | some (b :: bytes) => [.note { name := cs "CORE", type := NT_AUXV, desc := b :: bytes }]
  | _ => []

/-- The auxiliary-vector request for a vector of any length.  The length is
kept in an `int`, so the vector counts with its length modulo `2 ^ 32`: there
is one note when that number is positive and below `2 ^ 31`, and the note holds
that many bytes from the start of the vector.  For a vector shorter than `2 ^
31` bytes this is `nonempty_auxv_requests`. -/
def auxv_requests (tgt : LiveTarget) : List WriteRequest :=
  match tgt.auxv_object with
  | some bytes =>
    if 0 < bytes.length % 2 ^ 32 ∧ bytes.length % 2 ^ 32 < 2 ^ 31 then
      [.note { name := cs "CORE", type := NT_AUXV,
               desc := bytes.take (bytes.length % 2 ^ 32) }]
    else []
  | none => []

/-- The SPU notes of one context: one per file of the list, in order, whose
object can be read and is not empty.  The object of a file is the one with the
annex `<fd>/<file>`, and its note has the name `SPU/<fd>/<file>`. -/
def spu_context_notes (tgt : LiveTarget) (fd : Int) (files : List (List Nat)) :
    List Note :=
  files.filterMap (fun file =>
    match tgt.spu_object (format_d fd ++ 47 :: file) with
    | some (b :: bytes) =>
      some { name := cs "SPU/" ++ (format_d fd ++ 47 :: file), type := NT_SPU,
             desc := b :: bytes }
    | _ => none)

/-- The names of the SPU files, in the order of their notes. -/
def spu_file_names : List (List Nat) :=
  [cs "object-id", cs "mem", cs "regs", cs "fpcr", cs "lslr", cs "decr",
   cs "decr_status", cs "signal1", cs "signal1_type", cs "signal2",
   cs "signal2_type", cs "event_mask", cs "event_status", cs "mbox_info",
   cs "ibox_info", cs "wbox_info", cs "dma_info", cs "proxydma_info"]

/-- The byte at the index `i` of the buffer that holds the SPU ids: a byte of
the ids object, or, from the length of the object on, a byte that follows the
object in the buffer. -/
def spu_ids_byte (slack : Nat → Nat) (ids : List Nat) (i : Nat) : Nat :=
  if i < ids.length then ids.getD i 0 else slack (i - ids.length)

/-- The context id that four bytes stand for: their 32-bit value in the byte
order, as a two's-complement `int`. -/
def spu_context_id (order : bfd_endian) (b0 b1 b2 b3 : Nat) : Int :=
  match order with
  | .BFD_ENDIAN_LITTLE =>
    if b0 % 256 + 256 * (b1 % 256) + 65536 * (b2 % 256) + 16777216 * (b3 % 256)
        < 2 ^ 31 then
      ((b0 % 256 + 256 * (b1 % 256) + 65536 * (b2 % 256) + 16777216 * (b3 % 256) : Nat)
        : Int)
    else
      ((b0 % 256 + 256 * (b1 % 256) + 65536 * (b2 % 256) + 16777216 * (b3 % 256) : Nat)
        : Int) - 2 ^ 32
  | .BFD_ENDIAN_BIG =>
    if 16777216 * (b0 % 256) + 65536 * (b1 % 256) + 256 * (b2 % 256) + b3 % 256
        < 2 ^ 31 then
      ((16777216 * (b0 % 256) + 65536 * (b1 % 256) + 256 * (b2 % 256) + b3 % 256 : Nat)
        : Int)
    else
      ((16777216 * (b0 % 256) + 65536 * (b1 % 256) + 256 * (b2 % 256) + b3 % 256 : Nat)
        : Int) - 2 ^ 32

/-- The SPU context ids the build visits, in order: one for every offset `4 *
k` below the length of the ids object, made of the four bytes of the buffer
from that offset on, in the byte order of the target architecture.  When the
length of the object is not a multiple of four, the last id takes in bytes that
follow the object in the buffer. -/
def spu_context_ids (tgt : LiveTarget) : List Int :=
  match tgt.spu_ids_object with
  | some ids =>
    (List.range ((ids.length + 3) / 4)).map (fun k =>
      spu_context_id tgt.target_gdbarch.byte_order
        (spu_ids_byte tgt.spu_ids_slack ids (4 * k))
        (spu_ids_byte tgt.spu_ids_slack ids (4 * k + 1))
        (spu_ids_byte tgt.spu_ids_slack ids (4 * k + 2))
        (spu_ids_byte tgt.spu_ids_slack ids (4 * k + 3)))
  | none => []

/-- The SPU notes: those of each context id, in the order of the ids. -/
def spu_notes (tgt : LiveTarget) : List Note :=
  (spu_context_ids tgt).flatMap (fun fd => spu_context_notes tgt fd spu_file_names)

/-- The file-mapping request: one note when a region qualifies. -/
def mapping_requests (gdbarch : Gdbarch) (tgt : LiveTarget) : List WriteRequest :=
  if (delivered_regions tgt.inferior).filter qualifies = [] then []
  else [.note { name := cs "CORE", type := NT_FILE,
                desc := file_mapping_layout (gdbarch.long_bit / 8) gdbarch.byte_order
                  ((delivered_regions tgt.inferior).filter qualifies) }]

/-- The steps after the threads: auxiliary vector, SPU notes, file mappings. -/
def tail_requests (gdbarch : Gdbarch) (tgt : LiveTarget) : List WriteRequest :=
  auxv_requests tgt ++ (spu_notes tgt).map .note ++ mapping_requests gdbarch tgt

/-- The note-serialization steps of a build, in order, for the current-thread
selector `inferior_ptid`: process info, the threads of the process, auxiliary
vector, SPU notes, file mappings. -/
def expected_steps (gdbarch : Gdbarch) (arch : NoteArch) (tgt : LiveTarget)
    (inferior_ptid : ptid_t) : List BuildStep :=
  prpsinfo_steps tgt
    ++ (threads_of tgt inferior_ptid.pid).flatMap
        (thread_steps arch tgt (find_stop_signal tgt.threads inferior_ptid))
    ++ (tail_requests gdbarch tgt).map .write

/-- The request `linux_collect_thread_registers` makes for one register
section: the status note for the section `.reg`, a register note for any
other. -/
def section_request (arch : NoteArch) (tgt : LiveTarget) (rc : regcache) (lwp : Int)
    (stop_signal : Nat) (sect : core_regset_section) : WriteRequest :=
  if streq sect.sect_name (cs ".reg") then
    .prstatus lwp (tgt.gdb_signal_to_host stop_signal)
      (arch.collect_regset sect.sect_name sect.size rc)
  else
    .register_note sect.sect_name (arch.collect_regset sect.sect_name sect.size rc)
      sect.size

/-- The requests for one thread with the collector
`linux_collect_thread_registers`: one per register section, in the order of
the section list, then the signal-info note. -/
def thread_requests (arch : NoteArch) (tgt : LiveTarget) (stop_signal : Nat)
    (info : thread_info) : List WriteRequest :=
  arch.core_regset_sections.map
      (section_request arch tgt { ptid := info.ptid, fetched_as := some info.ptid }
        (if info.ptid.lwp = 0 then info.ptid.tid else info.ptid.lwp) stop_signal)
    ++ siginfo_requests arch tgt info

/-- The requests of a build with the collector
`linux_collect_thread_registers`, in order. -/
def expected_requests (gdbarch : Gdbarch) (arch : NoteArch) (tgt : LiveTarget)
    (inferior_ptid : ptid_t) : List WriteRequest :=
  (match tgt.exec_file with
    | some exec_file =>
      [.prpsinfo (lbasename exec_file)
        (psargs_of (lbasename exec_file) tgt.inferior_args)]
    | none => [])
    ++ (threads_of tgt inferior_ptid.pid).flatMap
        (thread_requests arch tgt (find_stop_signal tgt.threads inferior_ptid))
    ++ tail_requests gdbarch tgt

/-- The observation is as it should be for the stop signal `s`: a register
fetch or signal-info read is made with the thread selected that it is made for,
and the collector is given the signal `s`. -/
def event_ok (s : Nat) : TraceEvent → Prop
  | .fetch_registers selector thread => selector = thread
  | .read_siginfo selector thread => selector = thread
  | .collect _ stop_signal => stop_signal = s

/-- The start of a successful build: the executable path is known, or the
first thread of the thread list belongs to the process `pid`. -/
def has_first_note (tgt : LiveTarget) (pid : Int) : Prop :=
  tgt.exec_file ≠ none ∨ ∃ t rest, tgt.threads = t :: rest ∧ t.ptid.pid = pid

/-- The observations one visit of a thread of the process adds: the register
fetch and, when the architecture has a siginfo type, the signal-info read, both
with that thread selected, then the invocation of the collector. -/
def thread_events (arch : NoteArch) (stop_signal : Nat) (info : thread_info) :
    List TraceEvent :=
  [TraceEvent.fetch_registers info.ptid info.ptid]
    ++ (match arch.siginfo_length with
        | some _ => [TraceEvent.read_siginfo info.ptid info.ptid]
        | none => [])
    ++ [TraceEvent.collect info.ptid stop_signal]

/-- The requests a step stands for when the collector is
`linux_collect_thread_registers`. -/
def step_requests (arch : NoteArch) (tgt : LiveTarget) : BuildStep → List WriteRequest
  | .write r => [r]
  | .collect rc ptid stop_signal =>
    arch.core_regset_sections.map
      (section_request arch tgt rc (if ptid.lwp = 0 then ptid.tid else ptid.lwp)
        stop_signal)

instance steps_succeed_decidable {α : Type} (run : NoteData → α → NoteData) :
    ∀ (note_data : NoteData) (steps : List α),
      Decidable (steps_succeed run note_data steps)
  | _, [] => isTrue trivial
  | note_data, s :: rest =>
    match steps_succeed_decidable run (run note_data s) rest with
    | isTrue h =>
      if h1 : run note_data s ≠ none then isTrue ⟨h1, h⟩
      else isFalse (fun hc => h1 hc.1)
    | isFalse h => isFalse (fun hc => h hc.2)

/-- A writer that never fails and records every request as a note at the end
of the stream: the process info under type 3 (`NT_PRPSINFO`), the status under
type 1 (`NT_PRSTATUS`), a register section under its section name. -/
def recording_writer : ElfcoreWriter :=
  { elfcore_write_note := fun note_data n => some (note_data.getD [] ++ [n]),
    elfcore_write_prpsinfo := fun note_data fname psargs =>
      some (note_data.getD [] ++ [{ name := cs "CORE", type := 3,
                                    desc := fname ++ 0 :: psargs }]),
    elfcore_write_prstatus := fun note_data _ _ gregs =>
      some (note_data.getD [] ++ [{ name := cs "CORE", type := 1, desc := gregs }]),
    elfcore_write_register_note := fun note_data sect_name data _ =>
      some (note_data.getD [] ++ [{ name := sect_name, type := 0, desc := data }]) }

/-- The recording writer, except that writing the status note fails. -/
def failing_prstatus_writer : ElfcoreWriter :=
  { recording_writer with elfcore_write_prstatus := fun _ _ _ _ => none }

/-- An architecture with the three register sections `.reg`, `.reg2` and
`.reg-xfp`, whose register bytes are the lwp of the thread the cache was
fetched for, and with a siginfo type of the length given, if any. -/
def example_arch (siginfo_length : Option Nat) : NoteArch :=
  { core_regset_sections := [⟨cs ".reg", 2⟩, ⟨cs ".reg2", 1⟩, ⟨cs ".reg-xfp", 1⟩],
    collect_regset := fun _ size rc =>
      List.replicate size ((rc.fetched_as.map (fun p => p.lwp.toNat)).getD 0),
    siginfo_length := siginfo_length }

/-- A live target of process 10 with the threads and executable path given,
signal-info bytes `[1, 2]` for every thread, and neither auxiliary vector,
SPU contexts nor readable `/proc` files. -/
def example_target (exec_file : Option (List Nat)) (threads : List thread_info) :
    LiveTarget :=
  { exec_file := exec_file,
    inferior_args := some (cs "-n"),
    threads := threads,
    siginfo_object := fun _ => some [1, 2],
    auxv_object := none,
    spu_ids_object := none,
    spu_object := fun _ => none,
    gdb_signal_to_host := fun s => (s : Int),
    inferior := { fake_pid_p := false, smaps := none, maps := none },
    target_gdbarch := ⟨64, 64, 32, 64, .BFD_ENDIAN_LITTLE⟩,
    spu_ids_slack := fun _ => 0 }

/-- The example target with an auxiliary vector of `2 ^ 31` bytes, a length
that the `int auxv_len` of the code cannot hold. -/
def example_long_auxv_target (exec_file : Option (List Nat))
    (threads : List thread_info) : LiveTarget :=
  { example_target exec_file threads with
    auxv_object := some (List.replicate (2 ^ 31) 0) }

/-- A live target of process 10 with every source of notes present: the
executable `/bin/cat` run with `-n`, the threads given, signal-info bytes `[1,
2]` for every thread, an auxiliary vector of four bytes, an SPU ids object of
five bytes (the context 3 and one more byte, 0, followed in the buffer by the
bytes 0, 1, 4), the SPU objects `3/mem`, `3/regs` (empty) and `260/regs`, and a
`maps` file with one region of `/bin/cat`.  The target architecture, whose
byte order decodes the SPU ids, is big-endian. -/
def example_full_target (threads : List thread_info) : LiveTarget :=
  { exec_file := some (cs "/bin/cat"),
    inferior_args := some (cs "-n"),
    threads := threads,
    siginfo_object := fun _ => some [1, 2],
    auxv_object := some [6, 0, 0, 0],
    spu_ids_object := some [0, 0, 0, 3, 0],
    spu_object := fun annex =>
      if annex = cs "3/mem" then some [7]
      else if annex = cs "3/regs" then some []
      else if annex = cs "260/regs" then some [8, 9]
      else none,
    gdb_signal_to_host := fun s => (s : Int),
    inferior :=
      { fake_pid_p := false, smaps := none,
        maps := some (cs "400000-401000 r-xp 00000000 08:01 1234 /bin/cat\n") },
    target_gdbarch := ⟨64, 64, 32, 64, .BFD_ENDIAN_BIG⟩,
    spu_ids_slack := fun i => if i = 1 then 1 else if i = 2 then 4 else 0 }

/-- The argument text names a pid: it is present and begins with a decimal
digit. -/
def names_pid (args : Option (List Nat)) : Bool :=
  match args with
  | some a => isdigit (deref a)
  | none => false

/-- The run of decimal digits the argument text begins with. -/
def pid_digits (args : Option (List Nat)) : List Nat :=
  (args.getD []).takeWhile isdigit

/-- The value of a string of decimal digits. -/
def decimal_value (ds : List Nat) : Nat :=
  ds.foldl (fun acc c => acc * 10 + (c - 48)) 0

/-- What is left of the argument text after the leading decimal digits and the
spaces that follow them. -/
def after_pid (args : Option (List Nat)) : List Nat :=
  skip_spaces ((args.getD []).dropWhile isdigit)

/-- A target without readable `/proc` files, with the process state given. -/
def example_proc_target (target_has_execution fake_pid_p : Bool) (pid : Int) :
    ProcTarget :=
  { target_has_execution := target_has_execution,
    fake_pid_p := fake_pid_p,
    pid := pid,
    target_fileio_read_stralloc := fun _ => none,
    target_fileio_readlink := fun _ => none }

/-- The sources of the report of `linux_info_proc`. -/
inductive ProcSource where
  | cmdline
  | cwd
  | exe
  | mappings
  | status
  | stat
  deriving DecidableEq, Repr

/-- The sources a report mode selects, in the order of the report: "minimal"
selects the command line, the working directory and the executable, "all"
selects all six, every other mode its own source. -/
def selected_sources : info_proc_what → List ProcSource
  | .IP_MINIMAL => [.cmdline, .cwd, .exe]
  | .IP_MAPPINGS => [.mappings]
  | .IP_STATUS => [.status]
  | .IP_STAT => [.stat]
  | .IP_CMDLINE => [.cmdline]
  | .IP_EXE => [.exe]
  | .IP_CWD => [.cwd]
  | .IP_ALL => [.cmdline, .cwd, .exe, .mappings, .status, .stat]

/-- What the target gives for a source of the process `pid`: the contents of
the `/proc` file or the target of the link, `none` when it cannot be read. -/
def source_data (tgt : ProcTarget) (pid : Int) : ProcSource → Option (List Nat)
  | .cmdline => tgt.target_fileio_read_stralloc (proc_file pid "cmdline")
  | .cwd => tgt.target_fileio_readlink (proc_file pid "cwd")
  | .exe => tgt.target_fileio_readlink (proc_file pid "exe")
  | .mappings => tgt.target_fileio_read_stralloc (proc_file pid "maps")
  | .status => tgt.target_fileio_read_stralloc (proc_file pid "status")
  | .stat => tgt.target_fileio_read_stralloc (proc_file pid "stat")

/-- The labelled section of a source that was read. -/
def source_section (gdbarch : Gdbarch) : ProcSource → List Nat → List ProcOutput
  | .cmdline, data => [.cmdline (cstring data)]
  | .cwd, data => [.cwd (cstring data)]
  | .exe, data => [.exe (cstring data)]
  | .mappings, data =>
    [.mapped_address_spaces, .table_header (gdbarch.addr_bit == 32)]
      ++ (strtok_tokens data []).map (maps_row gdbarch)
  | .status, data => [.status (cstring data)]
  | .stat, data => stat_decoder data

/-- The warning for a source that cannot be read. -/
def source_warning (pid : Int) : ProcSource → ProcOutput
  | .cmdline => .warning_unable_to_open (proc_file pid "cmdline")
  | .cwd => .warning_unable_to_read_link (proc_file pid "cwd")
  | .exe => .warning_unable_to_read_link (proc_file pid "exe")
  | .mappings => .warning_unable_to_open (proc_file pid "maps")
  | .status => .warning_unable_to_open (proc_file pid "status")
  | .stat => .warning_unable_to_open (proc_file pid "stat")

/-- The item of the report for a source: its section, or the warning. -/
def source_item (gdbarch : Gdbarch) (tgt : ProcTarget) (pid : Int) (s : ProcSource) :
    List ProcOutput :=
  match source_data tgt pid s with
  | some data => source_section gdbarch s data
  | none => [source_warning pid s]

/-- An item of output that is a warning. -/
def is_warning : ProcOutput → Bool
  | .warning_unable_to_open _ => true
  | .warning_unable_to_read_link _ => true
  | _ => false

/-- The text of a stat record: the pid, the name in parentheses, the state
character, then the fields given, each after one space, then the rest of the
text. -/
def stat_record (pid name : List Nat) (state : Nat) (fields : List (List Nat))
    (rest : List Nat) : List Nat :=
  pid ++ 32 :: 40 :: (name ++ 41 :: 32 :: state
    :: (fields.flatMap (fun f => 32 :: f) ++ rest))

/-- The lines of the labels given, in order, each with the value of the decimal
numeral at its position in the list of fields; a label without a field has no
line. -/
def stat_lines (labels : List (StatLabel × Bool)) (fields : List (List Nat)) :
    List ProcOutput :=
  List.zipWith (fun l f => ProcOutput.stat_value l.1 l.2 (numeral_value 10 f))
    labels fields

/-- The three lines every complete record starts with: pid, name of the
executable, state. -/
def stat_head (pid name : List Nat) (state : Nat) : List ProcOutput :=
  [.stat_value .Process false (numeral_value 10 pid), .exec_file name, .state state]

/-- A field of a stat record: a decimal numeral whose value fits `ULONGEST`. -/
def is_stat_field (f : List Nat) : Prop :=
  is_numeral 10 f ∧ numeral_value 10 f < ULONGEST_MOD

/-- A target with execution, process 42, whose `/proc/42/cmdline` and
`/proc/42/stat` have the contents given and whose other files and links cannot
be read. -/
def example_proc_files (cmdline stat : List Nat) : ProcTarget :=
  { target_has_execution := true,
    fake_pid_p := false,
    pid := 42,
    target_fileio_read_stralloc := fun name =>
      if name = cs "/proc/42/cmdline" then some cmdline
      else if name = cs "/proc/42/stat" then some stat
      else none,
    target_fileio_readlink := fun _ => none }

instance (f : List Nat) : Decidable (is_stat_field f) := by
  unfold is_stat_field is_numeral
  infer_instance

/-- The 25 fields after the state of a stat record of a process 42. -/
def example_stat_fields : List (List Nat) :=
  [cs "1", cs "42", cs "42", cs "34816", cs "42", cs "4194304", cs "100", cs "0",
   cs "1", cs "0", cs "2", cs "3", cs "0", cs "0", cs "20", cs "0", cs "1", cs "0",
   cs "5000", cs "8000000", cs "200", cs "18446744073709551615", cs "4194304",
   cs "4240000", cs "140730000000000"]

/-- An item of the output of the reader that is a row of the table. -/
def is_table_row : Output → Bool
  | .table_row _ _ _ _ _ _ => true
  | _ => false

/-- The pointer `p` points into the string `line`: `p` is what is left of the
line after some characters none of which is the NUL. -/
def points_into (line p : List Nat) : Prop :=
  ∃ pre, line = pre ++ p ∧ ∀ c ∈ pre, c ≠ 0

/-- Where the digit loop of `strtoulst` starts: after the white space, the
sign and, in base 16, the `0x`. -/
def digits_start (num : List Nat) (base : Nat) : List Nat :=
  let p := skip_isspace num
  let p := if deref p = 43 ∨ deref p = 45 then p.tail else p
  if base = 16 ∧ deref p = 48 ∧ (deref p.tail = 120 ∨ deref p.tail = 88)
  then p.tail.tail else p

/-- The longest run of digits of the base the text begins with. -/
def leading_digits (base : Nat) (p : List Nat) : List Nat :=
  p.takeWhile (fun c => is_digit_in_base c base)

/-- The text at a numeric field is plain: after the white space there is no
sign and, in base 16, no `0x`, and the value of the digits that follow fits
`ULONGEST`. -/
def plain_field (base : Nat) (p : List Nat) : Prop :=
  deref (skip_isspace p) ≠ 43 ∧ deref (skip_isspace p) ≠ 45
    ∧ ¬ (base = 16 ∧ deref (skip_isspace p) = 48
          ∧ (deref (skip_isspace p).tail = 120 ∨ deref (skip_isspace p).tail = 88))
    ∧ numeral_value base (leading_digits base (skip_isspace p)) < ULONGEST_MOD

end LinuxTdep

namespace LinuxTdep

/-! ## The enumerator: fuel and the callback -/

theorem scan_smaps_counters_length (lines : List (List Nat)) (m a : Bool) :
    (scan_smaps_counters lines m a).2.2.length ≤ lines.length := by
  induction lines generalizing m a with
  | nil => simp [scan_smaps_counters]
  | cons line rest ih =>
    unfold scan_smaps_counters
    split
    · split
      · simp
      · exact Nat.le_succ_of_le (ih _ _)
    · simp

theorem scan_smaps_counters_suffix (lines : List (List Nat)) (m a : Bool) :
    (scan_smaps_counters lines m a).2.2 <:+ lines := by
  induction lines generalizing m a with
  | nil => simp [scan_smaps_counters]
  | cons line rest ih =>
    unfold scan_smaps_counters
    split
    · split
      · exact List.suffix_refl _
      · exact (ih _ _).trans (List.suffix_cons _ _)
    · exact List.suffix_refl _

theorem foldl_record_region (calls acc : List RegionArgs) :
    calls.foldl (callback_step record_region) acc = acc ++ calls := by
  induction calls generalizing acc with
  | nil => simp
  | cons r calls ih => simp [List.foldl_cons, callback_step, record_region, ih]

/-- With fuel for every token, the outer loop ends, and what it does to the
datum of any callback is a fold over one list of regions. -/
theorem regions_loop_exists (n : Nat) :
    ∀ lines : List (List Nat), lines.length ≤ n →
      ∃ calls : List RegionArgs, ∀ (σ : Type) (func : RegionArgs → σ → Int × σ)
        (fuel : Nat) (obfd : σ), lines.length ≤ fuel →
        regions_loop func fuel lines obfd
          = some (calls.foldl (callback_step func) obfd) := by
  induction n with
  | zero =>
    intro lines h
    have : lines = [] := List.length_eq_zero.mp (Nat.le_zero.mp h)
    subst this
    exact ⟨[], fun σ func fuel obfd _ => by cases fuel <;> simp [regions_loop]⟩
  | succ n ih =>
    intro lines h
    cases lines with
    | nil => exact ⟨[], fun σ func fuel obfd _ => by cases fuel <;> simp [regions_loop]⟩
    | cons line rest =>
      have hlen := scan_smaps_counters_length rest false false
      have hrest : rest.length ≤ n := by simpa using h
      obtain ⟨calls, hcalls⟩ := ih (scan_smaps_counters rest false false).2.2
        (le_trans hlen hrest)
      refine ⟨region_of_line line (scan_smaps_counters rest false false).1
        (scan_smaps_counters rest false false).2.1 :: calls, ?_⟩
      intro σ func fuel obfd hfuel
      cases fuel with
      | zero => simp at hfuel
      | succ fuel =>
        have hf : rest.length ≤ fuel := by simpa using hfuel
        simp only [regions_loop, List.foldl_cons, callback_step]
        exact hcalls σ func fuel _ (le_trans hlen hf)

/-- With enough fuel the outer loop folds the callback over
`regions_of_lines`. -/
theorem regions_loop_eq_foldl {σ : Type} (func : RegionArgs → σ → Int × σ)
    (lines : List (List Nat)) (fuel : Nat) (obfd : σ)
    (hfuel : lines.length ≤ fuel) :
    regions_loop func fuel lines obfd
      = some ((regions_of_lines lines).foldl (callback_step func) obfd) := by
  obtain ⟨calls, hcalls⟩ := regions_loop_exists lines.length lines le_rfl
  have h1 := hcalls _ record_region lines.length [] le_rfl
  have h2 : regions_of_lines lines = calls := by
    simp [regions_of_lines, h1, foldl_record_region]
  rw [h2]
  exact hcalls σ func fuel obfd hfuel

/-- The first pass of the outer loop: the mapping line, its counters. -/
theorem regions_of_lines_cons (line : List Nat) (rest : List (List Nat)) :
    regions_of_lines (line :: rest)
      = region_of_line line (scan_smaps_counters rest false false).1
          (scan_smaps_counters rest false false).2.1
        :: regions_of_lines (scan_smaps_counters rest false false).2.2 := by
  have hlen := scan_smaps_counters_length rest false false
  conv_lhs => unfold regions_of_lines
  simp only [List.length_cons, regions_loop]
  rw [regions_loop_eq_foldl record_region _ rest.length _ hlen]
  simp [foldl_record_region, callback_step, record_region]

theorem regions_of_lines_nil : regions_of_lines [] = [] := by
  simp [regions_of_lines, regions_loop]

/-- The tokens the enumerator reads: those of smaps, else of maps. -/
theorem linux_find_memory_regions_full_eq {σ : Type} (inf : Inferior)
    (func : RegionArgs → σ → Int × σ) (obfd : σ) :
    ∃ code : Int, linux_find_memory_regions_full inf func obfd
      = some (code, (delivered_regions inf).foldl (callback_step func) obfd) := by
  unfold delivered_regions linux_find_memory_regions_full
  by_cases hfake : inf.fake_pid_p = true
  · exact ⟨1, by simp [hfake]⟩
  · cases hs : inf.smaps with
    | some d =>
      refine ⟨0, ?_⟩
      simp [hfake, regions_loop_eq_foldl, foldl_record_region]
    | none =>
      cases hm : inf.maps with
      | some d =>
        refine ⟨0, ?_⟩
        simp [hfake, regions_loop_eq_foldl, foldl_record_region]
      | none => exact ⟨1, by simp [hfake]⟩

end LinuxTdep

namespace LinuxTdep

theorem delivered_regions_eq (inf : Inferior) :
    delivered_regions inf
      = match enumerated_text inf with
        | some d => regions_of_lines (strtok_tokens d [])
        | none => [] := by
  unfold delivered_regions linux_find_memory_regions_full enumerated_text
  by_cases hfake : inf.fake_pid_p = true
  · simp [hfake]
  · cases hs : inf.smaps with
    | some d => simp [hfake, regions_loop_eq_foldl, foldl_record_region]
    | none =>
      cases hm : inf.maps with
      | some d => simp [hfake, regions_loop_eq_foldl, foldl_record_region]
      | none => simp [hfake]

/-- Every region of the loop comes from one of the tokens. -/
theorem regions_of_lines_mem (n : Nat) :
    ∀ lines : List (List Nat), lines.length ≤ n →
      ∀ r ∈ regions_of_lines lines,
        ∃ line ∈ lines, ∃ m a : Bool, r = region_of_line line m a := by
  induction n with
  | zero =>
    intro lines h r hr
    have : lines = [] := List.length_eq_zero.mp (Nat.le_zero.mp h)
    subst this
    simp [regions_of_lines_nil] at hr
  | succ n ih =>
    intro lines h r hr
    cases lines with
    | nil => simp [regions_of_lines_nil] at hr
    | cons line rest =>
      rw [regions_of_lines_cons] at hr
      rcases List.mem_cons.mp hr with h1 | h1
      · exact ⟨line, List.mem_cons_self _ _, _, _, h1⟩
      · have hlen := scan_smaps_counters_length rest false false
        have hrest : rest.length ≤ n := by simpa using h
        obtain ⟨l, hl, m, a, hra⟩ := ih _ (le_trans hlen hrest) r h1
        have hsuf := scan_smaps_counters_suffix rest false false
        exact ⟨l, List.mem_cons_of_mem _ (hsuf.subset hl), m, a, hra⟩

/-! ## `strtoulst` stays within `ULONGEST` -/

theorem strtoulst_digits_lt (base : Nat) (p : List Nat) (acc : Nat)
    (hacc : acc < ULONGEST_MOD) :
    ∀ v, (strtoulst_digits base p acc).1 = some v → v < ULONGEST_MOD := by
  induction p generalizing acc with
  | nil => intro v h; simp [strtoulst_digits] at h; omega
  | cons c p ih =>
    intro v h
    unfold strtoulst_digits at h
    split at h
    · split at h
      · rename_i hlt
        exact ih _ hlt v h
      · simp at h
    · simp at h; omega

theorem strtoulst_lt (num : List Nat) (base : Nat) :
    (strtoulst num base).1 < ULONGEST_MOD := by
  have hpos : 0 < ULONGEST_MOD := by decide
  unfold strtoulst
  simp only
  split
  · exact hpos
  · split
    · simp only; omega
    · rename_i result trailer heq
      have hlt := strtoulst_digits_lt base _ 0 hpos result (by rw [heq])
      simp only
      split_ifs <;> first | exact Nat.mod_lt _ hpos | exact hlt

theorem read_mapping_addr_lt (line : List Nat) :
    (read_mapping line).addr < ULONGEST_MOD := by
  unfold read_mapping
  exact strtoulst_lt _ _

theorem read_mapping_endaddr_lt (line : List Nat) :
    (read_mapping line).endaddr < ULONGEST_MOD := by
  unfold read_mapping
  exact strtoulst_lt _ _

end LinuxTdep

namespace LinuxTdep

/-! ## Detail lines -/

theorem cstring_of_no_nul (l : List Nat) (h : ∀ c ∈ l, c ≠ 0) : cstring l = l := by
  unfold cstring
  rw [List.takeWhile_eq_self_iff]
  intro c hc
  simpa using h c hc

theorem skip_isspace_of_head (c : Nat) (p : List Nat) (h : isspace c = false) :
    skip_isspace (c :: p) = c :: p := by
  simp [skip_isspace, h]

theorem skip_isspace_replicate (n : Nat) (p : List Nat) :
    skip_isspace (List.replicate n 32 ++ p) = skip_isspace p := by
  induction n with
  | zero => simp
  | succ n ih =>
    have h32 : isspace 32 = true := by decide
    simp [List.replicate_succ, skip_isspace, h32, ih]

theorem takeWhile_nonspace_append (key rest : List Nat)
    (h : ∀ c ∈ key, isspace c = false) :
    (key ++ 32 :: rest).takeWhile (fun c => !isspace c) = key := by
  induction key with
  | nil =>
    have h32 : isspace 32 = true := by decide
    simp [List.takeWhile, h32]
  | cons c key ih =>
    have hc := h c (List.mem_cons_self _ _)
    simp only [List.cons_append, List.takeWhile, hc, Bool.not_false, List.append_eq]
    rw [ih (fun c hc => h c (List.mem_cons_of_mem _ hc))]

theorem scan_decimal_append (ds rest : List Nat) (acc n : Nat)
    (hds : ∀ c ∈ ds, isdigit c = true)
    (hrest : isdigit (deref rest) = false) :
    scan_decimal (ds ++ rest) acc n
      = (ds.foldl (fun acc c => acc * 10 + (c - 48)) acc, n + ds.length) := by
  induction ds generalizing acc n with
  | nil =>
    cases rest with
    | nil => simp [scan_decimal]
    | cons c rest =>
      have : isdigit c = false := by simpa [deref] using hrest
      simp [scan_decimal, this]
  | cons c ds ih =>
    have hc := hds c (List.mem_cons_self _ _)
    simp only [List.cons_append, scan_decimal, hc, if_true, List.foldl_cons,
      List.length_cons, List.append_eq]
    rw [ih _ _ (fun c hc => hds c (List.mem_cons_of_mem _ hc))]
    congr 1
    omega

/-- The number `%lu` stores for a detail line: the number of the line,
saturated at `ULONG_MAX`. -/
theorem sscanf_detail (d : Detail) (hwf : d.wf) :
    sscanf_keyword_number d.line
      = some (d.key, if d.number < ULONGEST_MOD then d.number
                     else ULONGEST_MOD - 1) := by
  obtain ⟨⟨hup1, hup2⟩, hkey, hlen, hpad, hdne, hdig⟩ := hwf
  obtain ⟨k, key', hk⟩ : ∃ k key', d.key = k :: key' := by
    cases hkk : d.key with
    | nil => simp [hkk, deref] at hup1
    | cons k key' => exact ⟨k, key', rfl⟩
  obtain ⟨g, digits', hg⟩ : ∃ g digits', d.digits = g :: digits' := by
    cases hdd : d.digits with
    | nil => exact absurd hdd hdne
    | cons g digits' => exact ⟨g, digits', rfl⟩
  have hkB : ∀ c ∈ cs " kB", c ≠ 0 := by decide
  have hdig0 : ∀ c ∈ d.digits, c ≠ 0 := by
    intro c hc h0
    have := hdig c hc
    rw [h0] at this
    exact absurd this (by decide)
  have hnonul : ∀ c ∈ d.line, c ≠ 0 := by
    intro c hc
    simp only [Detail.line, List.mem_append, List.mem_replicate] at hc
    rcases hc with hc | ⟨_, hc⟩ | hc | hc
    · exact (hkey c hc).1
    · rw [hc]; decide
    · exact hdig0 c hc
    · exact hkB c hc
  have hkspace : isspace k = false := (hkey k (by rw [hk]; exact List.mem_cons_self _ _)).2
  have hgd : isdigit g = true := hdig g (by rw [hg]; exact List.mem_cons_self _ _)
  have hgspace : isspace g = false := by
    simp only [isdigit, Bool.and_eq_true, decide_eq_true_eq] at hgd
    simp only [isspace, Bool.or_eq_false_iff, Bool.and_eq_false_iff, beq_eq_false_iff_ne,
      decide_eq_false_iff_not]
    omega
  obtain ⟨pad', hpad'⟩ : ∃ pad', d.pad = pad' + 1 := ⟨d.pad - 1, by omega⟩
  have hline : d.line = d.key ++ 32 :: (List.replicate pad' 32 ++ (d.digits ++ cs " kB")) := by
    simp [Detail.line, hpad', List.replicate_succ]
  have hword : ((skip_isspace (cstring d.line)).takeWhile (fun c => !isspace c)).take 64
      = d.key := by
    rw [cstring_of_no_nul _ hnonul, hline, hk, List.cons_append,
      skip_isspace_of_head _ _ hkspace, ← List.cons_append, ← hk,
      takeWhile_nonspace_append _ _ (fun c hc => (hkey c hc).2)]
    exact List.take_of_length_le hlen
  have hdrop : (skip_isspace (cstring d.line)).drop d.key.length
      = List.replicate d.pad 32 ++ (d.digits ++ cs " kB") := by
    rw [cstring_of_no_nul _ hnonul]
    conv_lhs => rw [Detail.line, hk, List.cons_append, skip_isspace_of_head _ _ hkspace,
      ← List.cons_append, ← hk]
    simp
  have hg43 : g ≠ 43 ∧ g ≠ 45 := by
    simp only [isdigit, Bool.and_eq_true, decide_eq_true_eq] at hgd
    omega
  have hscan : scan_lu (List.replicate d.pad 32 ++ (d.digits ++ cs " kB"))
      = some (if d.number < ULONGEST_MOD then d.number else ULONGEST_MOD - 1) := by
    unfold scan_lu
    rw [skip_isspace_replicate, hg, List.cons_append, skip_isspace_of_head _ _ hgspace]
    simp only [deref, List.headD_cons, hg43.1, hg43.2, if_false]
    rw [← List.cons_append, ← hg,
      scan_decimal_append d.digits (cs " kB") 0 0 hdig (by decide)]
    rw [hg]
    simp only [List.length_cons, Nat.zero_add]
    rw [← hg]
    rfl
  unfold sscanf_keyword_number
  simp only [hword, hdrop, hscan]
  simp [hk]

end LinuxTdep

namespace LinuxTdep

theorem streq_literal (key lit : List Nat) (hkey : ∀ c ∈ key, c ≠ 0)
    (hlit : ∀ c ∈ lit, c ≠ 0) : streq key lit = (key == lit) := by
  unfold streq
  rw [cstring_of_no_nul _ hkey, cstring_of_no_nul _ hlit]

theorem scan_smaps_counters_step (d : Detail) (hwf : d.wf)
    (rest : List (List Nat)) (m a : Bool) :
    scan_smaps_counters (d.line :: rest) m a
      = scan_smaps_counters rest (m || (d.number != 0 && dirty_key d.key))
          (a || d.key == cs "Anonymous:") := by
  have hparse := sscanf_detail d hwf
  obtain ⟨⟨hup1, hup2⟩, hkey, -, -, -, -⟩ := hwf
  have hderef : deref d.line = deref d.key := by
    cases hk : d.key with
    | nil => simp [hk, deref] at hup1
    | cons k key' => simp [Detail.line, hk, deref]
  have hk0 : ∀ c ∈ d.key, c ≠ 0 := fun c hc => (hkey c hc).1
  have hsat : ((if d.number < ULONGEST_MOD then d.number else ULONGEST_MOD - 1) != 0)
      = (d.number != 0) := by
    have hM : ULONGEST_MOD = 18446744073709551616 := by decide
    split_ifs with h
    · rfl
    · have h1 : ULONGEST_MOD - 1 ≠ 0 := by omega
      have h2 : d.number ≠ 0 := by omega
      rw [bne_iff_ne.mpr h1, bne_iff_ne.mpr h2]
  conv_lhs => unfold scan_smaps_counters
  rw [hderef, if_pos ⟨hup1, hup2⟩, hparse]
  simp only [streq_literal _ _ hk0 (by decide : ∀ c ∈ cs "Shared_Dirty:", c ≠ 0),
    streq_literal _ _ hk0 (by decide : ∀ c ∈ cs "Private_Dirty:", c ≠ 0),
    streq_literal _ _ hk0 (by decide : ∀ c ∈ cs "Swap:", c ≠ 0),
    streq_literal _ _ hk0 (by decide : ∀ c ∈ cs "Anonymous:", c ≠ 0), hsat, dirty_key]

theorem scan_smaps_counters_stop (rest : List (List Nat)) (m a : Bool)
    (hrest : ∀ l, rest.head? = some l → ¬ starts_upper l) :
    scan_smaps_counters rest m a = (m, a, rest) := by
  cases rest with
  | nil => rfl
  | cons l rest =>
    have := hrest l rfl
    unfold scan_smaps_counters
    rw [if_neg (show ¬ (65 ≤ deref l ∧ deref l ≤ 90) from this)]

/-- The counter scan over well-formed detail lines reads all of them. -/
theorem scan_smaps_counters_details (ds : List Detail) (hwf : ∀ d ∈ ds, d.wf)
    (rest : List (List Nat))
    (hrest : ∀ l, rest.head? = some l → ¬ starts_upper l) (m a : Bool) :
    scan_smaps_counters (ds.map Detail.line ++ rest) m a
      = (m || ds.any (fun d => d.number != 0 && dirty_key d.key),
         a || ds.any (fun d => d.key == cs "Anonymous:"), rest) := by
  induction ds generalizing m a with
  | nil => simpa using scan_smaps_counters_stop rest m a hrest
  | cons d ds ih =>
    simp only [List.map_cons, List.cons_append]
    rw [scan_smaps_counters_step d (hwf d (List.mem_cons_self _ _)),
      ih (fun d hd => hwf d (List.mem_cons_of_mem _ hd))]
    simp [Bool.or_assoc]

/-- C9: for a mapping line followed by well-formed detail lines `Key: N kB`
(and then the end of the text or a token that does not start with an upper-case
letter), the enumerator invokes the callback for that line with the `modified`
flag set if and only if no `Anonymous:` line is among the details, or one of
the `Private_Dirty:`, `Shared_Dirty:`, `Swap:`, `Anonymous:` lines carries a
nonzero number; the enumeration then goes on with the rest. -/
theorem modified_iff_no_anonymous_or_dirty (line : List Nat) (ds : List Detail)
    (rest : List (List Nat)) (hwf : ∀ d ∈ ds, d.wf)
    (hrest : ∀ l, rest.head? = some l → ¬ starts_upper l) :
    ∃ r : RegionArgs,
      regions_of_lines (line :: (ds.map Detail.line ++ rest))
        = r :: regions_of_lines rest
      ∧ r.vaddr = (read_mapping line).addr
      ∧ r.filename = (read_mapping line).filename
      ∧ (r.modified = true ↔
          (¬ ∃ d ∈ ds, d.key = cs "Anonymous:")
          ∨ ∃ d ∈ ds, d.number ≠ 0
              ∧ (d.key = cs "Private_Dirty:" ∨ d.key = cs "Shared_Dirty:"
                  ∨ d.key = cs "Swap:" ∨ d.key = cs "Anonymous:")) := by
  refine ⟨region_of_line line
    (false || ds.any (fun d => d.number != 0 && dirty_key d.key))
    (false || ds.any (fun d => d.key == cs "Anonymous:")), ?_, ?_, ?_, ?_⟩
  · rw [regions_of_lines_cons, scan_smaps_counters_details ds hwf rest hrest]
  · simp only [region_of_line]
  · simp only [region_of_line]
  · simp only [region_of_line, Bool.false_or, Bool.or_eq_true, List.any_eq_true,
      Bool.and_eq_true, bne_iff_ne, ne_eq, Bool.not_eq_true', beq_iff_eq, dirty_key,
      List.any_eq_false, not_exists, not_and]
    constructor
    · rintro (⟨d, hd, hn, hk⟩ | h)
      · right
        refine ⟨d, hd, hn, ?_⟩
        tauto
      · left
        intro d hd hk
        exact absurd hk (by simpa using h d hd)
    · rintro (h | ⟨d, hd, hn, hk⟩)
      · right
        intro d hd
        simpa using h d hd
      · left
        refine ⟨d, hd, hn, ?_⟩
        tauto

/-- The smaps text of one executable mapping with clean counters and of one
stack mapping from a kernel without the `Anonymous:` counter. -/
theorem modified_iff_no_anonymous_or_dirty_witness :
    (∀ d ∈ [Detail.mk (cs "Rss:") 3 (cs "4"), Detail.mk (cs "Anonymous:") 1 (cs "0")],
        d.wf)
    ∧ ∃ r : RegionArgs,
      regions_of_lines (cs "400000-40b000 r-xp 0 08:01 1234 /bin/cat"
          :: ([Detail.mk (cs "Rss:") 3 (cs "4"),
               Detail.mk (cs "Anonymous:") 1 (cs "0")].map Detail.line
              ++ [cs "7fff0000-7fff1000 rw-p 0 00:00 0 [stack]"]))
        = r :: regions_of_lines [cs "7fff0000-7fff1000 rw-p 0 00:00 0 [stack]"]
      ∧ r.vaddr = (read_mapping (cs "400000-40b000 r-xp 0 08:01 1234 /bin/cat")).addr
      ∧ r.filename
          = (read_mapping (cs "400000-40b000 r-xp 0 08:01 1234 /bin/cat")).filename
      ∧ (r.modified = true ↔
          (¬ ∃ d ∈ [Detail.mk (cs "Rss:") 3 (cs "4"),
                    Detail.mk (cs "Anonymous:") 1 (cs "0")], d.key = cs "Anonymous:")
          ∨ ∃ d ∈ [Detail.mk (cs "Rss:") 3 (cs "4"),
                   Detail.mk (cs "Anonymous:") 1 (cs "0")], d.number ≠ 0
              ∧ (d.key = cs "Private_Dirty:" ∨ d.key = cs "Shared_Dirty:"
                  ∨ d.key = cs "Swap:" ∨ d.key = cs "Anonymous:")) :=
  have hwf : ∀ d ∈ [Detail.mk (cs "Rss:") 3 (cs "4"),
      Detail.mk (cs "Anonymous:") 1 (cs "0")], d.wf := by
    intro d hd
    simp only [List.mem_cons, List.mem_singleton, List.not_mem_nil, or_false] at hd
    rcases hd with rfl | rfl <;>
      exact ⟨by decide, by decide, by decide, by decide, by decide, by decide⟩
  ⟨hwf, modified_iff_no_anonymous_or_dirty _ _ _ hwf (by
    intro l hl
    simp only [List.head?_cons, Option.some.injEq] at hl
    subst hl
    decide)⟩

end LinuxTdep

namespace LinuxTdep

/-- C10, as the code has it: the enumerator validates nothing.  Every region
passed to the callback comes from one token of the text read, with `vaddr` the
parsed start and `size` the difference `end - start` modulo `2 ^ 64`; the size
is strictly positive and free of wrap-around (`vaddr + size` is the parsed
end) exactly when the parsed start is below the parsed end. -/
theorem region_size_is_wrapped_difference (inf : Inferior) (r : RegionArgs)
    (hr : r ∈ delivered_regions inf) :
    ∃ data line, enumerated_text inf = some data
      ∧ line ∈ strtok_tokens data []
      ∧ r.vaddr = (read_mapping line).addr
      ∧ r.size = ((read_mapping line).endaddr + ULONGEST_MOD
                    - (read_mapping line).addr) % ULONGEST_MOD
      ∧ ((read_mapping line).addr < (read_mapping line).endaddr
          ↔ 0 < r.size ∧ r.vaddr + r.size = (read_mapping line).endaddr) := by
  rw [delivered_regions_eq] at hr
  cases hdata : enumerated_text inf with
  | none => simp [hdata] at hr
  | some data =>
    simp only [hdata] at hr
    obtain ⟨line, hline, m, a, hra⟩ :=
      regions_of_lines_mem _ _ le_rfl r hr
    have ha := read_mapping_addr_lt line
    have he := read_mapping_endaddr_lt line
    have hv : r.vaddr = (read_mapping line).addr := by rw [hra]; simp only [region_of_line]
    have hs : r.size = ((read_mapping line).endaddr + ULONGEST_MOD
        - (read_mapping line).addr) % ULONGEST_MOD := by
      rw [hra]; simp only [region_of_line]
    refine ⟨data, line, rfl, hline, hv, hs, ?_⟩
    rw [hv, hs]
    generalize (read_mapping line).addr = s at ha ⊢
    generalize (read_mapping line).endaddr = e at he ⊢
    have hM : ULONGEST_MOD = 18446744073709551616 := by decide
    rw [hM] at ha he ⊢
    constructor
    · intro hlt
      have : (e + 18446744073709551616 - s) % 18446744073709551616 = e - s := by
        have h1 : e + 18446744073709551616 - s = (e - s) + 18446744073709551616 := by omega
        rw [h1, Nat.add_mod_right, Nat.mod_eq_of_lt (by omega)]
      rw [this]; omega
    · rintro ⟨hpos, hsum⟩
      omega

/-- A live process with one mapping whose text is well formed. -/
theorem region_size_is_wrapped_difference_witness :
    (RegionArgs.mk 4194304 4096 0 1234 true false true true (cs "/bin/cat")
        ∈ delivered_regions ⟨false, none,
            some (cs "400000-401000 r-xp 0 08:01 1234 /bin/cat\n")⟩)
    ∧ ∃ data line,
      enumerated_text ⟨false, none,
          some (cs "400000-401000 r-xp 0 08:01 1234 /bin/cat\n")⟩ = some data
      ∧ line ∈ strtok_tokens data []
      ∧ (RegionArgs.mk 4194304 4096 0 1234 true false true true (cs "/bin/cat")).vaddr
          = (read_mapping line).addr
      ∧ (RegionArgs.mk 4194304 4096 0 1234 true false true true (cs "/bin/cat")).size
          = ((read_mapping line).endaddr + ULONGEST_MOD
                    - (read_mapping line).addr) % ULONGEST_MOD
      ∧ ((read_mapping line).addr < (read_mapping line).endaddr
          ↔ 0 < (RegionArgs.mk 4194304 4096 0 1234 true false true true
                  (cs "/bin/cat")).size
            ∧ (RegionArgs.mk 4194304 4096 0 1234 true false true true
                  (cs "/bin/cat")).vaddr
              + (RegionArgs.mk 4194304 4096 0 1234 true false true true
                  (cs "/bin/cat")).size = (read_mapping line).endaddr) :=
  ⟨by decide, region_size_is_wrapped_difference _ _ (by decide)⟩

/-- C10 as stated fails: a line whose end equals its start and a line whose end
is below its start both reach the callback, the first with size 0, the second
with the wrapped size `2 ^ 64 - 0x1000`. -/
theorem start_below_end_counterexample :
    (delivered_regions ⟨false, none,
        some (cs "1000-1000 r--p 0 08:01 5 /x\n2000-1000 r--p 0 08:01 5 /y\n")⟩).map
      (fun r => (r.vaddr, r.size))
      = [(0x1000, 0), (0x2000, 2 ^ 64 - 0x1000)]
    ∧ ¬ ∀ r ∈ delivered_regions ⟨false, none,
        some (cs "1000-1000 r--p 0 08:01 5 /x\n2000-1000 r--p 0 08:01 5 /y\n")⟩,
        0 < r.size ∧ r.vaddr + r.size < 2 ^ 64 := by
  decide

end LinuxTdep

namespace LinuxTdep

/-! ## The writer of the file-mapping note -/

theorem store_integer_length (w : Nat) (order : bfd_endian) (v : Nat) :
    (store_integer w order v).length = w := by
  cases order <;> simp [store_integer]

theorem store_integer_little_succ (w v : Nat) :
    store_integer (w + 1) .BFD_ENDIAN_LITTLE v
      = v % 256 :: store_integer w .BFD_ENDIAN_LITTLE (v / 256) := by
  simp only [store_integer, List.range_succ_eq_map, List.map_cons, List.map_map,
    pow_zero, Nat.div_one]
  congr 1
  apply List.map_congr_left
  intro i _
  simp only [Function.comp, pow_succ, Nat.div_div_eq_div_mul]
  rw [Nat.mul_comm]

theorem bytes_value_little_store (w v : Nat) :
    bytes_value .BFD_ENDIAN_LITTLE (store_integer w .BFD_ENDIAN_LITTLE v)
      = v % 256 ^ w := by
  induction w generalizing v with
  | zero => simp [store_integer, bytes_value, Nat.mod_one]
  | succ w ih =>
    rw [store_integer_little_succ]
    have h := ih (v / 256)
    simp only [bytes_value] at h ⊢
    rw [List.foldr_cons, h, Nat.mod_mod, pow_succ, Nat.mul_comm (256 ^ w) 256,
      Nat.mod_mul]

theorem bytes_value_big_reverse (l : List Nat) :
    bytes_value .BFD_ENDIAN_BIG l.reverse = bytes_value .BFD_ENDIAN_LITTLE l := by
  simp only [bytes_value, List.foldl_reverse]
  induction l with
  | nil => rfl
  | cons b l ih => simp only [List.foldr_cons, ih]; ring

/-- Decoding the bytes of a stored integer gives the value modulo
`256 ^ w`. -/
theorem bytes_value_store_integer (w : Nat) (order : bfd_endian) (v : Nat) :
    bytes_value order (store_integer w order v) = v % 256 ^ w := by
  cases order with
  | BFD_ENDIAN_LITTLE => exact bytes_value_little_store w v
  | BFD_ENDIAN_BIG =>
    have : store_integer w .BFD_ENDIAN_BIG v
        = (store_integer w .BFD_ENDIAN_LITTLE v).reverse := rfl
    rw [this, bytes_value_big_reverse, bytes_value_little_store]

theorem qualifies_eq_false_iff (r : RegionArgs) :
    qualifies r = false ↔ (deref r.filename = 0 ∨ r.inode = 0) := by
  simp only [qualifies, Bool.and_eq_false_iff, bne_eq_false_iff_eq]

/-- The datum after the callback has seen the regions `calls`. -/
theorem foldl_make_mappings_callback (gdbarch : Gdbarch) (calls : List RegionArgs)
    (d : linux_make_mappings_data) (hd : d.file_count < ULONGEST_MOD) :
    calls.foldl (callback_step (linux_make_mappings_callback gdbarch)) d
      = { file_count := (d.file_count + (calls.filter qualifies).length) % ULONGEST_MOD,
          data_obstack := d.data_obstack
            ++ (calls.filter qualifies).flatMap (fun r =>
                  pack_long gdbarch r.vaddr
                  ++ pack_long gdbarch ((r.vaddr + r.size) % ULONGEST_MOD)
                  ++ pack_long gdbarch r.offset),
          filename_obstack := d.filename_obstack
            ++ (calls.filter qualifies).flatMap (fun r => cstring r.filename ++ [0]) } := by
  induction calls generalizing d with
  | nil => simp [Nat.mod_eq_of_lt hd]
  | cons r calls ih =>
    rw [List.foldl_cons]
    by_cases hq : qualifies r = true
    · have hnot : ¬ (deref r.filename = 0 ∨ r.inode = 0) := by
        intro h
        rw [(qualifies_eq_false_iff r).mpr h] at hq
        exact absurd hq (by decide)
      have hstep : callback_step (linux_make_mappings_callback gdbarch) d r
          = { file_count := (d.file_count + 1) % ULONGEST_MOD,
              data_obstack := d.data_obstack
                ++ pack_long gdbarch r.vaddr
                ++ pack_long gdbarch ((r.vaddr + r.size) % ULONGEST_MOD)
                ++ pack_long gdbarch r.offset,
              filename_obstack := d.filename_obstack ++ (cstring r.filename ++ [0]) } := by
        simp only [callback_step, linux_make_mappings_callback, if_neg hnot]
      rw [hstep, ih _ (Nat.mod_lt _ (by decide))]
      simp only [List.filter_cons_of_pos hq, List.length_cons, List.flatMap_cons,
        List.append_assoc]
      congr 1
      rw [Nat.mod_add_mod]
      congr 1
      omega
    · have hq' : qualifies r = false := by simpa using hq
      have hskip := (qualifies_eq_false_iff r).mp hq'
      have hstep : callback_step (linux_make_mappings_callback gdbarch) d r = d := by
        simp only [callback_step, linux_make_mappings_callback, if_pos hskip]
      rw [hstep, ih _ hd, List.filter_cons_of_neg hq]

/-- What `linux_make_mappings_corefile_notes` does, in terms of the regions
that qualify. -/
theorem linux_make_mappings_corefile_notes_eq (gdbarch : Gdbarch) (inf : Inferior)
    (elfcore_write_note : NoteData → Note → NoteData) (note_data : NoteData)
    (hcount : ((delivered_regions inf).filter qualifies).length < ULONGEST_MOD) :
    linux_make_mappings_corefile_notes gdbarch inf elfcore_write_note note_data
      = some (if (delivered_regions inf).filter qualifies = [] then note_data
              else elfcore_write_note note_data
                { name := cs "CORE", type := NT_FILE,
                  desc := file_mapping_layout (gdbarch.long_bit / 8) gdbarch.byte_order
                    ((delivered_regions inf).filter qualifies) }) := by
  unfold linux_make_mappings_corefile_notes
  obtain ⟨code, hfull⟩ := linux_find_memory_regions_full_eq inf
    (linux_make_mappings_callback gdbarch)
    { file_count := 0,
      data_obstack := List.replicate (long_length gdbarch) 0 ++ pack_long gdbarch 1,
      filename_obstack := [] }
  simp only [hfull]
  rw [foldl_make_mappings_callback gdbarch _ _ (show (0 : Nat) < ULONGEST_MOD by decide)]
  simp only [Nat.zero_add, Nat.mod_eq_of_lt hcount, List.nil_append]
  by_cases hq : (delivered_regions inf).filter qualifies = []
  · simp [hq]
  · have hne : ((delivered_regions inf).filter qualifies).length ≠ 0 := by
      simpa using hq
    simp only [if_pos hne, if_neg hq, ne_eq, not_false_eq_true]
    congr 3
    simp only [file_mapping_layout, pack_long, long_length, List.append_assoc]
    congr 1
    rw [List.drop_left' (by simp)]
    simp only [List.append_assoc]

theorem file_mapping_layout_length (w : Nat) (order : bfd_endian)
    (q : List RegionArgs) :
    (file_mapping_layout w order q).length
      = (2 + 3 * q.length) * w + (q.map (fun r => strlen r.filename + 1)).sum := by
  have h1 : ∀ l : List RegionArgs, (l.flatMap (fun r => store_integer w order r.vaddr
          ++ store_integer w order ((r.vaddr + r.size) % ULONGEST_MOD)
          ++ store_integer w order r.offset)).length = 3 * l.length * w := by
    intro l
    induction l with
    | nil => simp
    | cons r l ih =>
      simp only [List.flatMap_cons, List.length_append, store_integer_length, ih,
        List.length_cons]
      ring
  have h2 : ∀ l : List RegionArgs, (l.flatMap (fun r => cstring r.filename ++ [0])).length
      = (l.map (fun r => strlen r.filename + 1)).sum := by
    intro l
    induction l with
    | nil => simp
    | cons r l ih =>
      simp only [List.flatMap_cons, List.length_append, ih, List.map_cons, List.sum_cons,
        strlen, List.length_singleton]
  simp only [file_mapping_layout, List.length_append, store_integer_length, h1, h2]
  ring

end LinuxTdep

namespace LinuxTdep

/-- C2, as the code has it: when at least one delivered region qualifies (and
fewer than `2 ^ 64` do), the descriptor handed to the note writer, under the
name `CORE` and the type `NT_FILE`, is exactly the count, the page size 1, one
triple start, end, file offset per qualifying region, and the pathnames, each
NUL-terminated, in region order.  Every field has the width of the target's
`long` (`long_bit / 8` bytes, not the address width) and holds its value
modulo `256 ^ width`.  Hence the length is `(2 + 3 * count) * width` plus the
sum of `length (pathname) + 1`, and the stored file offset times the stored
page size is the file offset of the region modulo `256 ^ width`. -/
theorem descriptor_layout_long_width (gdbarch : Gdbarch) (inf : Inferior)
    (elfcore_write_note : NoteData → Note → NoteData) (note_data : NoteData)
    (hq : (delivered_regions inf).filter qualifies ≠ [])
    (hcount : ((delivered_regions inf).filter qualifies).length < ULONGEST_MOD) :
    linux_make_mappings_corefile_notes gdbarch inf elfcore_write_note note_data
      = some (elfcore_write_note note_data
          { name := cs "CORE", type := NT_FILE,
            desc := file_mapping_layout (gdbarch.long_bit / 8) gdbarch.byte_order
              ((delivered_regions inf).filter qualifies) })
    ∧ (file_mapping_layout (gdbarch.long_bit / 8) gdbarch.byte_order
          ((delivered_regions inf).filter qualifies)).length
        = (2 + 3 * ((delivered_regions inf).filter qualifies).length)
            * (gdbarch.long_bit / 8)
          + (((delivered_regions inf).filter qualifies).map
              (fun r => strlen r.filename + 1)).sum
    ∧ ∀ r ∈ (delivered_regions inf).filter qualifies,
        bytes_value gdbarch.byte_order
            (store_integer (gdbarch.long_bit / 8) gdbarch.byte_order r.offset)
          * bytes_value gdbarch.byte_order
            (store_integer (gdbarch.long_bit / 8) gdbarch.byte_order 1)
        = r.offset % 256 ^ (gdbarch.long_bit / 8) := by
  refine ⟨?_, file_mapping_layout_length _ _ _, ?_⟩
  · rw [linux_make_mappings_corefile_notes_eq gdbarch inf _ _ hcount, if_neg hq]
  · intro r _
    rw [bytes_value_store_integer, bytes_value_store_integer]
    cases hw : gdbarch.long_bit / 8 with
    | zero => simp [Nat.mod_one]
    | succ w =>
      have h1 : 1 < 256 ^ (w + 1) := Nat.one_lt_pow (by omega) (by omega)
      rw [Nat.mod_eq_of_lt h1, Nat.mul_one]

/-- A 64-bit little-endian target with one file-backed mapping. -/
theorem descriptor_layout_long_width_witness :
    ((delivered_regions ⟨false, some (cs "400000-401000 r-xp 2000 08:01 1234 /bin/cat\n"),
        none⟩).filter qualifies ≠ [])
    ∧ (linux_make_mappings_corefile_notes ⟨64, 64, 32, 64, .BFD_ENDIAN_LITTLE⟩
        ⟨false, some (cs "400000-401000 r-xp 2000 08:01 1234 /bin/cat\n"), none⟩
        (fun nd n => some (nd.getD [] ++ [n])) none
      = some ((fun (nd : NoteData) n => some (nd.getD [] ++ [n])) none
          { name := cs "CORE", type := NT_FILE,
            desc := file_mapping_layout
              ((⟨64, 64, 32, 64, .BFD_ENDIAN_LITTLE⟩ : Gdbarch).long_bit / 8)
              (⟨64, 64, 32, 64, .BFD_ENDIAN_LITTLE⟩ : Gdbarch).byte_order
              ((delivered_regions ⟨false,
                some (cs "400000-401000 r-xp 2000 08:01 1234 /bin/cat\n"),
                none⟩).filter qualifies) })) :=
  ⟨by decide,
   (descriptor_layout_long_width ⟨64, 64, 32, 64, .BFD_ENDIAN_LITTLE⟩
      ⟨false, some (cs "400000-401000 r-xp 2000 08:01 1234 /bin/cat\n"), none⟩
      (fun nd n => some (nd.getD [] ++ [n])) none (by decide) (by decide)).1⟩

/-- C2 as stated fails.  On a target whose `long` has 32 bits and whose
addresses have 64, the descriptor of one mapping of `/bin/cat` has 29 bytes,
not `(2 + 3 * 1) * 8 + 9`: the fields have the width of `long`.  On a 32-bit
target, a mapping at file offset `0x100000000` is stored with offset field 0
and page size 1, whose product is not the file offset. -/
theorem descriptor_layout_counterexample :
    (∃ desc,
      linux_make_mappings_corefile_notes ⟨32, 64, 32, 64, .BFD_ENDIAN_LITTLE⟩
          ⟨false, some (cs "400000-401000 r-xp 0 08:01 1234 /bin/cat\n"), none⟩
          (fun _ n => some [n]) none
        = some (some [{ name := cs "CORE", type := NT_FILE, desc := desc }])
      ∧ desc.length = 29
      ∧ desc.length ≠ (2 + 3 * 1) * (64 / 8) + (strlen (cs "/bin/cat") + 1))
    ∧ (∃ desc,
      linux_make_mappings_corefile_notes ⟨32, 32, 32, 32, .BFD_ENDIAN_LITTLE⟩
          ⟨false, some (cs "8048000-8049000 r-xp 100000000 08:01 1234 /bin/cat\n"),
            none⟩
          (fun _ n => some [n]) none
        = some (some [{ name := cs "CORE", type := NT_FILE, desc := desc }])
      ∧ (delivered_regions ⟨false,
            some (cs "8048000-8049000 r-xp 100000000 08:01 1234 /bin/cat\n"),
            none⟩).map (fun r => r.offset) = [0x100000000]
      ∧ bytes_value .BFD_ENDIAN_LITTLE ((desc.drop 16).take 4)
          * bytes_value .BFD_ENDIAN_LITTLE ((desc.drop 4).take 4) ≠ 0x100000000) :=
  ⟨⟨[1, 0, 0, 0, 1, 0, 0, 0, 0, 0, 64, 0, 0, 16, 64, 0, 0, 0, 0, 0,
      47, 98, 105, 110, 47, 99, 97, 116, 0], by decide, by decide, by decide⟩,
   ⟨[1, 0, 0, 0, 1, 0, 0, 0, 0, 128, 4, 8, 0, 144, 4, 8, 0, 0, 0, 0,
      47, 98, 105, 110, 47, 99, 97, 116, 0], by decide, by decide, by decide⟩⟩

/-- C3: when the number of qualifying regions (non-empty pathname and nonzero
inode, the last delivered region included) is representable in the header
field, the note is written if and only if that number is nonzero.  When it is
zero the incoming note stream is returned unchanged; otherwise the count field
at the head of the descriptor decodes to that number, and the descriptor is the
layout of the qualifying regions alone: a region with an empty pathname or
inode 0 contributes neither a triple nor a pathname. -/
theorem file_count_counts_qualifying (gdbarch : Gdbarch) (inf : Inferior)
    (elfcore_write_note : NoteData → Note → NoteData) (note_data : NoteData)
    (hlong : gdbarch.long_bit ≤ 64)
    (hfit : ((delivered_regions inf).filter qualifies).length
              < 256 ^ (gdbarch.long_bit / 8)) :
    (((delivered_regions inf).filter qualifies).length = 0 →
      linux_make_mappings_corefile_notes gdbarch inf elfcore_write_note note_data
        = some note_data)
    ∧ (((delivered_regions inf).filter qualifies).length ≠ 0 →
      ∃ desc,
        linux_make_mappings_corefile_notes gdbarch inf elfcore_write_note note_data
          = some (elfcore_write_note note_data
              { name := cs "CORE", type := NT_FILE, desc := desc })
        ∧ bytes_value gdbarch.byte_order (desc.take (gdbarch.long_bit / 8))
            = ((delivered_regions inf).filter qualifies).length
        ∧ desc = file_mapping_layout (gdbarch.long_bit / 8) gdbarch.byte_order
            ((delivered_regions inf).filter qualifies)
        ∧ desc.length
            = (2 + 3 * ((delivered_regions inf).filter qualifies).length)
                * (gdbarch.long_bit / 8)
              + (((delivered_regions inf).filter qualifies).map
                  (fun r => strlen r.filename + 1)).sum) := by
  have hw : gdbarch.long_bit / 8 ≤ 8 := by omega
  have hpow : 256 ^ (gdbarch.long_bit / 8) ≤ ULONGEST_MOD := by
    have h8 : ULONGEST_MOD = 256 ^ 8 := by decide
    rw [h8]
    exact Nat.pow_le_pow_right (by omega) hw
  have hcount := lt_of_lt_of_le hfit hpow
  have heq := linux_make_mappings_corefile_notes_eq gdbarch inf elfcore_write_note
    note_data hcount
  constructor
  · intro h0
    rw [heq, if_pos (List.length_eq_zero.mp h0)]
  · intro hne
    have hq : (delivered_regions inf).filter qualifies ≠ [] := by
      intro h
      exact hne (by rw [h]; rfl)
    refine ⟨_, by rw [heq, if_neg hq], ?_, rfl, file_mapping_layout_length _ _ _⟩
    have htake : (file_mapping_layout (gdbarch.long_bit / 8) gdbarch.byte_order
        ((delivered_regions inf).filter qualifies)).take (gdbarch.long_bit / 8)
        = store_integer (gdbarch.long_bit / 8) gdbarch.byte_order
            ((delivered_regions inf).filter qualifies).length := by
      simp only [file_mapping_layout, List.append_assoc]
      exact List.take_left' (store_integer_length _ _ _)
    rw [htake, bytes_value_store_integer, Nat.mod_eq_of_lt hfit]

/-- A 32-bit big-endian target with three mappings, of which the anonymous
stack and a mapping with inode 0 do not count. -/
theorem file_count_counts_qualifying_witness :
    (32 ≤ 64)
    ∧ ((delivered_regions ⟨false, none, some (cs
          "8048000-8049000 r-xp 0 08:01 77 /bin/true\nbf000000-bf100000 rw-p 0 00:00 0 [stack]\nb7000000-b7001000 rw-p 0 00:00 9\n")⟩).filter
        qualifies).length = 1
    ∧ ∃ desc,
        linux_make_mappings_corefile_notes ⟨32, 32, 32, 32, .BFD_ENDIAN_BIG⟩
          ⟨false, none, some (cs
            "8048000-8049000 r-xp 0 08:01 77 /bin/true\nbf000000-bf100000 rw-p 0 00:00 0 [stack]\nb7000000-b7001000 rw-p 0 00:00 9\n")⟩
          (fun nd n => some (nd.getD [] ++ [n])) none
          = some ((fun (nd : NoteData) n => some (nd.getD [] ++ [n])) none
              { name := cs "CORE", type := NT_FILE, desc := desc })
        ∧ bytes_value .BFD_ENDIAN_BIG (desc.take (32 / 8)) = 1 :=
  ⟨by decide, by decide,
   match (file_count_counts_qualifying ⟨32, 32, 32, 32, .BFD_ENDIAN_BIG⟩
      ⟨false, none, some (cs
        "8048000-8049000 r-xp 0 08:01 77 /bin/true\nbf000000-bf100000 rw-p 0 00:00 0 [stack]\nb7000000-b7001000 rw-p 0 00:00 9\n")⟩
      (fun nd n => some (nd.getD [] ++ [n])) none (by decide) (by decide)).2
      (by decide) with
   | ⟨desc, h1, h2, _, _⟩ => ⟨desc, h1, by rw [h2]; decide⟩⟩

end LinuxTdep

namespace LinuxTdep

/-! ## The reader of the file-mapping note -/

/-- C4: a note section shorter than two address-width fields makes the reader
fail with "malformed core note - too short for header"; nothing has been
printed, and the result does not depend on the bytes of the section or on
whether they can be read. -/
theorem too_short_for_header (gdbarch : Gdbarch) (core : CoreBfd) (sect : Section)
    (hsect : core.note_linuxcore_file = some sect)
    (hshort : sect.contents.length < 2 * (core.addr_bit / 8)) :
    linux_core_info_proc_mappings gdbarch core
      = { out := [], stop := .error .too_short_for_header } := by
  unfold linux_core_info_proc_mappings
  simp only [hsect, if_pos hshort]

/-- A 64-bit core whose note section has 15 unreadable bytes. -/
theorem too_short_for_header_witness :
    (List.replicate 15 7).length < 2 * (64 / 8)
    ∧ linux_core_info_proc_mappings ⟨64, 64, 32, 64, .BFD_ENDIAN_LITTLE⟩
        ⟨some ⟨List.replicate 15 7, false⟩, 64, .BFD_ENDIAN_LITTLE⟩
      = { out := [], stop := .error .too_short_for_header } :=
  ⟨by decide, too_short_for_header _ _ ⟨List.replicate 15 7, false⟩ rfl (by decide)⟩

/-- C5: a readable note section that is long enough for the header and whose
final byte is not 0 makes the reader fail with "malformed note - does not end
with \0"; nothing has been printed, whatever the header bytes declare. -/
theorem missing_terminator (gdbarch : Gdbarch) (core : CoreBfd) (sect : Section)
    (init : List Nat) (last : Nat)
    (hsect : core.note_linuxcore_file = some sect)
    (hlong : 2 * (core.addr_bit / 8) ≤ sect.contents.length)
    (hread : sect.readable = true)
    (hcontents : sect.contents = init ++ [last])
    (hlast : last ≠ 0) :
    linux_core_info_proc_mappings gdbarch core
      = { out := [], stop := .error .does_not_end_with_nul } := by
  unfold linux_core_info_proc_mappings
  have h1 : ¬ sect.contents.length < 2 * (core.addr_bit / 8) := by omega
  have h2 : sect.contents.length ≠ 0 := by simp [hcontents]
  have h3 : deref (sect.contents.drop (sect.contents.length - 1)) ≠ 0 := by
    rw [hcontents]
    simp [deref, hlast]
  simp only [hsect, if_neg h1, hread, Bool.not_true, if_neg h2, if_pos h3]
  simp

/-- A 32-bit core whose note declares one entry and ends in the byte `/`. -/
theorem missing_terminator_witness :
    2 * (32 / 8) ≤ ([0, 0, 0, 1, 0, 0, 0, 1, 47, 98, 105, 110] ++ [47]).length
    ∧ linux_core_info_proc_mappings ⟨32, 32, 32, 32, .BFD_ENDIAN_BIG⟩
        ⟨some ⟨[0, 0, 0, 1, 0, 0, 0, 1, 47, 98, 105, 110] ++ [47], true⟩, 32,
          .BFD_ENDIAN_BIG⟩
      = { out := [], stop := .error .does_not_end_with_nul } :=
  ⟨by decide,
   missing_terminator _ _ ⟨[0, 0, 0, 1, 0, 0, 0, 1, 47, 98, 105, 110] ++ [47], true⟩
     [0, 0, 0, 1, 0, 0, 0, 1, 47, 98, 105, 110] 47 rfl (by decide) rfl rfl (by decide)⟩

/-- C6 fails on the code: a 64-bit note of 17 bytes that declares `2 ^ 61`
entries passes the "too short for supplied file count" check, because `count *
3 * addr_size` is `3 * 2 ^ 64`, which is 0 in `ULONGEST` arithmetic, although
`2 * 8 + 3 * 8 * 2 ^ 61` exceeds 17.  The reader prints the table header and
then reads a triple outside the buffer. -/
theorem wrapped_count_passes_length_check :
    bfd_get 64 .BFD_ENDIAN_LITTLE
        [0, 0, 0, 0, 0, 0, 0, 32, 1, 0, 0, 0, 0, 0, 0, 0, 0] 0 = .ok (2 ^ 61)
    ∧ ¬ (2 * 8 + 3 * 8 * 2 ^ 61 ≤ 17)
    ∧ linux_core_info_proc_mappings ⟨64, 64, 32, 64, .BFD_ENDIAN_LITTLE⟩
        ⟨some ⟨[0, 0, 0, 0, 0, 0, 0, 32, 1, 0, 0, 0, 0, 0, 0, 0, 0], true⟩, 64,
          .BFD_ENDIAN_LITTLE⟩
      = { out := [.mapped_address_spaces, .table_header false],
          stop := .read_outside_buffer } :=
  ⟨rfl, by decide, by decide⟩

/-- C7 fails on the code: a 64-bit note that declares one entry, holds its
triple and has an empty pathname area passes the three header checks, and the
reader returns normally after the table header, without the "filenames end too
early" error: `while (--count > 0)` makes no pass for count 1. -/
theorem count_one_without_pathname_accepted :
    linux_core_info_proc_mappings ⟨64, 64, 32, 64, .BFD_ENDIAN_LITTLE⟩
        ⟨some ⟨[1, 0, 0, 0, 0, 0, 0, 0, 1, 0, 0, 0, 0, 0, 0, 0,
                0, 0, 64, 0, 0, 0, 0, 0, 0, 16, 64, 0, 0, 0, 0, 0,
                0, 0, 0, 0, 0, 0, 0, 0], true⟩, 64, .BFD_ENDIAN_LITTLE⟩
      = { out := [.mapped_address_spaces, .table_header false],
          stop := .returned } := by
  decide

/-- C1 fails on the code: the note built from one qualifying region (64-bit
little-endian target, `long` as wide as an address) is decoded by the reader to
a table with no row at all; of two qualifying regions only the first comes
back.  `while (--count > 0)` makes one pass fewer than the count. -/
theorem round_trip_loses_last_region :
    (delivered_regions ⟨false,
        some (cs "400000-401000 r-xp 0 08:01 1234 /bin/cat\n"), none⟩).filter qualifies
      = [⟨0x400000, 0x1000, 0, 1234, true, false, true, true, cs "/bin/cat"⟩]
    ∧ (∃ desc,
        linux_make_mappings_corefile_notes ⟨64, 64, 32, 64, .BFD_ENDIAN_LITTLE⟩
            ⟨false, some (cs "400000-401000 r-xp 0 08:01 1234 /bin/cat\n"), none⟩
            (fun _ n => some [n]) none
          = some (some [{ name := cs "CORE", type := NT_FILE, desc := desc }])
        ∧ linux_core_info_proc_mappings ⟨64, 64, 32, 64, .BFD_ENDIAN_LITTLE⟩
            ⟨some ⟨desc, true⟩, 64, .BFD_ENDIAN_LITTLE⟩
          = { out := [.mapped_address_spaces, .table_header false],
              stop := .returned })
    ∧ (∃ desc,
        linux_make_mappings_corefile_notes ⟨64, 64, 32, 64, .BFD_ENDIAN_LITTLE⟩
            ⟨false, some (cs
              "400000-401000 r-xp 0 08:01 1234 /bin/cat\n7f0000-7f3000 r--p 2000 08:01 99 /lib/x\n"),
              none⟩
            (fun _ n => some [n]) none
          = some (some [{ name := cs "CORE", type := NT_FILE, desc := desc }])
        ∧ linux_core_info_proc_mappings ⟨64, 64, 32, 64, .BFD_ENDIAN_LITTLE⟩
            ⟨some ⟨desc, true⟩, 64, .BFD_ENDIAN_LITTLE⟩
          = { out := [.mapped_address_spaces, .table_header false,
                      .table_row false 0x400000 0x401000 0x1000 0 (cs "/bin/cat")],
              stop := .returned }) :=
  ⟨by decide,
   ⟨[1, 0, 0, 0, 0, 0, 0, 0, 1, 0, 0, 0, 0, 0, 0, 0,
     0, 0, 64, 0, 0, 0, 0, 0, 0, 16, 64, 0, 0, 0, 0, 0, 0, 0, 0, 0, 0, 0, 0, 0,
     47, 98, 105, 110, 47, 99, 97, 116, 0], by decide, by decide⟩,
   ⟨[2, 0, 0, 0, 0, 0, 0, 0, 1, 0, 0, 0, 0, 0, 0, 0,
     0, 0, 64, 0, 0, 0, 0, 0, 0, 16, 64, 0, 0, 0, 0, 0, 0, 0, 0, 0, 0, 0, 0, 0,
     0, 0, 127, 0, 0, 0, 0, 0, 0, 48, 127, 0, 0, 0, 0, 0, 0, 32, 0, 0, 0, 0, 0, 0,
     47, 98, 105, 110, 47, 99, 97, 116, 0, 47, 108, 105, 98, 47, 120, 0],
    by decide, by decide⟩⟩

end LinuxTdep

namespace LinuxTdep

/-! ## `read_mapping` on well-formed lines -/

theorem digit_not_space (c base : Nat) (h : is_digit_in_base c base = true) :
    isspace c = false ∧ c ≠ 43 ∧ c ≠ 45 ∧ c ≠ 0 := by
  have halnum : isalnum c = true := by
    by_contra hn
    simp [is_digit_in_base, hn] at h
  simp only [isalnum, isdigit, isalpha, Bool.or_eq_true, Bool.and_eq_true,
    decide_eq_true_eq] at halnum
  refine ⟨?_, by omega, by omega, by omega⟩
  simp only [isspace, Bool.or_eq_false_iff, Bool.and_eq_false_iff, beq_eq_false_iff_ne,
    decide_eq_false_iff_not]
  omega

theorem hex_digit_not_x (c : Nat) (h : is_digit_in_base c 16 = true) :
    c ≠ 120 ∧ c ≠ 88 := by
  constructor
  · rintro rfl
    exact absurd h (by decide)
  · rintro rfl
    exact absurd h (by decide)

theorem skip_isspace_spaces (sp p : List Nat) (hsp : ∀ c ∈ sp, isspace c = true)
    (hp : isspace (deref p) = false) : skip_isspace (sp ++ p) = p := by
  induction sp with
  | nil =>
    cases p with
    | nil => rfl
    | cons c p =>
      have : isspace c = false := by simpa [deref] using hp
      simp [skip_isspace, this]
  | cons c sp ih =>
    have hc := hsp c (List.mem_cons_self _ _)
    simp only [List.cons_append, skip_isspace, hc, if_true]
    exact ih (fun c hc => hsp c (List.mem_cons_of_mem _ hc))

theorem foldl_digits_le (base : Nat) (hbase : 1 ≤ base) (ds : List Nat) (acc : Nat) :
    acc ≤ ds.foldl (fun acc c => acc * base + digit_to_int c) acc := by
  induction ds generalizing acc with
  | nil => exact le_rfl
  | cons c ds ih =>
    rw [List.foldl_cons]
    refine le_trans ?_ (ih _)
    calc acc = acc * 1 := (Nat.mul_one acc).symm
      _ ≤ acc * base := Nat.mul_le_mul_left acc hbase
      _ ≤ acc * base + digit_to_int c := Nat.le_add_right _ _

theorem strtoulst_digits_numeral (base : Nat) (hbase : 1 ≤ base) (ds rest : List Nat)
    (acc : Nat) (hds : ∀ c ∈ ds, is_digit_in_base c base = true)
    (hrest : is_digit_in_base (deref rest) base = false)
    (hfit : ds.foldl (fun acc c => acc * base + digit_to_int c) acc < ULONGEST_MOD) :
    strtoulst_digits base (ds ++ rest) acc
      = (some (ds.foldl (fun acc c => acc * base + digit_to_int c) acc), rest) := by
  induction ds generalizing acc with
  | nil =>
    cases rest with
    | nil => rfl
    | cons c rest =>
      have : is_digit_in_base c base = false := by simpa [deref] using hrest
      simp [strtoulst_digits, this]
  | cons c ds ih =>
    have hc := hds c (List.mem_cons_self _ _)
    have hstep : acc * base + digit_to_int c < ULONGEST_MOD :=
      lt_of_le_of_lt (foldl_digits_le base hbase ds _) hfit
    simp only [List.cons_append, strtoulst_digits, hc, if_true, hstep, List.foldl_cons]
    exact ih _ (fun c hc => hds c (List.mem_cons_of_mem _ hc)) hfit

/-- On white space, a numeral whose value fits `ULONGEST`, and a rest that
does not go on with a digit (nor with `x` after the numeral), `strtoulst`
returns the value of the numeral and the rest. -/
theorem strtoulst_numeral (base : Nat) (hbase : base = 16 ∨ base = 10)
    (sp ds rest : List Nat) (hsp : ∀ c ∈ sp, isspace c = true)
    (hds : is_numeral base ds)
    (hrest : is_digit_in_base (deref rest) base = false)
    (hx : deref rest ≠ 120 ∧ deref rest ≠ 88)
    (hfit : numeral_value base ds < ULONGEST_MOD) :
    strtoulst (sp ++ (ds ++ rest)) base = (numeral_value base ds, rest) := by
  obtain ⟨hne, hdig⟩ := hds
  obtain ⟨d, ds', rfl⟩ : ∃ d ds', ds = d :: ds' := by
    cases ds with
    | nil => exact absurd rfl hne
    | cons d ds' => exact ⟨d, ds', rfl⟩
  have hd := hdig d (List.mem_cons_self _ _)
  obtain ⟨hdsp, hd43, hd45, -⟩ := digit_not_space d base hd
  have hskip : skip_isspace (sp ++ (d :: ds' ++ rest)) = d :: ds' ++ rest :=
    skip_isspace_spaces sp _ hsp (by simpa [deref] using hdsp)
  have hno0x : ¬ (base = 16 ∧ deref (d :: ds' ++ rest) = 48
      ∧ (deref (d :: ds' ++ rest).tail = 120 ∨ deref (d :: ds' ++ rest).tail = 88)) := by
    rintro ⟨hb, -, h2⟩
    subst hb
    cases ds' with
    | nil =>
      simp only [List.cons_append, List.nil_append, List.tail_cons] at h2
      rcases h2 with h2 | h2
      · exact hx.1 h2
      · exact hx.2 h2
    | cons c ds'' =>
      have hc := hex_digit_not_x c (hdig c (by simp))
      simp only [List.cons_append, List.tail_cons, deref, List.headD_cons] at h2
      rcases h2 with h2 | h2
      · exact hc.1 h2
      · exact hc.2 h2
  have hb1 : 1 ≤ base := by rcases hbase with h | h <;> omega
  have hb2 : ¬ (base < 2 ∨ 36 < base) := by rcases hbase with h | h <;> omega
  have hd43' : ¬ deref (d :: ds' ++ rest) = 43 := by simpa [deref] using hd43
  have hd45' : ¬ deref (d :: ds' ++ rest) = 45 := by simpa [deref] using hd45
  have hdigits := strtoulst_digits_numeral base hb1 (d :: ds') rest 0 hdig hrest hfit
  unfold strtoulst
  simp only [hskip, if_neg hd43', if_neg hd45', if_neg hno0x, if_neg hb2, hdigits]
  simp [numeral_value]

theorem skip_spaces_of_head (p : List Nat)
    (h : ∀ c, p.head? = some c → isspace c = false) : skip_spaces p = p := by
  cases p with
  | nil => rfl
  | cons c p =>
    have := h c rfl
    simp [skip_spaces, this]

theorem skip_spaces_space (p : List Nat)
    (h : ∀ c, p.head? = some c → isspace c = false) : skip_spaces (32 :: p) = p := by
  have h32 : isspace 32 = true := by decide
  simp only [skip_spaces, h32, Bool.and_true]
  simpa using skip_spaces_of_head p h

theorem skip_nonspaces_token (t rest : List Nat)
    (ht : ∀ c ∈ t, c ≠ 0 ∧ isspace c = false) :
    skip_nonspaces (t ++ 32 :: rest) = 32 :: rest := by
  induction t with
  | nil =>
    have h32 : isspace 32 = true := by decide
    simp [skip_nonspaces, h32]
  | cons c t ih =>
    obtain ⟨h0, hsp⟩ := ht c (List.mem_cons_self _ _)
    simp only [List.cons_append, skip_nonspaces, hsp, Bool.not_false, Bool.and_true,
      bne_iff_ne, ne_eq, h0, not_false_eq_true, if_true]
    exact ih (fun c hc => ht c (List.mem_cons_of_mem _ hc))

theorem token_head (t rest : List Nat) (ht : is_token t) :
    ∀ c, (t ++ rest).head? = some c → isspace c = false := by
  obtain ⟨hne, hall⟩ := ht
  cases t with
  | nil => exact absurd rfl hne
  | cons d t =>
    intro c hc
    simp only [List.cons_append, List.head?_cons, Option.some.injEq] at hc
    subst hc
    exact (hall d (List.mem_cons_self _ _)).2

/-- The fields `read_mapping` extracts from a well-formed mapping line. -/
theorem read_mapping_mapping_line (s e o i perms dev path : List Nat)
    (hs : is_numeral 16 s) (he : is_numeral 16 e) (ho : is_numeral 16 o)
    (hi : is_numeral 10 i)
    (hsv : numeral_value 16 s < ULONGEST_MOD) (hev : numeral_value 16 e < ULONGEST_MOD)
    (hov : numeral_value 16 o < ULONGEST_MOD) (hiv : numeral_value 10 i < ULONGEST_MOD)
    (hperms : is_token perms) (hdev : is_token dev)
    (hpath : ∀ c, path.head? = some c → isspace c = false) :
    read_mapping (mapping_line s e perms o dev i path)
      = { addr := numeral_value 16 s,
          endaddr := numeral_value 16 e,
          permissions := perms ++ 32 :: (o ++ 32 :: (dev ++ 32 :: (i ++ 32 :: path))),
          permissions_len := perms.length,
          offset := numeral_value 16 o,
          device := dev ++ 32 :: (i ++ 32 :: path),
          device_len := dev.length,
          inode := numeral_value 10 i,
          filename := path } := by
  have h1 := strtoulst_numeral 16 (Or.inl rfl) [] s
    (45 :: (e ++ 32 :: (perms ++ 32 :: (o ++ 32 :: (dev ++ 32 :: (i ++ 32 :: path))))))
    (by simp) hs (by simp only [deref, List.headD_cons]; decide)
    (by simp only [deref, List.headD_cons]; decide) hsv
  have h2 := strtoulst_numeral 16 (Or.inl rfl) [] e
    (32 :: (perms ++ 32 :: (o ++ 32 :: (dev ++ 32 :: (i ++ 32 :: path)))))
    (by simp) he (by simp only [deref, List.headD_cons]; decide)
    (by simp only [deref, List.headD_cons]; decide) hev
  have h3 := skip_spaces_space (perms ++ 32 :: (o ++ 32 :: (dev ++ 32 :: (i ++ 32 :: path))))
    (token_head _ _ hperms)
  have h4 := skip_nonspaces_token perms (o ++ 32 :: (dev ++ 32 :: (i ++ 32 :: path)))
    hperms.2
  have h5 := strtoulst_numeral 16 (Or.inl rfl) [32] o
    (32 :: (dev ++ 32 :: (i ++ 32 :: path)))
    (by decide) ho (by simp only [deref, List.headD_cons]; decide)
    (by simp only [deref, List.headD_cons]; decide) hov
  have h6 := skip_spaces_space (dev ++ 32 :: (i ++ 32 :: path)) (token_head _ _ hdev)
  have h7 := skip_nonspaces_token dev (i ++ 32 :: path) hdev.2
  have h8 := strtoulst_numeral 10 (Or.inr rfl) [32] i (32 :: path)
    (by decide) hi (by simp only [deref, List.headD_cons]; decide)
    (by simp only [deref, List.headD_cons]; decide) hiv
  have h9 := skip_spaces_space path hpath
  simp only [List.nil_append, List.singleton_append] at h1 h2 h5 h8
  unfold read_mapping mapping_line
  simp only [h1, deref, List.headD_cons, if_true, List.tail_cons, h2, h3, h4, h5, h6, h7,
    h8, h9]
  simp

end LinuxTdep

namespace LinuxTdep

theorem digit_char_spec (d base : Nat) (hbase : base = 16 ∨ base = 10) (hd : d < base) :
    is_digit_in_base (digit_char d) base = true ∧ digit_to_int (digit_char d) = d := by
  have h16 : d < 16 := by rcases hbase with h | h <;> omega
  rcases hbase with rfl | rfl
  · interval_cases d <;> decide
  · interval_cases d <;> decide

theorem numeral_value_render_digits (base : Nat) (hbase : base = 16 ∨ base = 10)
    (l : List Nat) (hl : ∀ d ∈ l, d < base) :
    numeral_value base (l.reverse.map digit_char) = Nat.ofDigits base l := by
  induction l with
  | nil => rfl
  | cons d l ih =>
    have hd := (digit_char_spec d base hbase (hl d (List.mem_cons_self _ _))).2
    have ih' := ih (fun d hd => hl d (List.mem_cons_of_mem _ hd))
    simp only [numeral_value] at ih' ⊢
    simp only [List.reverse_cons, List.map_append, List.map_cons, List.map_nil,
      List.foldl_append, List.foldl_cons, List.foldl_nil, ih', hd, Nat.ofDigits_cons]
    ring

/-- Every number has a numeral, in base 16 and in base 10: `render` is one, and
its value is the number. -/
theorem render_numeral (base : Nat) (hbase : base = 16 ∨ base = 10) (n : Nat) :
    is_numeral base (render base n) ∧ numeral_value base (render base n) = n := by
  have hb2 : 1 < base := by rcases hbase with h | h <;> omega
  unfold render
  split
  · rename_i h0
    subst h0
    rcases hbase with rfl | rfl
    · exact ⟨⟨by decide, by decide⟩, by decide⟩
    · exact ⟨⟨by decide, by decide⟩, by decide⟩
  · rename_i h0
    have hlt : ∀ d ∈ Nat.digits base n, d < base := fun d hd => Nat.digits_lt_base hb2 hd
    refine ⟨⟨?_, ?_⟩, ?_⟩
    · intro h
      have : Nat.digits base n = [] := by simpa using h
      exact h0 (Nat.digits_eq_nil_iff_eq_zero.mp this)
    · intro c hc
      simp only [List.mem_map, List.mem_reverse] at hc
      obtain ⟨d, hd, rfl⟩ := hc
      exact (digit_char_spec d base hbase (hlt d hd)).1
    · rw [numeral_value_render_digits base hbase _ hlt, Nat.ofDigits_digits]

/-- C8: on the line `<start>-<end> <perms> <offset> <dev> <inode> <pathname>`,
where start, end and offset are hexadecimal numerals and inode a decimal numeral
of values below `2 ^ 64` (any numeral of the value: upper or lower case, with or
without leading zeros), perms and dev are non-empty tokens without white space,
and the pathname is empty or begins with a character that is not white space,
`read_mapping` returns exactly the four values, the permissions and the device
token (pointer to the token in the line, and its length) and the pathname.
Consequently, parsing the line whose four numeric fields are re-serialised from
the parsed values returns the same four values. -/
theorem read_mapping_well_formed (s e o i perms dev path : List Nat)
    (hs : is_numeral 16 s) (he : is_numeral 16 e) (ho : is_numeral 16 o)
    (hi : is_numeral 10 i)
    (hsv : numeral_value 16 s < 2 ^ 64) (hev : numeral_value 16 e < 2 ^ 64)
    (hov : numeral_value 16 o < 2 ^ 64) (hiv : numeral_value 10 i < 2 ^ 64)
    (hperms : is_token perms) (hdev : is_token dev)
    (hpath : ∀ c, path.head? = some c → isspace c = false) :
    read_mapping (mapping_line s e perms o dev i path)
      = { addr := numeral_value 16 s,
          endaddr := numeral_value 16 e,
          permissions := perms ++ 32 :: (o ++ 32 :: (dev ++ 32 :: (i ++ 32 :: path))),
          permissions_len := perms.length,
          offset := numeral_value 16 o,
          device := dev ++ 32 :: (i ++ 32 :: path),
          device_len := dev.length,
          inode := numeral_value 10 i,
          filename := path }
    ∧ (read_mapping (mapping_line s e perms o dev i path)).permissions.take
        (read_mapping (mapping_line s e perms o dev i path)).permissions_len = perms
    ∧ (read_mapping (mapping_line s e perms o dev i path)).device.take
        (read_mapping (mapping_line s e perms o dev i path)).device_len = dev
    ∧ (read_mapping (mapping_line
          (render 16 (read_mapping (mapping_line s e perms o dev i path)).addr)
          (render 16 (read_mapping (mapping_line s e perms o dev i path)).endaddr)
          perms
          (render 16 (read_mapping (mapping_line s e perms o dev i path)).offset)
          dev
          (render 10 (read_mapping (mapping_line s e perms o dev i path)).inode)
          path))
        = { read_mapping (mapping_line s e perms o dev i path) with
            permissions := perms ++ 32 ::
              (render 16 (numeral_value 16 o) ++ 32 ::
                (dev ++ 32 :: (render 10 (numeral_value 10 i) ++ 32 :: path))),
            device := dev ++ 32 :: (render 10 (numeral_value 10 i) ++ 32 :: path) } := by
  have hM : ULONGEST_MOD = 2 ^ 64 := rfl
  have hfirst := read_mapping_mapping_line s e o i perms dev path hs he ho hi
    (hM ▸ hsv) (hM ▸ hev) (hM ▸ hov) (hM ▸ hiv) hperms hdev hpath
  have rs := render_numeral 16 (Or.inl rfl) (numeral_value 16 s)
  have re := render_numeral 16 (Or.inl rfl) (numeral_value 16 e)
  have ro := render_numeral 16 (Or.inl rfl) (numeral_value 16 o)
  have ri := render_numeral 10 (Or.inr rfl) (numeral_value 10 i)
  have hsecond := read_mapping_mapping_line _ _ _ _ perms dev path rs.1 re.1 ro.1 ri.1
    (by rw [rs.2]; exact hM ▸ hsv) (by rw [re.2]; exact hM ▸ hev)
    (by rw [ro.2]; exact hM ▸ hov) (by rw [ri.2]; exact hM ▸ hiv) hperms hdev hpath
  refine ⟨hfirst, ?_, ?_, ?_⟩
  · rw [hfirst]
    exact List.take_left' rfl
  · rw [hfirst]
    exact List.take_left' rfl
  · rw [hfirst]
    simp only
    rw [hsecond, rs.2, re.2, ro.2, ri.2]

/-- The line of `/bin/cat` as the kernel prints it, with zero-padded numerals. -/
theorem read_mapping_well_formed_witness :
    (is_numeral 16 (cs "00400000") ∧ numeral_value 16 (cs "00400000") < 2 ^ 64
      ∧ is_token (cs "r-xp") ∧ is_token (cs "08:01"))
    ∧ read_mapping (mapping_line (cs "00400000") (cs "0040b000") (cs "r-xp")
          (cs "00002000") (cs "08:01") (cs "1234") (cs "/bin/cat"))
      = { addr := numeral_value 16 (cs "00400000"),
          endaddr := numeral_value 16 (cs "0040b000"),
          permissions := cs "r-xp" ++ 32 :: (cs "00002000" ++ 32 ::
            (cs "08:01" ++ 32 :: (cs "1234" ++ 32 :: cs "/bin/cat"))),
          permissions_len := (cs "r-xp").length,
          offset := numeral_value 16 (cs "00002000"),
          device := cs "08:01" ++ 32 :: (cs "1234" ++ 32 :: cs "/bin/cat"),
          device_len := (cs "08:01").length,
          inode := numeral_value 10 (cs "1234"),
          filename := cs "/bin/cat" } :=
  ⟨⟨⟨by decide, by decide⟩, by decide, ⟨by decide, by decide⟩, ⟨by decide, by decide⟩⟩,
   (read_mapping_well_formed (cs "00400000") (cs "0040b000") (cs "00002000") (cs "1234")
      (cs "r-xp") (cs "08:01") (cs "/bin/cat")
      ⟨by decide, by decide⟩ ⟨by decide, by decide⟩ ⟨by decide, by decide⟩
      ⟨by decide, by decide⟩ (by decide) (by decide) (by decide) (by decide)
      ⟨by decide, by decide⟩ ⟨by decide, by decide⟩ (by decide)).1⟩

end LinuxTdep

namespace LinuxTdep

/-! ## The result of the enumerator -/

/-- C11: without a real process id the enumerator returns 1 at once, whatever
the smaps and maps streams hold, and leaves the datum of the callback as it
was (the callback is not invoked); so it does when neither stream can be read;
in every other case it returns 0.  The same holds for
`linux_find_memory_regions`. -/
theorem no_data_result {σ τ : Type} (inf : Inferior)
    (func : RegionArgs → σ → Int × σ) (obfd : σ)
    (func' : Nat → Nat → Bool → Bool → Bool → Bool → τ → Int × τ) (obfd' : τ) :
    (inf.fake_pid_p = true →
      linux_find_memory_regions_full inf func obfd = some (1, obfd)
      ∧ linux_find_memory_regions inf func' obfd' = some (1, obfd')
      ∧ delivered_regions inf = [])
    ∧ (inf.smaps = none → inf.maps = none →
      linux_find_memory_regions_full inf func obfd = some (1, obfd)
      ∧ linux_find_memory_regions inf func' obfd' = some (1, obfd')
      ∧ delivered_regions inf = [])
    ∧ (inf.fake_pid_p = false → (inf.smaps ≠ none ∨ inf.maps ≠ none) →
      (∃ d, linux_find_memory_regions_full inf func obfd = some (0, d))
      ∧ ∃ d', linux_find_memory_regions inf func' obfd' = some (0, d')) := by
  refine ⟨?_, ?_, ?_⟩
  · intro hfake
    simp [linux_find_memory_regions, linux_find_memory_regions_full, delivered_regions,
      hfake]
  · intro hs hm
    by_cases hfake : inf.fake_pid_p = true
    · simp [linux_find_memory_regions, linux_find_memory_regions_full, delivered_regions,
        hfake]
    · simp [linux_find_memory_regions, linux_find_memory_regions_full, delivered_regions,
        hfake, hs, hm]
  · intro hfake hread
    have key : ∀ {ρ : Type} (f : RegionArgs → ρ → Int × ρ) (o : ρ),
        ∃ d, linux_find_memory_regions_full inf f o = some (0, d) := by
      intro ρ f o
      unfold linux_find_memory_regions_full
      cases hs : inf.smaps with
      | some d => simp [hfake, regions_loop_eq_foldl]
      | none =>
        cases hm : inf.maps with
        | some d => simp [hfake, regions_loop_eq_foldl]
        | none => simp [hs, hm] at hread
    exact ⟨key func obfd, key _ obfd'⟩

/-- An attached session without a real pid, and a process whose maps can be
read. -/
theorem no_data_result_witness :
    linux_find_memory_regions_full
        ⟨true, some (cs "400000-401000 r-xp 0 08:01 1234 /bin/cat\n"), none⟩
        record_region [] = some (1, [])
    ∧ ∃ d, linux_find_memory_regions_full
        ⟨false, none, some (cs "400000-401000 r-xp 0 08:01 1234 /bin/cat\n")⟩
        record_region [] = some (0, d) :=
  ⟨((no_data_result
      ⟨true, some (cs "400000-401000 r-xp 0 08:01 1234 /bin/cat\n"), none⟩
      record_region [] (fun _ _ _ _ _ _ (n : Nat) => (0, n + 1)) 0).1 rfl).1,
   ((no_data_result
      ⟨false, none, some (cs "400000-401000 r-xp 0 08:01 1234 /bin/cat\n")⟩
      record_region [] (fun _ _ _ _ _ _ (n : Nat) => (0, n + 1)) 0).2.2 rfl
      (Or.inr (by simp))).1⟩

/-! ## The siginfo layout -/

/-- The `_pad` field of the union is the first one, the vector of
`si_pad_size` elements of the `int` type. -/
theorem pad_field (gdbarch : Gdbarch) :
    field_type (build_sifields_type gdbarch) "_pad"
      = some (init_vector_type (arch_integer_type gdbarch.int_bit false "int")
          (si_pad_size gdbarch)) := by
  rfl

theorem fields_append (t : gdb_type) (name : String) (field : gdb_type) (alignment : Nat) :
    ∃ pos, TYPE_FIELDS (append_composite_type_field_aligned t name field alignment)
      = TYPE_FIELDS t ++ [(name, pos, field)] := by
  cases t with
  | mk code tname length u s v target high fields =>
    unfold append_composite_type_field_aligned
    simp only
    by_cases h1 : code = .TYPE_CODE_UNION
    · rw [if_pos h1]
      exact ⟨_, rfl⟩
    · rw [if_neg h1]
      by_cases h2 : code = .TYPE_CODE_STRUCT
      · rw [if_pos h2]
        cases fields.getLast? with
        | none => exact ⟨_, rfl⟩
        | some prev =>
          simp only
          split_ifs <;> exact ⟨_, rfl⟩
      · rw [if_neg h2]
        exact ⟨_, rfl⟩

/-- The `_sifields` field of the structure is the union. -/
theorem sifields_field (gdbarch : Gdbarch) :
    field_type (build_siginfo_type gdbarch) "_sifields"
      = some (build_sifields_type gdbarch) := by
  unfold build_siginfo_type append_composite_type_field
  simp only
  obtain ⟨p4, h4⟩ := fields_append
    (append_composite_type_field_aligned
      (append_composite_type_field_aligned
        (append_composite_type_field_aligned
          (set_type_name (arch_composite_type none .TYPE_CODE_STRUCT) "siginfo")
          "si_signo" (arch_integer_type gdbarch.int_bit false "int") 0)
        "si_errno" (arch_integer_type gdbarch.int_bit false "int") 0)
      "si_code" (arch_integer_type gdbarch.int_bit false "int") 0)
    "_sifields" (build_sifields_type gdbarch)
    (TYPE_LENGTH (arch_integer_type gdbarch.long_bit false "long"))
  obtain ⟨p3, h3⟩ := fields_append
      (append_composite_type_field_aligned
        (append_composite_type_field_aligned
          (set_type_name (arch_composite_type none .TYPE_CODE_STRUCT) "siginfo")
          "si_signo" (arch_integer_type gdbarch.int_bit false "int") 0)
        "si_errno" (arch_integer_type gdbarch.int_bit false "int") 0)
      "si_code" (arch_integer_type gdbarch.int_bit false "int") 0
  obtain ⟨p2, h2⟩ := fields_append
        (append_composite_type_field_aligned
          (set_type_name (arch_composite_type none .TYPE_CODE_STRUCT) "siginfo")
          "si_signo" (arch_integer_type gdbarch.int_bit false "int") 0)
        "si_errno" (arch_integer_type gdbarch.int_bit false "int") 0
  obtain ⟨p1, h1⟩ := fields_append
          (set_type_name (arch_composite_type none .TYPE_CODE_STRUCT) "siginfo")
          "si_signo" (arch_integer_type gdbarch.int_bit false "int") 0
  have h0 : TYPE_FIELDS (set_type_name (arch_composite_type none .TYPE_CODE_STRUCT)
      "siginfo") = [] := rfl
  unfold field_type
  rw [h4, h3, h2, h1, h0]
  simp [List.find?]

end LinuxTdep

namespace LinuxTdep

/-- C18: for a description whose `int` has `b` bits, `b` a positive multiple of
8, the layout `linux_get_siginfo_type` builds has a `_pad` vector of exactly
`128 / (b / 8) - 4` elements when pointers have 64 bits and of `128 / (b / 8) -
3` elements for every other pointer width; two descriptions with the same `int`
width, one with 64-bit and one with 32-bit pointers, differ by exactly one
element. -/
theorem pad_element_count (gdbarch : Gdbarch) (id : Nat)
    (hpos : 0 < gdbarch.int_bit) (hmul : 8 ∣ gdbarch.int_bit) :
    ((field_type (linux_get_siginfo_type gdbarch id init_linux_gdbarch_data).1
        "_sifields").bind (fun u => field_type u "_pad")).map array_elements
      = some ((128 : Int) / ((gdbarch.int_bit / 8 : Nat) : Int)
          - (if gdbarch.ptr_bit = 64 then 4 else 3))
    ∧ ∀ other : Gdbarch, other.int_bit = gdbarch.int_bit → gdbarch.ptr_bit = 64 →
        other.ptr_bit = 32 →
        ((field_type (linux_get_siginfo_type other id init_linux_gdbarch_data).1
            "_sifields").bind (fun u => field_type u "_pad")).map array_elements
          = ((field_type (linux_get_siginfo_type gdbarch id init_linux_gdbarch_data).1
              "_sifields").bind (fun u => field_type u "_pad")).map
              (fun n => array_elements n + 1) := by
  have hbuilt : ∀ g : Gdbarch,
      ((field_type (linux_get_siginfo_type g id init_linux_gdbarch_data).1
        "_sifields").bind (fun u => field_type u "_pad")).map array_elements
      = some (si_pad_size g) := by
    intro g
    have h1 : (linux_get_siginfo_type g id init_linux_gdbarch_data).1
        = build_siginfo_type g := rfl
    rw [h1, sifields_field, Option.some_bind, pad_field, Option.map_some']
    simp only [array_elements, init_vector_type]
    congr 1
    omega
  have hmap : ∀ g : Gdbarch,
      ((field_type (linux_get_siginfo_type g id init_linux_gdbarch_data).1
        "_sifields").bind (fun u => field_type u "_pad")).map
          (fun n => array_elements n + 1) = some (si_pad_size g + 1) := by
    intro g
    have h1 : (linux_get_siginfo_type g id init_linux_gdbarch_data).1
        = build_siginfo_type g := rfl
    rw [h1, sifields_field, Option.some_bind, pad_field, Option.map_some']
    simp only [array_elements, init_vector_type]
    congr 1
    omega
  constructor
  · rw [hbuilt]
    simp only [si_pad_size]
    split_ifs <;> rfl
  · intro other hint h64 h32
    rw [hbuilt, hmap]
    simp only [si_pad_size, hint, h64, h32]
    congr 1
    simp only [if_true]
    omega

/-- A description with 32-bit `int` and 64-bit pointers: 28 padding elements;
with 32-bit pointers: 29. -/
theorem pad_element_count_witness :
    ((field_type (linux_get_siginfo_type ⟨64, 64, 32, 64, .BFD_ENDIAN_LITTLE⟩ 0
        init_linux_gdbarch_data).1 "_sifields").bind
        (fun u => field_type u "_pad")).map array_elements = some 28
    ∧ ((field_type (linux_get_siginfo_type ⟨32, 32, 32, 32, .BFD_ENDIAN_LITTLE⟩ 0
        init_linux_gdbarch_data).1 "_sifields").bind
        (fun u => field_type u "_pad")).map array_elements = some 29 :=
  ⟨(pad_element_count ⟨64, 64, 32, 64, .BFD_ENDIAN_LITTLE⟩ 0 (by decide)
      (by decide)).1,
   by decide⟩

/-- C19: a call of `linux_get_siginfo_type` for a description whose slot is
empty builds the layout and stores it in that slot; a call for a description
whose slot is filled returns the stored layout, whatever it is, and changes
nothing; so a second call returns what the first returned and leaves the data
as the first left it, also when another description value is passed for the
same architecture; the slots of other architectures are not touched. -/
theorem siginfo_type_cached (gdbarch : Gdbarch) (id : Nat) (data : GdbarchData) :
    ((data id).siginfo_type = none →
      linux_get_siginfo_type gdbarch id data
        = (build_siginfo_type gdbarch,
           Function.update data id
             { siginfo_type := some (build_siginfo_type gdbarch) }))
    ∧ (∀ stored, (data id).siginfo_type = some stored →
        linux_get_siginfo_type gdbarch id data = (stored, data))
    ∧ (∀ again : Gdbarch,
        linux_get_siginfo_type again id (linux_get_siginfo_type gdbarch id data).2
          = linux_get_siginfo_type gdbarch id data)
    ∧ ∀ other : Nat, other ≠ id →
        (linux_get_siginfo_type gdbarch id data).2 other = data other := by
  refine ⟨?_, ?_, ?_, ?_⟩
  · intro h
    simp only [linux_get_siginfo_type, h]
  · intro stored h
    simp only [linux_get_siginfo_type, h]
  · intro again
    cases h : (data id).siginfo_type with
    | none =>
      simp only [linux_get_siginfo_type, h, Function.update_same]
    | some stored =>
      simp only [linux_get_siginfo_type, h]
  · intro other hne
    cases h : (data id).siginfo_type with
    | none =>
      simp only [linux_get_siginfo_type, h]
      exact Function.update_noteq hne _ _
    | some stored =>
      simp only [linux_get_siginfo_type, h]

/-- The first call for architecture 3 after initialisation, and a call on a
slot that already holds a layout. -/
theorem siginfo_type_cached_witness :
    linux_get_siginfo_type ⟨64, 64, 32, 64, .BFD_ENDIAN_LITTLE⟩ 3
        init_linux_gdbarch_data
      = (build_siginfo_type ⟨64, 64, 32, 64, .BFD_ENDIAN_LITTLE⟩,
         Function.update init_linux_gdbarch_data 3
           { siginfo_type := some
              (build_siginfo_type ⟨64, 64, 32, 64, .BFD_ENDIAN_LITTLE⟩) })
    ∧ linux_get_siginfo_type ⟨64, 64, 32, 64, .BFD_ENDIAN_LITTLE⟩ 3
        (fun _ => { siginfo_type := some builtin_void })
      = (builtin_void, fun _ => { siginfo_type := some builtin_void }) :=
  ⟨(siginfo_type_cached ⟨64, 64, 32, 64, .BFD_ENDIAN_LITTLE⟩ 3
      init_linux_gdbarch_data).1 rfl,
   (siginfo_type_cached ⟨64, 64, 32, 64, .BFD_ENDIAN_LITTLE⟩ 3
      (fun _ => { siginfo_type := some builtin_void })).2.1 builtin_void rfl⟩

theorem si_pad_size_congr (g g' : Gdbarch) (hint : g.int_bit = g'.int_bit)
    (hptr : g.ptr_bit = g'.ptr_bit) : si_pad_size g = si_pad_size g' := by
  simp only [si_pad_size, hint, hptr]

/-- The union depends on the widths of `long`, `int` and pointers only. -/
theorem sifields_type_congr (g g' : Gdbarch) (hlong : g.long_bit = g'.long_bit)
    (hint : g.int_bit = g'.int_bit) (hptr : g.ptr_bit = g'.ptr_bit) :
    build_sifields_type g = build_sifields_type g' := by
  simp only [build_sifields_type, lookup_pointer_type, si_pad_size_congr g g' hint hptr,
    hlong, hint, hptr]

/-- The structure depends on the widths of `long`, `int` and pointers only. -/
theorem siginfo_type_congr (g g' : Gdbarch) (hlong : g.long_bit = g'.long_bit)
    (hint : g.int_bit = g'.int_bit) (hptr : g.ptr_bit = g'.ptr_bit) :
    build_siginfo_type g = build_siginfo_type g' := by
  simp only [build_siginfo_type, sifields_type_congr g g' hlong hint hptr, hlong, hint]

/-- C20, as the code has it: for a description with 32-bit `int` whose `long`
and pointers both have 64 bits, or both have 32 bits, the padding field is
sized so that the whole `siginfo` structure totals exactly 128 bytes: the three
leading `int` fields, the gap up to the alignment of `long`, and the union.
The union `_sifields` itself totals `128 - 4 * 4 = 112` bytes with 64-bit
pointers and `128 - 3 * 4 = 116` bytes with 32-bit pointers, which is the
length of its padding field: no variant is longer. -/
theorem siginfo_totals_128 (gdbarch : Gdbarch) (id : Nat)
    (hint : gdbarch.int_bit = 32)
    (hwide : (gdbarch.ptr_bit = 64 ∧ gdbarch.long_bit = 64)
              ∨ (gdbarch.ptr_bit = 32 ∧ gdbarch.long_bit = 32)) :
    TYPE_LENGTH (linux_get_siginfo_type gdbarch id init_linux_gdbarch_data).1 = 128
    ∧ (field_type (linux_get_siginfo_type gdbarch id init_linux_gdbarch_data).1
        "_sifields").map TYPE_LENGTH
        = some (128 - (if gdbarch.ptr_bit = 64 then 4 else 3) * 4)
    ∧ (field_type (build_sifields_type gdbarch) "_pad").map TYPE_LENGTH
        = some (TYPE_LENGTH (build_sifields_type gdbarch)) := by
  have h1 : (linux_get_siginfo_type gdbarch id init_linux_gdbarch_data).1
      = build_siginfo_type gdbarch := rfl
  rw [h1, sifields_field, pad_field]
  rcases hwide with ⟨hp, hl⟩ | ⟨hp, hl⟩
  · rw [sifields_type_congr gdbarch ⟨64, 64, 32, 64, .BFD_ENDIAN_LITTLE⟩ hl hint hp,
      siginfo_type_congr gdbarch ⟨64, 64, 32, 64, .BFD_ENDIAN_LITTLE⟩ hl hint hp,
      si_pad_size_congr gdbarch ⟨64, 64, 32, 64, .BFD_ENDIAN_LITTLE⟩ hint hp, hint, hp]
    decide
  · rw [sifields_type_congr gdbarch ⟨32, 32, 32, 32, .BFD_ENDIAN_LITTLE⟩ hl hint hp,
      siginfo_type_congr gdbarch ⟨32, 32, 32, 32, .BFD_ENDIAN_LITTLE⟩ hl hint hp,
      si_pad_size_congr gdbarch ⟨32, 32, 32, 32, .BFD_ENDIAN_LITTLE⟩ hint hp, hint, hp]
    decide

/-- The two descriptions the claim names. -/
theorem siginfo_totals_128_witness :
    TYPE_LENGTH (linux_get_siginfo_type ⟨64, 64, 32, 64, .BFD_ENDIAN_LITTLE⟩ 0
        init_linux_gdbarch_data).1 = 128
    ∧ TYPE_LENGTH (linux_get_siginfo_type ⟨32, 32, 32, 32, .BFD_ENDIAN_BIG⟩ 0
        init_linux_gdbarch_data).1 = 128 :=
  ⟨(siginfo_totals_128 ⟨64, 64, 32, 64, .BFD_ENDIAN_LITTLE⟩ 0 rfl
      (Or.inl ⟨rfl, rfl⟩)).1,
   (siginfo_totals_128 ⟨32, 32, 32, 32, .BFD_ENDIAN_BIG⟩ 0 rfl
      (Or.inr ⟨rfl, rfl⟩)).1⟩

/-- C20 as stated fails: with 32-bit `int` and 64-bit `long` and pointers the
union `_sifields` totals 112 bytes, with 32-bit `long` and pointers 116 bytes,
not 128: the 128 bytes are the budget of the whole structure. -/
theorem sifields_union_counterexample :
    (field_type (linux_get_siginfo_type ⟨64, 64, 32, 64, .BFD_ENDIAN_LITTLE⟩ 0
        init_linux_gdbarch_data).1 "_sifields").map TYPE_LENGTH = some 112
    ∧ (field_type (linux_get_siginfo_type ⟨32, 32, 32, 32, .BFD_ENDIAN_LITTLE⟩ 0
        init_linux_gdbarch_data).1 "_sifields").map TYPE_LENGTH = some 116
    ∧ (field_type (linux_get_siginfo_type ⟨64, 64, 32, 64, .BFD_ENDIAN_LITTLE⟩ 0
        init_linux_gdbarch_data).1 "_sifields").map TYPE_LENGTH ≠ some 128 := by
  decide

end LinuxTdep

namespace LinuxTdep

/-! ## Steps that succeed -/

theorem steps_succeed_append {α : Type} (run : NoteData → α → NoteData)
    (a b : List α) (note_data : NoteData) :
    steps_succeed run note_data (a ++ b)
      ↔ steps_succeed run note_data a ∧ steps_succeed run (a.foldl run note_data) b := by
  induction a generalizing note_data with
  | nil => simp [steps_succeed]
  | cons s a ih =>
    simp only [List.cons_append, steps_succeed, List.foldl_cons, List.append_eq, ih,
      and_assoc]

theorem foldl_ne_none_of_succeed {α : Type} (run : NoteData → α → NoteData)
    (s : List α) (note_data : NoteData) (h : steps_succeed run note_data s)
    (hne : note_data ≠ none ∨ s ≠ []) : s.foldl run note_data ≠ none := by
  induction s generalizing note_data with
  | nil =>
    rcases hne with hne | hne
    · exact hne
    · exact absurd rfl hne
  | cons x s ih =>
    obtain ⟨h1, h2⟩ := h
    exact ih _ h2 (Or.inl h1)

theorem steps_succeed_map {α β : Type} (f : α → β) (run : NoteData → β → NoteData)
    (s : List α) (note_data : NoteData) :
    steps_succeed run note_data (s.map f)
      ↔ steps_succeed (fun nd a => run nd (f a)) note_data s := by
  induction s generalizing note_data with
  | nil => simp [steps_succeed]
  | cons x s ih => simp only [List.map_cons, steps_succeed, ih]

/-! ## The thread callback -/

/-- The visit of a thread of another process changes nothing. -/
theorem thread_callback_foreign (arch : NoteArch) (tgt : LiveTarget)
    (w : ElfcoreWriter) (collect : Collector) (info : thread_info)
    (data : linux_corefile_thread_data × World) (h : info.ptid.pid ≠ data.1.pid) :
    linux_corefile_thread_callback arch tgt w collect info data
      = (if data.1.note_data = none then 1 else 0, data) := by
  unfold linux_corefile_thread_callback
  simp only [if_neg h]

/-- The visit of a thread of the process: the steps of the thread are performed
on the note stream, the result is nonzero exactly when the stream is then
`NULL`, the selector is back at its value and the observations are those of the
thread. -/
theorem thread_callback_own (arch : NoteArch) (tgt : LiveTarget)
    (w : ElfcoreWriter) (collect : Collector) (info : thread_info)
    (data : linux_corefile_thread_data × World) (h : info.ptid.pid = data.1.pid) :
    (linux_corefile_thread_callback arch tgt w collect info data).2.1.note_data
        = (thread_steps arch tgt data.1.stop_signal info).foldl (run_step w collect)
            data.1.note_data
    ∧ (linux_corefile_thread_callback arch tgt w collect info data).1
        = (if (linux_corefile_thread_callback arch tgt w collect info data).2.1.note_data
              = none then 1 else 0)
    ∧ (linux_corefile_thread_callback arch tgt w collect info data).2.1.pid = data.1.pid
    ∧ (linux_corefile_thread_callback arch tgt w collect info data).2.1.stop_signal
        = data.1.stop_signal
    ∧ (linux_corefile_thread_callback arch tgt w collect info data).2.2
        = { inferior_ptid := data.2.inferior_ptid,
            trace := data.2.trace ++ thread_events arch data.1.stop_signal info } := by
  unfold linux_corefile_thread_callback
  simp only [if_pos h, thread_steps, siginfo_requests, thread_events]
  cases hsig : linux_get_siginfo_data arch tgt info.ptid with
  | none =>
    simp [run_step, List.append_assoc]
  | some bytes =>
    simp [run_step, ElfcoreWriter.write, List.append_assoc]

/-- The result of a visit is nonzero exactly when the stream is `NULL`. -/
theorem thread_callback_result (arch : NoteArch) (tgt : LiveTarget)
    (w : ElfcoreWriter) (collect : Collector) (info : thread_info)
    (data : linux_corefile_thread_data × World) :
    (linux_corefile_thread_callback arch tgt w collect info data).1
        = (if (linux_corefile_thread_callback arch tgt w collect info data).2.1.note_data
              = none then 1 else 0) := by
  by_cases h : info.ptid.pid = data.1.pid
  · exact (thread_callback_own arch tgt w collect info data h).2.1
  · rw [thread_callback_foreign arch tgt w collect info data h]

theorem event_ok_thread_events (arch : NoteArch) (s : Nat) (info : thread_info) :
    ∀ e ∈ thread_events arch s info, event_ok s e := by
  intro e he
  unfold thread_events at he
  cases hlen : arch.siginfo_length with
  | none =>
    simp only [hlen, List.append_nil, List.singleton_append, List.mem_cons,
      List.mem_singleton, List.not_mem_nil, or_false] at he
    rcases he with rfl | rfl <;> simp [event_ok]
  | some len =>
    simp only [hlen, List.singleton_append, List.cons_append, List.nil_append,
      List.mem_cons, List.mem_singleton, List.not_mem_nil, or_false] at he
    rcases he with rfl | rfl | rfl <;> simp [event_ok]

/-- Whatever the writers and the collector do, the iteration over the threads
keeps the process id and the stop signal of the thread data, leaves the
selector at its value, and adds only observations that are as they should
be. -/
theorem iterate_threads_frame (arch : NoteArch) (tgt : LiveTarget)
    (w : ElfcoreWriter) (collect : Collector) (threads : List thread_info) :
    ∀ data : linux_corefile_thread_data × World,
      (iterate_over_threads (linux_corefile_thread_callback arch tgt w collect)
          threads data).2.2.inferior_ptid = data.2.inferior_ptid
      ∧ ∃ new, (iterate_over_threads (linux_corefile_thread_callback arch tgt w collect)
          threads data).2.2.trace = data.2.trace ++ new
        ∧ ∀ e ∈ new, event_ok data.1.stop_signal e := by
  induction threads with
  | nil =>
    intro data
    exact ⟨rfl, [], by simp [iterate_over_threads], by simp⟩
  | cons t rest ih =>
    intro data
    have hstep : (linux_corefile_thread_callback arch tgt w collect t data).2.2.inferior_ptid
          = data.2.inferior_ptid
        ∧ (linux_corefile_thread_callback arch tgt w collect t data).2.1.stop_signal
          = data.1.stop_signal
        ∧ ∃ new, (linux_corefile_thread_callback arch tgt w collect t data).2.2.trace
            = data.2.trace ++ new ∧ ∀ e ∈ new, event_ok data.1.stop_signal e := by
      by_cases h : t.ptid.pid = data.1.pid
      · obtain ⟨-, -, -, h4, h5⟩ := thread_callback_own arch tgt w collect t data h
        rw [h5]
        exact ⟨rfl, h4, _, rfl, event_ok_thread_events arch _ t⟩
      · rw [thread_callback_foreign arch tgt w collect t data h]
        exact ⟨rfl, rfl, [], by simp, by simp⟩
    obtain ⟨hsel, hsig, new, htrace, hok⟩ := hstep
    unfold iterate_over_threads
    split
    · exact ⟨hsel, new, htrace, hok⟩
    · obtain ⟨ihsel, new', ihtrace, ihok⟩ :=
        ih (linux_corefile_thread_callback arch tgt w collect t data).2
      refine ⟨ihsel.trans hsel, new ++ new', ?_, ?_⟩
      · rw [ihtrace, htrace, List.append_assoc]
      · intro e he
        rcases List.mem_append.mp he with he | he
        · exact hok e he
        · have := ihok e he
          rwa [hsig] at this

/-- When every step succeeds, and the stream is not `NULL` or the first thread
belongs to the process, the iteration performs the steps of every thread of the
process in order. -/
theorem iterate_threads_succeed (arch : NoteArch) (tgt : LiveTarget)
    (w : ElfcoreWriter) (collect : Collector) (threads : List thread_info) :
    ∀ data : linux_corefile_thread_data × World,
      (data.1.note_data ≠ none
        ∨ ∃ t rest, threads = t :: rest ∧ t.ptid.pid = data.1.pid) →
      steps_succeed (run_step w collect) data.1.note_data
        ((threads.filter (fun t => t.ptid.pid = data.1.pid)).flatMap
          (thread_steps arch tgt data.1.stop_signal)) →
      (iterate_over_threads (linux_corefile_thread_callback arch tgt w collect)
          threads data).2.1.note_data
        = ((threads.filter (fun t => t.ptid.pid = data.1.pid)).flatMap
            (thread_steps arch tgt data.1.stop_signal)).foldl (run_step w collect)
            data.1.note_data
      ∧ (iterate_over_threads (linux_corefile_thread_callback arch tgt w collect)
          threads data).2.2.trace
        = data.2.trace ++ (threads.filter (fun t => t.ptid.pid = data.1.pid)).flatMap
            (thread_events arch data.1.stop_signal) := by
  induction threads with
  | nil =>
    intro data _ _
    simp [iterate_over_threads]
  | cons t rest ih =>
    intro data hstart hsucc
    by_cases h : t.ptid.pid = data.1.pid
    · obtain ⟨h1, h2, h3, h4, h5⟩ := thread_callback_own arch tgt w collect t data h
      have hfilter : (t :: rest).filter (fun t => t.ptid.pid = data.1.pid)
          = t :: rest.filter (fun t => t.ptid.pid = data.1.pid) := by
        simp [List.filter_cons, h]
      rw [hfilter, List.flatMap_cons, steps_succeed_append] at hsucc
      obtain ⟨hs1, hs2⟩ := hsucc
      have hne : (thread_steps arch tgt data.1.stop_signal t).foldl (run_step w collect)
          data.1.note_data ≠ none :=
        foldl_ne_none_of_succeed _ _ _ hs1 (Or.inr (by simp [thread_steps]))
      have hret : (linux_corefile_thread_callback arch tgt w collect t data).1 = 0 := by
        rw [h2, h1, if_neg hne]
      unfold iterate_over_threads
      rw [if_neg (by rw [hret]; simp)]
      have ih' := ih (linux_corefile_thread_callback arch tgt w collect t data).2
        (Or.inl (by rw [h1]; exact hne)) (by rw [h3, h4, h1]; exact hs2)
      rw [h3, h4, h1, h5] at ih'
      rw [hfilter, List.flatMap_cons, List.flatMap_cons, List.foldl_append]
      refine ⟨ih'.1, ?_⟩
      rw [ih'.2, List.append_assoc]
    · have hcb := thread_callback_foreign arch tgt w collect t data h
      have hne : data.1.note_data ≠ none := by
        rcases hstart with hne | ⟨t', rest', heq, hown⟩
        · exact hne
        · simp only [List.cons.injEq] at heq
          rw [← heq.1] at hown
          exact absurd hown h
      have hfilter : (t :: rest).filter (fun t => t.ptid.pid = data.1.pid)
          = rest.filter (fun t => t.ptid.pid = data.1.pid) := by
        simp [List.filter_cons, h]
      rw [hfilter] at hsucc ⊢
      unfold iterate_over_threads
      rw [hcb]
      simp only [if_neg hne, ne_eq, not_true_eq_false, if_false]
      exact ih data (Or.inl hne) hsucc

end LinuxTdep

namespace LinuxTdep

/-! ## The SPU notes and the default collector -/

theorem target_read_alloc_nil :
    ¬ 0 < (target_read_alloc (some [])).1 ∧ ¬ 0 < (target_read_alloc none).1 := by
  constructor <;> simp [target_read_alloc]

theorem target_read_alloc_cons (b : Nat) (bytes : List Nat) :
    0 < (target_read_alloc (some (b :: bytes))).1
    ∧ (target_read_alloc (some (b :: bytes))).2 = b :: bytes := by
  constructor
  · simp only [target_read_alloc, List.length_cons]
    omega
  · rfl

theorem spu_files_loop_succeed (w : ElfcoreWriter) (tgt : LiveTarget) (fd : Int)
    (files : List (List Nat)) :
    ∀ note_data : NoteData,
      steps_succeed w.elfcore_write_note note_data (spu_context_notes tgt fd files) →
      spu_files_loop w tgt fd files note_data
        = some ((spu_context_notes tgt fd files).foldl w.elfcore_write_note note_data) := by
  induction files with
  | nil => intro note_data _; rfl
  | cons file files ih =>
    intro note_data hsucc
    unfold spu_files_loop
    simp only
    cases hobj : tgt.spu_object (format_d fd ++ 47 :: file) with
    | none =>
      have hnotes : spu_context_notes tgt fd (file :: files)
          = spu_context_notes tgt fd files := by
        simp [spu_context_notes, List.filterMap_cons, hobj]
      rw [hnotes] at hsucc ⊢
      rw [if_neg target_read_alloc_nil.2]
      exact ih note_data hsucc
    | some bytes =>
      cases bytes with
      | nil =>
        have hnotes : spu_context_notes tgt fd (file :: files)
            = spu_context_notes tgt fd files := by
          simp [spu_context_notes, List.filterMap_cons, hobj]
        rw [hnotes] at hsucc ⊢
        rw [if_neg target_read_alloc_nil.1]
        exact ih note_data hsucc
      | cons b bytes =>
        have hnotes : spu_context_notes tgt fd (file :: files)
            = { name := cs "SPU/" ++ (format_d fd ++ 47 :: file), type := NT_SPU,
                desc := b :: bytes } :: spu_context_notes tgt fd files := by
          simp [spu_context_notes, List.filterMap_cons, hobj]
        rw [hnotes] at hsucc ⊢
        obtain ⟨h1, h2⟩ := hsucc
        rw [if_pos (target_read_alloc_cons b bytes).1, (target_read_alloc_cons b bytes).2]
        cases hw : w.elfcore_write_note note_data
            { name := cs "SPU/" ++ (format_d fd ++ 47 :: file), type := NT_SPU,
              desc := b :: bytes } with
        | none => exact absurd hw h1
        | some stream =>
          simp only [List.foldl_cons, hw]
          rw [hw] at h2
          exact ih (some stream) h2

theorem spu_ids_loop_succeed (w : ElfcoreWriter) (tgt : LiveTarget)
    (order : bfd_endian) (ids : List (List Nat)) :
    ∀ note_data : NoteData,
      steps_succeed w.elfcore_write_note note_data
        (ids.flatMap (fun id => spu_context_notes tgt (spu_fd order id) spu_files)) →
      spu_ids_loop w tgt order ids note_data
        = some ((ids.flatMap
            (fun id => spu_context_notes tgt (spu_fd order id) spu_files)).foldl
            w.elfcore_write_note note_data) := by
  induction ids with
  | nil => intro note_data _; rfl
  | cons id ids ih =>
    intro note_data hsucc
    rw [List.flatMap_cons, steps_succeed_append] at hsucc
    unfold spu_ids_loop
    rw [spu_files_loop_succeed w tgt _ _ note_data hsucc.1]
    simp only [List.flatMap_cons, List.foldl_append]
    exact ih _ hsucc.2

theorem spu_fd_eq (order : bfd_endian) (b0 b1 b2 b3 : Nat) :
    spu_fd order [b0, b1, b2, b3] = spu_context_id order b0 b1 b2 b3 := by
  cases order <;>
    simp only [spu_fd, spu_context_id, bytes_value, List.foldr, List.foldl] <;>
    split_ifs <;> omega

theorem spu_ids_byte_cons (slack : Nat → Nat) (b : Nat) (ids : List Nat) (i : Nat) :
    spu_ids_byte slack (b :: ids) (i + 1) = spu_ids_byte slack ids i := by
  simp only [spu_ids_byte, List.length_cons, Nat.add_lt_add_iff_right,
    List.getD_cons_succ, Nat.add_sub_add_right]

theorem flatMap_map_eq {α β γ : Type} (f : α → β) (g : β → List γ) (l : List α) :
    (l.map f).flatMap g = l.flatMap (fun a => g (f a)) := by
  induction l with
  | nil => rfl
  | cons a l ih => simp only [List.map_cons, List.flatMap_cons, ih]

/-- The groups of four bytes the loop reads are those at the offsets `4 * k`
below the length of the object. -/
theorem spu_id_groups_ids (slack : Nat → Nat) (order : bfd_endian) :
    ∀ (n : Nat) (ids : List Nat), ids.length ≤ n →
      (spu_id_groups slack ids).map (spu_fd order)
        = (List.range ((ids.length + 3) / 4)).map (fun k =>
            spu_context_id order (spu_ids_byte slack ids (4 * k))
              (spu_ids_byte slack ids (4 * k + 1))
              (spu_ids_byte slack ids (4 * k + 2))
              (spu_ids_byte slack ids (4 * k + 3))) := by
  intro n
  induction n with
  | zero =>
    intro ids hlen
    cases ids with
    | nil => rfl
    | cons b ids => simp at hlen
  | succ n ih =>
    intro ids hlen
    match ids, hlen with
    | [], _ => rfl
    | [b0], _ =>
      simp [spu_id_groups, spu_fd_eq, spu_ids_byte, List.range_succ]
    | [b0, b1], _ =>
      simp [spu_id_groups, spu_fd_eq, spu_ids_byte, List.range_succ]
    | [b0, b1, b2], _ =>
      simp [spu_id_groups, spu_fd_eq, spu_ids_byte, List.range_succ]
    | b0 :: b1 :: b2 :: b3 :: rest, hlen =>
      have hrest : rest.length ≤ n := by
        simp only [List.length_cons] at hlen
        omega
      have hdiv : ((b0 :: b1 :: b2 :: b3 :: rest).length + 3) / 4
          = (rest.length + 3) / 4 + 1 := by
        simp only [List.length_cons]
        omega
      rw [hdiv, List.range_succ_eq_map, List.map_cons, List.map_map]
      simp only [spu_id_groups, List.map_cons, spu_fd_eq, ih rest hrest]
      congr 1
      · simp [spu_ids_byte]
      · apply List.map_congr_left
        intro k _
        simp only [Function.comp]
        have h0 : 4 * (k + 1) = 4 * k + 1 + 1 + 1 + 1 := by omega
        have h2 : 4 * k + 1 + 1 + 1 + 1 + 2 = 4 * k + 2 + 1 + 1 + 1 + 1 := by omega
        have h3 : 4 * k + 1 + 1 + 1 + 1 + 3 = 4 * k + 3 + 1 + 1 + 1 + 1 := by omega
        rw [h0, h2, h3]
        simp only [spu_ids_byte_cons]

/-- The SPU notes, from the groups of bytes the loop reads. -/
theorem spu_notes_eq (tgt : LiveTarget) :
    spu_notes tgt
      = (spu_id_groups tgt.spu_ids_slack
          (target_read_alloc tgt.spu_ids_object).2).flatMap
          (fun id => spu_context_notes tgt (spu_fd tgt.target_gdbarch.byte_order id)
            spu_files) := by
  unfold spu_notes spu_context_ids
  cases hids : tgt.spu_ids_object with
  | none => simp [target_read_alloc, spu_id_groups]
  | some ids =>
    simp only [target_read_alloc]
    rw [← spu_id_groups_ids tgt.spu_ids_slack tgt.target_gdbarch.byte_order
      ids.length ids (Nat.le_refl _), flatMap_map_eq]
    rfl

/-- When every SPU write succeeds, the SPU notes are written in order. -/
theorem linux_spu_make_corefile_notes_succeed (w : ElfcoreWriter)
    (tgt : LiveTarget) (note_data : NoteData)
    (hsucc : steps_succeed w.elfcore_write_note note_data (spu_notes tgt)) :
    linux_spu_make_corefile_notes w tgt note_data
      = (spu_notes tgt).foldl w.elfcore_write_note note_data := by
  unfold linux_spu_make_corefile_notes
  rw [spu_notes_eq] at hsucc ⊢
  rw [spu_ids_loop_succeed w tgt tgt.target_gdbarch.byte_order _ note_data hsucc]

/-- When every write succeeds, the default collector makes one request per
register section, in order. -/
theorem collect_sections_loop_succeed (arch : NoteArch) (tgt : LiveTarget)
    (w : ElfcoreWriter) (rc : regcache) (lwp : Int) (stop_signal : Nat)
    (sects : List core_regset_section) :
    ∀ note_data : NoteData,
      steps_succeed w.write note_data
        (sects.map (section_request arch tgt rc lwp stop_signal)) →
      collect_sections_loop arch tgt w rc lwp stop_signal sects note_data
        = (sects.map (section_request arch tgt rc lwp stop_signal)).foldl w.write
            note_data := by
  induction sects with
  | nil => intro note_data _; rfl
  | cons sect sects ih =>
    intro note_data hsucc
    obtain ⟨h1, h2⟩ := hsucc
    have hreq : w.write note_data (section_request arch tgt rc lwp stop_signal sect)
        = (if streq sect.sect_name (cs ".reg") then
            w.elfcore_write_prstatus note_data lwp (tgt.gdb_signal_to_host stop_signal)
              (arch.collect_regset sect.sect_name sect.size rc)
          else w.elfcore_write_register_note note_data sect.sect_name
              (arch.collect_regset sect.sect_name sect.size rc) sect.size) := by
      unfold section_request
      split <;> rfl
    unfold collect_sections_loop
    simp only [List.map_cons, List.foldl_cons]
    rw [← hreq]
    cases hw : w.write note_data (section_request arch tgt rc lwp stop_signal sect) with
    | none => exact absurd hw h1
    | some stream =>
      simp only
      rw [hw] at h2
      exact ih (some stream) h2

/-- The file-mapping step always returns. -/
theorem linux_make_mappings_corefile_notes_some (gdbarch : Gdbarch) (inf : Inferior)
    (elfcore_write_note : NoteData → Note → NoteData) (note_data : NoteData) :
    ∃ result, linux_make_mappings_corefile_notes gdbarch inf elfcore_write_note
      note_data = some result := by
  unfold linux_make_mappings_corefile_notes
  obtain ⟨code, hfull⟩ := linux_find_memory_regions_full_eq inf
    (linux_make_mappings_callback gdbarch)
    { file_count := 0,
      data_obstack := List.replicate (long_length gdbarch) 0 ++ pack_long gdbarch 1,
      filename_obstack := [] }
  simp only [hfull]
  split_ifs
  · exact ⟨_, rfl⟩
  · exact ⟨_, rfl⟩

end LinuxTdep

namespace LinuxTdep

/-! ## The stages of `linux_make_corefile_notes` -/

theorem LONGEST_to_int_pos (n : Nat) :
    0 < LONGEST_to_int (n : Int) ↔ 0 < n % 2 ^ 32 ∧ n % 2 ^ 32 < 2 ^ 31 := by
  unfold LONGEST_to_int
  omega

theorem LONGEST_to_int_toNat (n : Nat) (h : 0 < LONGEST_to_int (n : Int)) :
    (LONGEST_to_int (n : Int)).toNat = n % 2 ^ 32 := by
  unfold LONGEST_to_int at h ⊢
  omega

theorem foldl_auxv_requests (w : ElfcoreWriter) (tgt : LiveTarget)
    (note_data : NoteData) :
    (auxv_requests tgt).foldl w.write note_data
      = if 0 < auxv_len tgt then
          w.elfcore_write_note note_data
            { name := cs "CORE", type := NT_AUXV,
              desc := (target_read_alloc tgt.auxv_object).2.take (auxv_len tgt).toNat }
        else note_data := by
  unfold auxv_requests auxv_len
  cases hobj : tgt.auxv_object with
  | none =>
    have hneg : ¬ 0 < LONGEST_to_int (-1) := by decide
    simp only [target_read_alloc, if_neg hneg]
    rfl
  | some bytes =>
    simp only [target_read_alloc]
    by_cases hpos : 0 < LONGEST_to_int (bytes.length : Int)
    · rw [if_pos hpos, if_pos ((LONGEST_to_int_pos _).1 hpos),
        LONGEST_to_int_toNat _ hpos]
      rfl
    · rw [if_neg hpos, if_neg (fun h => hpos ((LONGEST_to_int_pos _).2 h))]
      rfl

/-- For a vector shorter than `2 ^ 31` bytes the auxiliary-vector request is
one note with the whole vector when the vector is not empty. -/
theorem auxv_requests_short (tgt : LiveTarget)
    (hauxv : ∀ bytes, tgt.auxv_object = some bytes → bytes.length < 2 ^ 31) :
    auxv_requests tgt = nonempty_auxv_requests tgt := by
  unfold auxv_requests nonempty_auxv_requests
  cases hobj : tgt.auxv_object with
  | none => rfl
  | some bytes =>
    have hlen := hauxv bytes hobj
    have hmod : bytes.length % 2 ^ 32 = bytes.length := Nat.mod_eq_of_lt (by omega)
    cases bytes with
    | nil => simp
    | cons b bytes =>
      simp only [hmod, List.take_length]
      rw [if_pos ⟨by simp, hlen⟩]

/-- A vector of `2 ^ 31` bytes gets no request: as an `int` its length is
negative. -/
theorem auxv_requests_long (exec_file : Option (List Nat)) (threads : List thread_info) :
    auxv_requests (example_long_auxv_target exec_file threads) = [] := by
  have hlen : ¬ (0 < (List.replicate (2 ^ 31) 0).length % 2 ^ 32
      ∧ (List.replicate (2 ^ 31) 0).length % 2 ^ 32 < 2 ^ 31) := by
    rw [List.length_replicate]
    decide
  unfold auxv_requests example_long_auxv_target
  exact if_neg hlen

theorem foldl_prpsinfo_steps (w : ElfcoreWriter) (collect : Collector)
    (tgt : LiveTarget) :
    (prpsinfo_steps tgt).foldl (run_step w collect) none
      = match tgt.exec_file with
        | some exec_file =>
          w.elfcore_write_prpsinfo none (lbasename exec_file)
            (psargs_of (lbasename exec_file) tgt.inferior_args)
        | none => none := by
  unfold prpsinfo_steps
  cases tgt.exec_file <;> rfl

/-- The function `linux_make_corefile_notes`, stage by stage. -/
theorem linux_make_corefile_notes_stages (gdbarch : Gdbarch) (arch : NoteArch)
    (tgt : LiveTarget) (w : ElfcoreWriter) (collect : Collector) (world : World)
    (iterated : Option thread_info × linux_corefile_thread_data × World)
    (hit : iterated = iterate_over_threads
        (linux_corefile_thread_callback arch tgt w collect) tgt.threads
        ({ pid := world.inferior_ptid.pid,
           note_data := (prpsinfo_steps tgt).foldl (run_step w collect) none,
           num_notes := 0,
           stop_signal := find_stop_signal tgt.threads world.inferior_ptid },
          world)) :
    linux_make_corefile_notes gdbarch arch tgt w collect world
      = if tgt.exec_file ≠ none
            ∧ (prpsinfo_steps tgt).foldl (run_step w collect) none = none then
          some (none, world)
        else if iterated.2.1.note_data = none then some (none, iterated.2.2)
        else if 0 < auxv_len tgt
            ∧ (auxv_requests tgt).foldl w.write iterated.2.1.note_data = none then
          some (none, iterated.2.2)
        else if linux_spu_make_corefile_notes w tgt
            ((auxv_requests tgt).foldl w.write iterated.2.1.note_data) = none then
          some (none, iterated.2.2)
        else
          (linux_make_mappings_corefile_notes gdbarch tgt.inferior w.elfcore_write_note
            (linux_spu_make_corefile_notes w tgt
              ((auxv_requests tgt).foldl w.write iterated.2.1.note_data))).map
            (fun note_data => (note_data, iterated.2.2)) := by
  subst hit
  unfold linux_make_corefile_notes
  simp only [foldl_prpsinfo_steps, foldl_auxv_requests, psargs_of]
  split_ifs <;> first | rfl | (split <;> simp_all)

end LinuxTdep

namespace LinuxTdep

theorem foldl_mapping_requests (gdbarch : Gdbarch) (tgt : LiveTarget)
    (w : ElfcoreWriter) (note_data : NoteData) :
    (mapping_requests gdbarch tgt).foldl w.write note_data
      = if (delivered_regions tgt.inferior).filter qualifies = [] then note_data
        else w.elfcore_write_note note_data
          { name := cs "CORE", type := NT_FILE,
            desc := file_mapping_layout (gdbarch.long_bit / 8) gdbarch.byte_order
              ((delivered_regions tgt.inferior).filter qualifies) } := by
  unfold mapping_requests
  split_ifs <;> rfl

theorem foldl_write_steps (w : ElfcoreWriter) (collect : Collector)
    (requests : List WriteRequest) (note_data : NoteData) :
    (requests.map BuildStep.write).foldl (run_step w collect) note_data
      = requests.foldl w.write note_data := by
  rw [List.foldl_map]
  rfl

theorem steps_succeed_write_steps (w : ElfcoreWriter) (collect : Collector)
    (requests : List WriteRequest) (note_data : NoteData) :
    steps_succeed (run_step w collect) note_data (requests.map BuildStep.write)
      ↔ steps_succeed w.write note_data requests := by
  rw [steps_succeed_map]
  rfl

theorem steps_succeed_notes (w : ElfcoreWriter) (notes : List Note)
    (note_data : NoteData) :
    steps_succeed w.write note_data (notes.map WriteRequest.note)
      ↔ steps_succeed w.elfcore_write_note note_data notes := by
  rw [steps_succeed_map]
  rfl

theorem foldl_notes (w : ElfcoreWriter) (notes : List Note) (note_data : NoteData) :
    (notes.map WriteRequest.note).foldl w.write note_data
      = notes.foldl w.elfcore_write_note note_data := by
  rw [List.foldl_map]
  rfl

/-- When the build has a first note and every step succeeds, the build performs
the expected steps in order and returns their result, which is not `NULL`; the
selector is where it was, and the observations are those of the threads of the
process. -/
theorem linux_make_corefile_notes_succeed (gdbarch : Gdbarch) (arch : NoteArch)
    (tgt : LiveTarget) (w : ElfcoreWriter) (collect : Collector) (world : World)
    (hfirst : has_first_note tgt world.inferior_ptid.pid)
    (hsucc : steps_succeed (run_step w collect) none
      (expected_steps gdbarch arch tgt world.inferior_ptid))
    (hcount : ((delivered_regions tgt.inferior).filter qualifies).length < ULONGEST_MOD) :
    ∃ world', linux_make_corefile_notes gdbarch arch tgt w collect world
        = some ((expected_steps gdbarch arch tgt world.inferior_ptid).foldl
            (run_step w collect) none, world')
      ∧ (expected_steps gdbarch arch tgt world.inferior_ptid).foldl
            (run_step w collect) none ≠ none
      ∧ world'.inferior_ptid = world.inferior_ptid
      ∧ world'.trace = world.trace
          ++ (threads_of tgt world.inferior_ptid.pid).flatMap
              (thread_events arch (find_stop_signal tgt.threads world.inferior_ptid)) := by
  unfold expected_steps at hsucc ⊢
  rw [steps_succeed_append, steps_succeed_append] at hsucc
  obtain ⟨⟨hP, hT⟩, hTail⟩ := hsucc
  rw [steps_succeed_write_steps] at hTail
  unfold tail_requests at hTail ⊢
  rw [steps_succeed_append, steps_succeed_append, steps_succeed_notes] at hTail
  obtain ⟨⟨hA, hS⟩, hM⟩ := hTail
  simp only [List.foldl_append, foldl_notes] at hA hS hM
  -- the stream after the process-info stage
  have hnd1 : tgt.exec_file ≠ none →
      (prpsinfo_steps tgt).foldl (run_step w collect) none ≠ none := by
    intro hexec
    refine foldl_ne_none_of_succeed _ _ _ hP (Or.inr ?_)
    unfold prpsinfo_steps
    cases h : tgt.exec_file with
    | none => exact absurd h hexec
    | some path => simp
  have hstart : (prpsinfo_steps tgt).foldl (run_step w collect) none ≠ none
      ∨ ∃ t rest, tgt.threads = t :: rest ∧ t.ptid.pid = world.inferior_ptid.pid := by
    rcases hfirst with h | h
    · exact Or.inl (hnd1 h)
    · exact Or.inr h
  -- the stream after the threads
  have hit := iterate_threads_succeed arch tgt w collect tgt.threads
    ({ pid := world.inferior_ptid.pid,
       note_data := (prpsinfo_steps tgt).foldl (run_step w collect) none,
       num_notes := 0,
       stop_signal := find_stop_signal tgt.threads world.inferior_ptid }, world)
    hstart hT
  have hframe := iterate_threads_frame arch tgt w collect tgt.threads
    ({ pid := world.inferior_ptid.pid,
       note_data := (prpsinfo_steps tgt).foldl (run_step w collect) none,
       num_notes := 0,
       stop_signal := find_stop_signal tgt.threads world.inferior_ptid }, world)
  simp only at hit hframe
  have hnd2 : ((threads_of tgt world.inferior_ptid.pid).flatMap
      (thread_steps arch tgt (find_stop_signal tgt.threads world.inferior_ptid))).foldl
      (run_step w collect) ((prpsinfo_steps tgt).foldl (run_step w collect) none)
      ≠ none := by
    refine foldl_ne_none_of_succeed _ _ _ hT ?_
    rcases hstart with h | ⟨t, rest, hth, hown⟩
    · exact Or.inl h
    · right
      unfold threads_of
      rw [hth, List.filter_cons_of_pos (by simpa using hown)]
      simp [thread_steps]
  have hnd3 := foldl_ne_none_of_succeed _ _ _ hA (Or.inl hnd2)
  have hspu := linux_spu_make_corefile_notes_succeed w tgt _ hS
  have hnd4 := foldl_ne_none_of_succeed _ _ _ hS (Or.inl hnd3)
  have hnd5 := foldl_ne_none_of_succeed _ _ _ hM (Or.inl hnd4)
  have hmap := linux_make_mappings_corefile_notes_eq gdbarch tgt.inferior
    w.elfcore_write_note
    ((spu_notes tgt).foldl w.elfcore_write_note
      ((auxv_requests tgt).foldl w.write
        (((threads_of tgt world.inferior_ptid.pid).flatMap
          (thread_steps arch tgt (find_stop_signal tgt.threads world.inferior_ptid))).foldl
          (run_step w collect)
          ((prpsinfo_steps tgt).foldl (run_step w collect) none)))) hcount
  rw [← foldl_mapping_requests gdbarch tgt w] at hmap
  refine ⟨_, ?_, ?_, hframe.1, hit.2⟩
  · rw [linux_make_corefile_notes_stages gdbarch arch tgt w collect world _ rfl]
    have hc1 : ¬ (tgt.exec_file ≠ none
        ∧ (prpsinfo_steps tgt).foldl (run_step w collect) none = none) :=
      fun h => hnd1 h.1 h.2
    rw [if_neg hc1, hit.1]
    unfold threads_of at hnd2 hnd3 hmap hspu hnd4 ⊢
    rw [if_neg hnd2, if_neg (fun h => hnd3 h.2), hspu, if_neg hnd4, hmap]
    simp only [Option.map_some', List.foldl_append, foldl_write_steps, foldl_notes]
  · simp only [List.foldl_append, foldl_write_steps, foldl_notes] at hnd5 ⊢
    exact hnd5

/-- Whatever the writers and the collector do, the build returns, the selector
is where it was, and every observation added is as it should be for the stop
signal computed at the start. -/
theorem linux_make_corefile_notes_frame (gdbarch : Gdbarch) (arch : NoteArch)
    (tgt : LiveTarget) (w : ElfcoreWriter) (collect : Collector) (world : World) :
    ∃ note_data world' new,
      linux_make_corefile_notes gdbarch arch tgt w collect world
        = some (note_data, world')
      ∧ world'.inferior_ptid = world.inferior_ptid
      ∧ world'.trace = world.trace ++ new
      ∧ ∀ e ∈ new, event_ok (find_stop_signal tgt.threads world.inferior_ptid) e := by
  have hframe := iterate_threads_frame arch tgt w collect tgt.threads
    ({ pid := world.inferior_ptid.pid,
       note_data := (prpsinfo_steps tgt).foldl (run_step w collect) none,
       num_notes := 0,
       stop_signal := find_stop_signal tgt.threads world.inferior_ptid }, world)
  simp only at hframe
  obtain ⟨hsel, new, htrace, hok⟩ := hframe
  rw [linux_make_corefile_notes_stages gdbarch arch tgt w collect world _ rfl]
  split_ifs
  · exact ⟨_, _, [], rfl, rfl, by simp, by simp⟩
  · exact ⟨_, _, new, rfl, hsel, htrace, hok⟩
  · exact ⟨_, _, new, rfl, hsel, htrace, hok⟩
  · exact ⟨_, _, new, rfl, hsel, htrace, hok⟩
  · obtain ⟨result, hres⟩ := linux_make_mappings_corefile_notes_some gdbarch
      tgt.inferior w.elfcore_write_note
      (linux_spu_make_corefile_notes w tgt
        ((auxv_requests tgt).foldl w.write
          (iterate_over_threads (linux_corefile_thread_callback arch tgt w collect)
            tgt.threads
            ({ pid := world.inferior_ptid.pid,
               note_data := (prpsinfo_steps tgt).foldl (run_step w collect) none,
               num_notes := 0,
               stop_signal := find_stop_signal tgt.threads world.inferior_ptid },
              world)).2.1.note_data))
    rw [hres]
    exact ⟨_, _, new, rfl, hsel, htrace, hok⟩

end LinuxTdep

namespace LinuxTdep

/-! ## The note build: order, failure, absence -/

/-- C12, as the code has it: for a target with a known executable path on which
every step succeeds, the build performs exactly these steps, in this order, each on the
stream the previous one returned, and returns the last stream: the process-info
request (basename of the executable; basename, a space and the inferior
arguments as argument string); for each thread whose process id is that of the
current-thread selector, in the order of the thread list and skipping all other
threads, the register collector on the registers fetched for that thread,
followed by the signal-info note when signal-info bytes were obtained for it;
the auxiliary-vector note, with the whole vector, if the vector is not empty;
the SPU notes (for each context id of the ids object, in order, a note for each
SPU file whose object is not empty); the file-mapping note if a region
qualifies.  The hypotheses on sizes: fewer than `2 ^ 64` qualifying regions,
and an auxiliary vector shorter than `2 ^ 31` bytes, whose length the `int
auxv_len` of the code holds. -/
theorem note_order (gdbarch : Gdbarch) (arch : NoteArch) (tgt : LiveTarget)
    (w : ElfcoreWriter) (collect : Collector) (world : World) (path : List Nat)
    (hexec : tgt.exec_file = some path)
    (hsucc : steps_succeed (run_step w collect) none
      (BuildStep.write (.prpsinfo (lbasename path)
          (psargs_of (lbasename path) tgt.inferior_args))
        :: ((tgt.threads.filter (fun t => t.ptid.pid = world.inferior_ptid.pid)).flatMap
              (fun t => BuildStep.collect { ptid := t.ptid, fetched_as := some t.ptid }
                  t.ptid (find_stop_signal tgt.threads world.inferior_ptid)
                :: (siginfo_requests arch tgt t).map BuildStep.write)
            ++ (nonempty_auxv_requests tgt ++ (spu_notes tgt).map WriteRequest.note
                ++ mapping_requests gdbarch tgt).map BuildStep.write)))
    (hcount : ((delivered_regions tgt.inferior).filter qualifies).length < ULONGEST_MOD)
    (hauxv : ∀ bytes, tgt.auxv_object = some bytes → bytes.length < 2 ^ 31) :
    ∃ stream world',
      linux_make_corefile_notes gdbarch arch tgt w collect world
        = some (some stream, world')
      ∧ some stream
        = (BuildStep.write (.prpsinfo (lbasename path)
              (psargs_of (lbasename path) tgt.inferior_args))
            :: ((tgt.threads.filter
                  (fun t => t.ptid.pid = world.inferior_ptid.pid)).flatMap
                  (fun t => BuildStep.collect
                      { ptid := t.ptid, fetched_as := some t.ptid }
                      t.ptid (find_stop_signal tgt.threads world.inferior_ptid)
                    :: (siginfo_requests arch tgt t).map BuildStep.write)
                ++ (nonempty_auxv_requests tgt ++ (spu_notes tgt).map WriteRequest.note
                    ++ mapping_requests gdbarch tgt).map BuildStep.write)).foldl
            (run_step w collect) none := by
  have hsteps : expected_steps gdbarch arch tgt world.inferior_ptid
      = BuildStep.write (.prpsinfo (lbasename path)
          (psargs_of (lbasename path) tgt.inferior_args))
        :: ((tgt.threads.filter (fun t => t.ptid.pid = world.inferior_ptid.pid)).flatMap
              (fun t => BuildStep.collect { ptid := t.ptid, fetched_as := some t.ptid }
                  t.ptid (find_stop_signal tgt.threads world.inferior_ptid)
                :: (siginfo_requests arch tgt t).map BuildStep.write)
            ++ (nonempty_auxv_requests tgt ++ (spu_notes tgt).map WriteRequest.note
                ++ mapping_requests gdbarch tgt).map BuildStep.write) := by
    simp only [expected_steps, prpsinfo_steps, hexec, threads_of, tail_requests,
      auxv_requests_short tgt hauxv, List.singleton_append, List.cons_append,
      List.nil_append]
    rfl
  rw [← hsteps] at hsucc ⊢
  obtain ⟨world', hres, hne, -, -⟩ := linux_make_corefile_notes_succeed gdbarch arch tgt
    w collect world (Or.inl (by rw [hexec]; simp)) hsucc hcount
  cases hfold : (expected_steps gdbarch arch tgt world.inferior_ptid).foldl
      (run_step w collect) none with
  | none => exact absurd hfold hne
  | some stream =>
    rw [hfold] at hres
    exact ⟨stream, world', hres, rfl⟩

/-- The build for `/bin/cat -n` with two threads of process 10 and one of
process 20, an auxiliary vector, two SPU contexts (the id of the second is made
of the last byte of the ids object and three bytes after it), and one mapped
file, recorded: the process-info note, the notes of the thread 11 (status, two
register sections, signal info), those of the thread 12, the auxiliary vector,
the SPU notes `SPU/3/mem` and `SPU/260/regs`, the file-mapping note. -/
theorem note_order_witness :
    ∃ stream world',
      linux_make_corefile_notes ⟨64, 64, 32, 64, .BFD_ENDIAN_LITTLE⟩
          (example_arch (some 2))
          (example_full_target
            [⟨⟨10, 11, 0⟩, 0⟩, ⟨⟨20, 21, 0⟩, 5⟩, ⟨⟨10, 12, 0⟩, 11⟩])
          recording_writer
          (linux_collect_thread_registers (example_arch (some 2))
            (example_full_target
              [⟨⟨10, 11, 0⟩, 0⟩, ⟨⟨20, 21, 0⟩, 5⟩, ⟨⟨10, 12, 0⟩, 11⟩])
            recording_writer)
          ⟨⟨10, 11, 0⟩, []⟩
        = some (some stream, world')
      ∧ stream
        = [{ name := cs "CORE", type := 3, desc := cs "cat" ++ 0 :: cs "cat -n" },
           { name := cs "CORE", type := 1, desc := [11, 11] },
           { name := cs ".reg2", type := 0, desc := [11] },
           { name := cs ".reg-xfp", type := 0, desc := [11] },
           { name := cs "CORE", type := NT_SIGINFO, desc := [1, 2] },
           { name := cs "CORE", type := 1, desc := [12, 12] },
           { name := cs ".reg2", type := 0, desc := [12] },
           { name := cs ".reg-xfp", type := 0, desc := [12] },
           { name := cs "CORE", type := NT_SIGINFO, desc := [1, 2] },
           { name := cs "CORE", type := NT_AUXV, desc := [6, 0, 0, 0] },
           { name := cs "SPU/3/mem", type := NT_SPU, desc := [7] },
           { name := cs "SPU/260/regs", type := NT_SPU, desc := [8, 9] },
           { name := cs "CORE", type := NT_FILE,
             desc := [1, 0, 0, 0, 0, 0, 0, 0, 1, 0, 0, 0, 0, 0, 0, 0,
                      0, 0, 64, 0, 0, 0, 0, 0, 0, 16, 64, 0, 0, 0, 0, 0,
                      0, 0, 0, 0, 0, 0, 0, 0] ++ cs "/bin/cat" ++ [0] }] :=
  match note_order ⟨64, 64, 32, 64, .BFD_ENDIAN_LITTLE⟩ (example_arch (some 2))
      (example_full_target
        [⟨⟨10, 11, 0⟩, 0⟩, ⟨⟨20, 21, 0⟩, 5⟩, ⟨⟨10, 12, 0⟩, 11⟩])
      recording_writer
      (linux_collect_thread_registers (example_arch (some 2))
        (example_full_target
          [⟨⟨10, 11, 0⟩, 0⟩, ⟨⟨20, 21, 0⟩, 5⟩, ⟨⟨10, 12, 0⟩, 11⟩])
        recording_writer)
      ⟨⟨10, 11, 0⟩, []⟩ (cs "/bin/cat") rfl (by decide) (by decide)
      (fun bytes h => Option.some.inj h ▸ (by decide)) with
  | ⟨stream, world', h1, h2⟩ =>
    ⟨stream, world', h1, Option.some.inj (h2.trans (by decide))⟩

/-- C12 as stated fails: for a target with the executable `/bin/cat`, no
threads and an auxiliary vector of `2 ^ 31` bytes, with a writer that never
fails, the notes requested are the process-info note alone.  The vector is
not empty, yet no auxiliary-vector note is requested: the length of the vector
is stored in `int auxv_len`, where it is negative, and the test `auxv_len > 0`
fails. -/
theorem long_auxv_counterexample :
    (example_long_auxv_target (some (cs "/bin/cat")) []).auxv_object.map List.length
      = some (2 ^ 31)
    ∧ ∃ world',
      linux_make_corefile_notes ⟨64, 64, 32, 64, .BFD_ENDIAN_LITTLE⟩
          (example_arch none)
          (example_long_auxv_target (some (cs "/bin/cat")) [])
          recording_writer
          (linux_collect_thread_registers (example_arch none)
            (example_long_auxv_target (some (cs "/bin/cat")) [])
            recording_writer)
          ⟨⟨10, 11, 0⟩, []⟩
        = some (some [{ name := cs "CORE", type := 3,
                        desc := cs "cat" ++ 0 :: cs "cat -n" }], world') := by
  constructor
  · simp only [example_long_auxv_target, Option.map_some', List.length_replicate]
  · have hsteps : expected_steps ⟨64, 64, 32, 64, .BFD_ENDIAN_LITTLE⟩ (example_arch none)
        (example_long_auxv_target (some (cs "/bin/cat")) []) ⟨10, 11, 0⟩
        = [BuildStep.write (.prpsinfo (cs "cat") (cs "cat -n"))] := by
      unfold expected_steps tail_requests
      rw [auxv_requests_long]
      decide
    obtain ⟨world', hres, -, -, -⟩ := linux_make_corefile_notes_succeed
      ⟨64, 64, 32, 64, .BFD_ENDIAN_LITTLE⟩ (example_arch none)
      (example_long_auxv_target (some (cs "/bin/cat")) []) recording_writer
      (linux_collect_thread_registers (example_arch none)
        (example_long_auxv_target (some (cs "/bin/cat")) []) recording_writer)
      ⟨⟨10, 11, 0⟩, []⟩ (Or.inl (by decide)) (by rw [hsteps]; decide) (by decide)
    rw [hsteps] at hres
    exact ⟨world', hres⟩

end LinuxTdep

namespace LinuxTdep

/-- C13 fails on the code: with a known executable path, one thread whose
signal-info bytes are available, and a writer whose status-note write fails,
the register collector returns `NULL` for the thread; the thread callback
then writes the signal-info note into a fresh stream, so the stream is no
longer `NULL`, the iteration goes on and the build returns a stream that holds
the signal-info note only (the process-info note is lost) instead of the
failure sentinel. -/
theorem failed_collector_masked_by_siginfo :
    linux_collect_thread_registers (example_arch (some 2))
        (example_target (some (cs "/bin/cat")) [⟨⟨10, 11, 0⟩, 11⟩])
        failing_prstatus_writer
        { ptid := ⟨10, 11, 0⟩, fetched_as := some ⟨10, 11, 0⟩ } ⟨10, 11, 0⟩
        (some [{ name := cs "CORE", type := 3, desc := cs "cat" ++ 0 :: cs "cat -n" }])
        11 = none
    ∧ linux_make_corefile_notes ⟨64, 64, 32, 64, .BFD_ENDIAN_LITTLE⟩
        (example_arch (some 2))
        (example_target (some (cs "/bin/cat")) [⟨⟨10, 11, 0⟩, 11⟩])
        failing_prstatus_writer
        (linux_collect_thread_registers (example_arch (some 2))
          (example_target (some (cs "/bin/cat")) [⟨⟨10, 11, 0⟩, 11⟩])
          failing_prstatus_writer)
        ⟨⟨10, 11, 0⟩, []⟩
      = some (some [{ name := cs "CORE", type := NT_SIGINFO, desc := [1, 2] }],
          ⟨⟨10, 11, 0⟩,
           [TraceEvent.fetch_registers ⟨10, 11, 0⟩ ⟨10, 11, 0⟩,
            TraceEvent.read_siginfo ⟨10, 11, 0⟩ ⟨10, 11, 0⟩,
            TraceEvent.collect ⟨10, 11, 0⟩ 11]⟩) := by
  decide

theorem linux_make_corefile_notes_empty (gdbarch : Gdbarch) (arch : NoteArch)
    (tgt : LiveTarget) (w : ElfcoreWriter) (collect : Collector) (world : World)
    (hexec : tgt.exec_file = none) (hthreads : tgt.threads = []) :
    linux_make_corefile_notes gdbarch arch tgt w collect world = some (none, world) := by
  rw [linux_make_corefile_notes_stages gdbarch arch tgt w collect world _ rfl]
  have hP : (prpsinfo_steps tgt).foldl (run_step w collect) none = none := by
    simp [prpsinfo_steps, hexec]
  rw [if_neg (fun h => h.1 hexec), hthreads, hP]
  simp [iterate_over_threads]

/-- C14, as the code has it: when the executable path is known, or the first
thread of the thread list belongs to the process, and no step fails, the build
reports success (a stream that is not `NULL`) whichever of the other sources
are absent, and the stream is the result of the steps whose source data is
present, in order: the process-info request if the executable path is known,
the steps of the threads of the process, the auxiliary-vector note if the
vector is not empty, the SPU notes, the file-mapping note if a region
qualifies.  A target with zero threads and no executable path yields `NULL`,
the value that is also the failure result.  The hypotheses on sizes: fewer
than `2 ^ 64` qualifying regions, and an auxiliary vector shorter than `2 ^ 31`
bytes, whose length the `int auxv_len` of the code holds. -/
theorem absent_sources_do_not_fail (gdbarch : Gdbarch) (arch : NoteArch)
    (tgt : LiveTarget) (w : ElfcoreWriter) (collect : Collector) (world : World) :
    (has_first_note tgt world.inferior_ptid.pid →
      steps_succeed (run_step w collect) none
        (prpsinfo_steps tgt
          ++ (threads_of tgt world.inferior_ptid.pid).flatMap
              (thread_steps arch tgt (find_stop_signal tgt.threads world.inferior_ptid))
          ++ (nonempty_auxv_requests tgt ++ (spu_notes tgt).map WriteRequest.note
              ++ mapping_requests gdbarch tgt).map BuildStep.write) →
      ((delivered_regions tgt.inferior).filter qualifies).length < ULONGEST_MOD →
      (∀ bytes, tgt.auxv_object = some bytes → bytes.length < 2 ^ 31) →
      ∃ stream world',
        linux_make_corefile_notes gdbarch arch tgt w collect world
          = some (some stream, world')
        ∧ some stream
          = (prpsinfo_steps tgt
              ++ (threads_of tgt world.inferior_ptid.pid).flatMap
                  (thread_steps arch tgt
                    (find_stop_signal tgt.threads world.inferior_ptid))
              ++ (nonempty_auxv_requests tgt ++ (spu_notes tgt).map WriteRequest.note
                  ++ mapping_requests gdbarch tgt).map BuildStep.write).foldl
            (run_step w collect) none)
    ∧ (tgt.exec_file = none → tgt.threads = [] →
        linux_make_corefile_notes gdbarch arch tgt w collect world
          = some (none, world)) := by
  constructor
  · intro hfirst hsucc hcount hauxv
    have hsteps : expected_steps gdbarch arch tgt world.inferior_ptid
        = prpsinfo_steps tgt
          ++ (threads_of tgt world.inferior_ptid.pid).flatMap
              (thread_steps arch tgt (find_stop_signal tgt.threads world.inferior_ptid))
          ++ (nonempty_auxv_requests tgt ++ (spu_notes tgt).map WriteRequest.note
              ++ mapping_requests gdbarch tgt).map BuildStep.write := by
      simp only [expected_steps, tail_requests, auxv_requests_short tgt hauxv]
    rw [← hsteps] at hsucc ⊢
    obtain ⟨world', hres, hne, -, -⟩ := linux_make_corefile_notes_succeed gdbarch arch
      tgt w collect world hfirst hsucc hcount
    cases hfold : (expected_steps gdbarch arch tgt world.inferior_ptid).foldl
        (run_step w collect) none with
    | none => exact absurd hfold hne
    | some stream =>
      rw [hfold] at hres
      exact ⟨stream, world', hres, rfl⟩
  · exact linux_make_corefile_notes_empty gdbarch arch tgt w collect world

/-- A target without executable path, siginfo type, auxiliary vector, SPU
contexts and mappings, whose first thread belongs to the process and whose
second thread does not: the stream holds the status note and the two register
notes of the first thread. -/
theorem absent_sources_do_not_fail_witness :
    has_first_note (example_target none [⟨⟨10, 11, 0⟩, 0⟩, ⟨⟨20, 21, 0⟩, 5⟩]) 10
    ∧ ∃ stream world',
      linux_make_corefile_notes ⟨64, 64, 32, 64, .BFD_ENDIAN_LITTLE⟩
          (example_arch none)
          (example_target none [⟨⟨10, 11, 0⟩, 0⟩, ⟨⟨20, 21, 0⟩, 5⟩])
          recording_writer
          (linux_collect_thread_registers (example_arch none)
            (example_target none [⟨⟨10, 11, 0⟩, 0⟩, ⟨⟨20, 21, 0⟩, 5⟩])
            recording_writer)
          ⟨⟨10, 11, 0⟩, []⟩
        = some (some stream, world')
      ∧ stream
        = [{ name := cs "CORE", type := 1, desc := [11, 11] },
           { name := cs ".reg2", type := 0, desc := [11] },
           { name := cs ".reg-xfp", type := 0, desc := [11] }] :=
  ⟨Or.inr ⟨_, _, rfl, rfl⟩,
   match (absent_sources_do_not_fail ⟨64, 64, 32, 64, .BFD_ENDIAN_LITTLE⟩
      (example_arch none)
      (example_target none [⟨⟨10, 11, 0⟩, 0⟩, ⟨⟨20, 21, 0⟩, 5⟩])
      recording_writer
      (linux_collect_thread_registers (example_arch none)
        (example_target none [⟨⟨10, 11, 0⟩, 0⟩, ⟨⟨20, 21, 0⟩, 5⟩])
        recording_writer)
      ⟨⟨10, 11, 0⟩, []⟩).1 (Or.inr ⟨_, _, rfl, rfl⟩) (by decide) (by decide)
      (fun bytes h => nomatch h) with
   | ⟨stream, world', h1, h2⟩ =>
     ⟨stream, world', h1, Option.some.inj (h2.trans (by decide))⟩⟩

/-- C14 as stated fails, in three ways.  For a target with zero threads and no
executable path, with a writer that never fails, the build returns `NULL`,
which is the failure result, not an empty successful stream.  For a target
without executable path whose thread list holds a thread of another process
first and a thread of the process second, no step of the build fails (the
steps are those of the second thread, and each succeeds), yet the build
returns `NULL`, without a note for the second thread, whose registers are not
even fetched: the thread callback returns `!args->note_data` for the first
thread, which stops the iteration.  And for a target without executable path,
with one thread of the process and an auxiliary vector of `2 ^ 31` bytes, the
build emits the notes of the thread and no auxiliary-vector note, though the
vector is present: its length does not fit the `int auxv_len`. -/
theorem absent_sources_counterexample :
    linux_make_corefile_notes ⟨64, 64, 32, 64, .BFD_ENDIAN_LITTLE⟩
        (example_arch none) (example_target none [])
        recording_writer
        (linux_collect_thread_registers (example_arch none) (example_target none [])
          recording_writer)
        ⟨⟨10, 11, 0⟩, []⟩
      = some (none, ⟨⟨10, 11, 0⟩, []⟩)
    ∧ steps_succeed
        (run_step recording_writer
          (linux_collect_thread_registers (example_arch none)
            (example_target none [⟨⟨99, 1, 0⟩, 5⟩, ⟨⟨10, 11, 0⟩, 0⟩])
            recording_writer))
        none
        [BuildStep.collect { ptid := ⟨10, 11, 0⟩, fetched_as := some ⟨10, 11, 0⟩ }
          ⟨10, 11, 0⟩ 0]
    ∧ linux_make_corefile_notes ⟨64, 64, 32, 64, .BFD_ENDIAN_LITTLE⟩
        (example_arch none)
        (example_target none [⟨⟨99, 1, 0⟩, 5⟩, ⟨⟨10, 11, 0⟩, 0⟩])
        recording_writer
        (linux_collect_thread_registers (example_arch none)
          (example_target none [⟨⟨99, 1, 0⟩, 5⟩, ⟨⟨10, 11, 0⟩, 0⟩])
          recording_writer)
        ⟨⟨10, 11, 0⟩, []⟩
      = some (none, ⟨⟨10, 11, 0⟩, []⟩)
    ∧ (example_long_auxv_target none [⟨⟨10, 11, 0⟩, 0⟩]).auxv_object.map List.length
      = some (2 ^ 31)
    ∧ ∃ world',
      linux_make_corefile_notes ⟨64, 64, 32, 64, .BFD_ENDIAN_LITTLE⟩
          (example_arch none)
          (example_long_auxv_target none [⟨⟨10, 11, 0⟩, 0⟩])
          recording_writer
          (linux_collect_thread_registers (example_arch none)
            (example_long_auxv_target none [⟨⟨10, 11, 0⟩, 0⟩])
            recording_writer)
          ⟨⟨10, 11, 0⟩, []⟩
        = some (some [{ name := cs "CORE", type := 1, desc := [11, 11] },
                      { name := cs ".reg2", type := 0, desc := [11] },
                      { name := cs ".reg-xfp", type := 0, desc := [11] }], world') := by
  refine ⟨by decide, by decide, by decide, ?_, ?_⟩
  · simp only [example_long_auxv_target, Option.map_some', List.length_replicate]
  · have hsteps : expected_steps ⟨64, 64, 32, 64, .BFD_ENDIAN_LITTLE⟩ (example_arch none)
        (example_long_auxv_target none [⟨⟨10, 11, 0⟩, 0⟩]) ⟨10, 11, 0⟩
        = [BuildStep.collect { ptid := ⟨10, 11, 0⟩, fetched_as := some ⟨10, 11, 0⟩ }
            ⟨10, 11, 0⟩ 0] := by
      unfold expected_steps tail_requests
      rw [auxv_requests_long]
      decide
    obtain ⟨world', hres, -, -, -⟩ := linux_make_corefile_notes_succeed
      ⟨64, 64, 32, 64, .BFD_ENDIAN_LITTLE⟩ (example_arch none)
      (example_long_auxv_target none [⟨⟨10, 11, 0⟩, 0⟩]) recording_writer
      (linux_collect_thread_registers (example_arch none)
        (example_long_auxv_target none [⟨⟨10, 11, 0⟩, 0⟩]) recording_writer)
      ⟨⟨10, 11, 0⟩, []⟩ (Or.inr ⟨_, _, rfl, rfl⟩) (by rw [hsteps]; decide) (by decide)
    rw [hsteps] at hres
    exact ⟨world', hres⟩

end LinuxTdep

namespace LinuxTdep

/-! ## The default collector in the build -/

theorem flatMap_write_steps (arch : NoteArch) (tgt : LiveTarget)
    (requests : List WriteRequest) :
    (requests.map BuildStep.write).flatMap (step_requests arch tgt) = requests := by
  induction requests with
  | nil => rfl
  | cons r requests ih =>
    simp only [List.map_cons, List.flatMap_cons, step_requests, List.singleton_append, ih]

theorem flatMap_thread_steps (arch : NoteArch) (tgt : LiveTarget) (stop_signal : Nat)
    (threads : List thread_info) :
    (threads.flatMap (thread_steps arch tgt stop_signal)).flatMap (step_requests arch tgt)
      = threads.flatMap (thread_requests arch tgt stop_signal) := by
  induction threads with
  | nil => rfl
  | cons t threads ih =>
    simp only [List.flatMap_cons, List.flatMap_append, ih, thread_steps, thread_requests,
      step_requests, flatMap_write_steps]

/-- The requests the expected steps stand for with the default collector. -/
theorem expected_steps_requests (gdbarch : Gdbarch) (arch : NoteArch)
    (tgt : LiveTarget) (inferior_ptid : ptid_t) :
    (expected_steps gdbarch arch tgt inferior_ptid).flatMap (step_requests arch tgt)
      = expected_requests gdbarch arch tgt inferior_ptid := by
  unfold expected_steps expected_requests prpsinfo_steps
  simp only [List.flatMap_append, flatMap_thread_steps, flatMap_write_steps]
  cases tgt.exec_file <;> simp [step_requests]

/-- With the default collector, steps whose requests all succeed succeed, and
their result is the result of the requests. -/
theorem default_collector_steps (arch : NoteArch) (tgt : LiveTarget)
    (w : ElfcoreWriter) (steps : List BuildStep) :
    ∀ note_data : NoteData,
      (note_data ≠ none ∨ arch.core_regset_sections ≠ []) →
      steps_succeed w.write note_data (steps.flatMap (step_requests arch tgt)) →
      steps_succeed (run_step w (linux_collect_thread_registers arch tgt w)) note_data
          steps
      ∧ steps.foldl (run_step w (linux_collect_thread_registers arch tgt w)) note_data
          = (steps.flatMap (step_requests arch tgt)).foldl w.write note_data := by
  induction steps with
  | nil => intro note_data _ _; exact ⟨trivial, rfl⟩
  | cons s steps ih =>
    intro note_data hstart hsucc
    rw [List.flatMap_cons, steps_succeed_append] at hsucc
    obtain ⟨h1, h2⟩ := hsucc
    have hrun : run_step w (linux_collect_thread_registers arch tgt w) note_data s
        = (step_requests arch tgt s).foldl w.write note_data := by
      cases s with
      | write r => rfl
      | collect rc ptid stop_signal =>
        exact collect_sections_loop_succeed arch tgt w rc _ stop_signal _ note_data h1
    have hne : (step_requests arch tgt s).foldl w.write note_data ≠ none := by
      refine foldl_ne_none_of_succeed _ _ _ h1 ?_
      rcases hstart with h | h
      · exact Or.inl h
      · right
        cases s with
        | write r => simp [step_requests]
        | collect rc ptid stop_signal => simpa [step_requests] using h
    obtain ⟨ih1, ih2⟩ := ih _ (Or.inl hne) h2
    refine ⟨⟨by rw [hrun]; exact hne, by rw [hrun]; exact ih1⟩, ?_⟩
    rw [List.foldl_cons, hrun, ih2, List.flatMap_cons, List.foldl_append]

theorem thread_requests_length (arch : NoteArch) (tgt : LiveTarget) (stop_signal : Nat)
    (hsig : arch.siginfo_length = none) (threads : List thread_info) :
    (threads.flatMap (thread_requests arch tgt stop_signal)).length
      = threads.length * arch.core_regset_sections.length := by
  induction threads with
  | nil => simp
  | cons t threads ih =>
    simp only [List.flatMap_cons, List.length_append, ih, thread_requests,
      siginfo_requests, linux_get_siginfo_data, hsig, List.length_map, List.length_nil,
      List.length_cons]
    ring

/-- C15, as the code has it: with the collector
`linux_collect_thread_registers`, a build that has a first note, an
architecture with at least one register section, and writes that all succeed,
the stream is the result of these requests in order: process info; thread by
thread, one note per register section in the order of the section list, the
note of the section `.reg` being the status note and every other a register
note, then the signal-info note if any; then the notes after the threads.
Without signal info the thread notes are `threads * sections` in number: for
two threads and three sections `2 * 3 = 6` notes, of which the status notes are
those of `.reg`, not 6 register notes and 2 status notes besides. -/
theorem thread_notes_per_section (gdbarch : Gdbarch) (arch : NoteArch)
    (tgt : LiveTarget) (w : ElfcoreWriter) (world : World)
    (hfirst : has_first_note tgt world.inferior_ptid.pid)
    (hsect : arch.core_regset_sections ≠ [])
    (hsucc : steps_succeed w.write none
      (expected_requests gdbarch arch tgt world.inferior_ptid))
    (hcount : ((delivered_regions tgt.inferior).filter qualifies).length < ULONGEST_MOD) :
    (∃ stream world',
      linux_make_corefile_notes gdbarch arch tgt w
          (linux_collect_thread_registers arch tgt w) world
        = some (some stream, world')
      ∧ some stream
        = (expected_requests gdbarch arch tgt world.inferior_ptid).foldl w.write none)
    ∧ (arch.siginfo_length = none →
        ((threads_of tgt world.inferior_ptid.pid).flatMap
          (thread_requests arch tgt
            (find_stop_signal tgt.threads world.inferior_ptid))).length
          = (threads_of tgt world.inferior_ptid.pid).length
              * arch.core_regset_sections.length) := by
  rw [← expected_steps_requests] at hsucc ⊢
  obtain ⟨hs, hfold⟩ := default_collector_steps arch tgt w _ none (Or.inr hsect) hsucc
  obtain ⟨world', hres, hne, -, -⟩ := linux_make_corefile_notes_succeed gdbarch arch tgt
    w (linux_collect_thread_registers arch tgt w) world hfirst hs hcount
  refine ⟨?_, fun hsig => thread_requests_length arch tgt _ hsig _⟩
  rw [← hfold]
  cases hf : (expected_steps gdbarch arch tgt world.inferior_ptid).foldl
      (run_step w (linux_collect_thread_registers arch tgt w)) none with
  | none => exact absurd hf hne
  | some stream =>
    rw [hf] at hres
    exact ⟨stream, world', hres, rfl⟩

/-- Two threads of process 10 and the three sections `.reg`, `.reg2`,
`.reg-xfp`, without signal info. -/
theorem thread_notes_per_section_witness :
    ∃ stream world',
      linux_make_corefile_notes ⟨64, 64, 32, 64, .BFD_ENDIAN_LITTLE⟩
          (example_arch none)
          (example_target none [⟨⟨10, 11, 0⟩, 0⟩, ⟨⟨10, 12, 0⟩, 11⟩])
          recording_writer
          (linux_collect_thread_registers (example_arch none)
            (example_target none [⟨⟨10, 11, 0⟩, 0⟩, ⟨⟨10, 12, 0⟩, 11⟩])
            recording_writer)
          ⟨⟨10, 11, 0⟩, []⟩
        = some (some stream, world') :=
  match (thread_notes_per_section ⟨64, 64, 32, 64, .BFD_ENDIAN_LITTLE⟩
      (example_arch none)
      (example_target none [⟨⟨10, 11, 0⟩, 0⟩, ⟨⟨10, 12, 0⟩, 11⟩])
      recording_writer ⟨⟨10, 11, 0⟩, []⟩ (Or.inr ⟨_, _, rfl, rfl⟩) (by decide)
      (by decide) (by decide)).1 with
  | ⟨stream, world', h1, _⟩ => ⟨stream, world', h1⟩

/-- C15 as stated fails: for two threads and the three register sections
`.reg`, `.reg2`, `.reg-xfp`, without signal info and with every write
succeeding, the build produces 6 thread notes, not 8: per thread the status
note, which is the note of the section `.reg`, and the two register notes of
the other sections. -/
theorem two_threads_three_sections_counterexample :
    ∃ stream,
      (linux_make_corefile_notes ⟨64, 64, 32, 64, .BFD_ENDIAN_LITTLE⟩
          (example_arch none)
          (example_target none [⟨⟨10, 11, 0⟩, 0⟩, ⟨⟨10, 12, 0⟩, 11⟩])
          recording_writer
          (linux_collect_thread_registers (example_arch none)
            (example_target none [⟨⟨10, 11, 0⟩, 0⟩, ⟨⟨10, 12, 0⟩, 11⟩])
            recording_writer)
          ⟨⟨10, 11, 0⟩, []⟩).map (fun r => r.1) = some (some stream)
      ∧ stream.length = 6
      ∧ stream.length ≠ 2 * 3 + 2
      ∧ (stream.filter (fun n => n.type == 1)).length = 2
      ∧ (stream.filter (fun n => n.type != 1)).length = 4 :=
  ⟨[{ name := cs "CORE", type := 1, desc := [11, 11] },
    { name := cs ".reg2", type := 0, desc := [11] },
    { name := cs ".reg-xfp", type := 0, desc := [11] },
    { name := cs "CORE", type := 1, desc := [12, 12] },
    { name := cs ".reg2", type := 0, desc := [12] },
    { name := cs ".reg-xfp", type := 0, desc := [12] }],
   by decide, by decide, by decide, by decide, by decide⟩

end LinuxTdep

namespace LinuxTdep

/-! ## The current-thread selector and the stop signal -/

/-- C16: a visit of the thread callback leaves the current-thread selector at
the value it had when the callback was entered, whether it returns 0 or the
stop-iteration result; for a thread of the process the register fetch and the
signal-info read are made with that thread selected (the observations added are
those of `thread_events`, and the collector gets the register cache fetched for
that thread); hence the build returns with the selector where it was on every
exit path, and every register fetch and signal-info read it made was made with
the thread selected that it was made for. -/
theorem selector_restored (gdbarch : Gdbarch) (arch : NoteArch) (tgt : LiveTarget)
    (w : ElfcoreWriter) (collect : Collector) (world : World) :
    (∀ (info : thread_info) (data : linux_corefile_thread_data × World),
      (linux_corefile_thread_callback arch tgt w collect info data).2.2.inferior_ptid
        = data.2.inferior_ptid)
    ∧ (∀ (info : thread_info) (data : linux_corefile_thread_data × World),
        info.ptid.pid = data.1.pid →
        (linux_corefile_thread_callback arch tgt w collect info data).2.2.trace
          = data.2.trace
            ++ ([TraceEvent.fetch_registers info.ptid info.ptid]
              ++ (match arch.siginfo_length with
                  | some _ => [TraceEvent.read_siginfo info.ptid info.ptid]
                  | none => [])
              ++ [TraceEvent.collect info.ptid data.1.stop_signal])
        ∧ (linux_corefile_thread_callback arch tgt w collect info data).2.1.note_data
          = ((siginfo_requests arch tgt info).map BuildStep.write).foldl
              (run_step w collect)
              (collect { ptid := info.ptid, fetched_as := some info.ptid } info.ptid
                data.1.note_data data.1.stop_signal))
    ∧ ∃ note_data world' new,
        linux_make_corefile_notes gdbarch arch tgt w collect world
          = some (note_data, world')
        ∧ world'.inferior_ptid = world.inferior_ptid
        ∧ world'.trace = world.trace ++ new
        ∧ ∀ selector thread,
            (TraceEvent.fetch_registers selector thread ∈ new
              ∨ TraceEvent.read_siginfo selector thread ∈ new) →
            selector = thread := by
  refine ⟨?_, ?_, ?_⟩
  · intro info data
    by_cases h : info.ptid.pid = data.1.pid
    · rw [(thread_callback_own arch tgt w collect info data h).2.2.2.2]
    · rw [thread_callback_foreign arch tgt w collect info data h]
  · intro info data h
    obtain ⟨h1, -, -, -, h5⟩ := thread_callback_own arch tgt w collect info data h
    rw [h5, h1]
    exact ⟨rfl, rfl⟩
  · obtain ⟨note_data, world', new, hres, hsel, htrace, hok⟩ :=
      linux_make_corefile_notes_frame gdbarch arch tgt w collect world
    refine ⟨note_data, world', new, hres, hsel, htrace, ?_⟩
    intro selector thread hmem
    rcases hmem with hmem | hmem
    · exact hok _ hmem
    · exact hok _ hmem

/-- A visit of thread 12 of process 10 while thread 11 is selected. -/
theorem selector_restored_witness :
    (linux_corefile_thread_callback (example_arch (some 2))
        (example_target none [⟨⟨10, 11, 0⟩, 0⟩, ⟨⟨10, 12, 0⟩, 11⟩]) recording_writer
        (linux_collect_thread_registers (example_arch (some 2))
          (example_target none [⟨⟨10, 11, 0⟩, 0⟩, ⟨⟨10, 12, 0⟩, 11⟩]) recording_writer)
        ⟨⟨10, 12, 0⟩, 11⟩
        (⟨10, none, 0, 11⟩, ⟨⟨10, 11, 0⟩, []⟩)).2.2.trace
      = [] ++ ([TraceEvent.fetch_registers ⟨10, 12, 0⟩ ⟨10, 12, 0⟩]
          ++ (match (example_arch (some 2)).siginfo_length with
              | some _ => [TraceEvent.read_siginfo ⟨10, 12, 0⟩ ⟨10, 12, 0⟩]
              | none => [])
          ++ [TraceEvent.collect ⟨10, 12, 0⟩ 11]) :=
  ((selector_restored ⟨64, 64, 32, 64, .BFD_ENDIAN_LITTLE⟩ (example_arch (some 2))
      (example_target none [⟨⟨10, 11, 0⟩, 0⟩, ⟨⟨10, 12, 0⟩, 11⟩]) recording_writer
      (linux_collect_thread_registers (example_arch (some 2))
        (example_target none [⟨⟨10, 11, 0⟩, 0⟩, ⟨⟨10, 12, 0⟩, 11⟩]) recording_writer)
      ⟨⟨10, 11, 0⟩, []⟩).2.1 ⟨⟨10, 12, 0⟩, 11⟩
      (⟨10, none, 0, 11⟩, ⟨⟨10, 11, 0⟩, []⟩) rfl).1

theorem iterate_find_signalled_thread (inferior_ptid : ptid_t)
    (threads : List thread_info) :
    (iterate_over_threads (find_signalled_thread inferior_ptid) threads ()).1
      = threads.find? (fun t =>
          decide (t.stop_signal ≠ GDB_SIGNAL_0 ∧ t.ptid.pid = inferior_ptid.pid)) := by
  induction threads with
  | nil => rfl
  | cons t rest ih =>
    unfold iterate_over_threads
    by_cases h : t.stop_signal ≠ GDB_SIGNAL_0 ∧ t.ptid.pid = inferior_ptid.pid
    · simp [find_signalled_thread, h, List.find?_cons]
    · simp only [find_signalled_thread, if_neg h, ne_eq, not_true_eq_false, if_false,
        List.find?_cons, decide_eq_false h]
      exact ih

end LinuxTdep

namespace LinuxTdep

/-! ## `linux_info_proc`: the arguments -/

theorem scan_decimal_takeWhile (p : List Nat) (acc n : Nat) :
    scan_decimal p acc n
      = ((p.takeWhile isdigit).foldl (fun acc c => acc * 10 + (c - 48)) acc,
         n + (p.takeWhile isdigit).length) := by
  induction p generalizing acc n with
  | nil => simp [scan_decimal]
  | cons c p ih =>
    by_cases h : isdigit c = true
    · simp only [scan_decimal, h, if_true, ih, List.takeWhile_cons, List.foldl_cons,
        List.length_cons]
      congr 1
      omega
    · simp [scan_decimal, h, List.takeWhile_cons]

theorem dropWhile_eq_drop_takeWhile (p : List Nat) (f : Nat → Bool) :
    p.dropWhile f = p.drop (p.takeWhile f).length := by
  induction p with
  | nil => rfl
  | cons c p ih =>
    by_cases h : f c = true
    · simp [List.dropWhile_cons, List.takeWhile_cons, h, ih]
    · simp [List.dropWhile_cons, List.takeWhile_cons, h]

/-- On a string that begins with a decimal digit `strtoul` returns the value
of the leading digits, `ULONG_MAX` when it does not fit, and the text after
them. -/
theorem strtoul_digits (a : List Nat) (h : isdigit (deref a) = true) :
    strtoul a
      = (if decimal_value (a.takeWhile isdigit) < ULONGEST_MOD
          then decimal_value (a.takeWhile isdigit) else ULONGEST_MOD - 1,
         a.dropWhile isdigit) := by
  cases a with
  | nil => simp [deref, isdigit] at h
  | cons c a =>
    have hc : isdigit c = true := by simpa [deref] using h
    have hsp : isspace c = false := by
      simp only [isdigit, isspace, Bool.and_eq_true, decide_eq_true_eq] at hc ⊢
      simp only [Bool.or_eq_false_iff, beq_eq_false_iff_ne, ne_eq, Bool.and_eq_false_iff,
        decide_eq_false_iff_not]
      omega
    have h43 : ¬ c = 43 := by
      simp only [isdigit, Bool.and_eq_true, decide_eq_true_eq] at hc; omega
    have h45 : ¬ c = 45 := by
      simp only [isdigit, Bool.and_eq_true, decide_eq_true_eq] at hc; omega
    have hscan := scan_decimal_takeWhile (c :: a) 0 0
    simp only [List.takeWhile_cons, hc, if_true, List.length_cons, Nat.zero_add] at hscan
    unfold strtoul
    simp only [skip_isspace, hsp, Bool.false_eq_true, if_false, deref, List.headD_cons,
      h43, h45, hscan]
    simp only [decimal_value, List.takeWhile_cons, hc, if_true,
      dropWhile_eq_drop_takeWhile, List.length_cons]

theorem not_digit_start (a : List Nat) (h : isdigit (deref a) = false) :
    a.dropWhile isdigit = a := by
  cases a with
  | nil => rfl
  | cons c a =>
    have hc : isdigit c = false := by simpa [deref] using h
    simp [List.dropWhile_cons, hc]

/-- The result of the argument handling of `linux_info_proc`. -/
theorem linux_info_proc_args_eq (tgt : ProcTarget) (args : Option (List Nat)) :
    linux_info_proc_args tgt args
      = if names_pid args = false
            ∧ tgt.target_has_execution = false then .error .no_current_process
        else if names_pid args = false ∧ tgt.fake_pid_p = true then
          .error .cannot_determine_pid
        else if args ≠ none ∧ deref (after_pid args) ≠ 0 then
          .error (.too_many_parameters (cstring (after_pid args)))
        else if names_pid args = true then
          .ok (to_long (if decimal_value (pid_digits args) < ULONGEST_MOD
            then decimal_value (pid_digits args) else ULONGEST_MOD - 1))
        else .ok tgt.pid := by
  cases args with
  | none =>
    unfold linux_info_proc_args skip_spaces_or_null
    cases h1 : tgt.target_has_execution <;> cases h2 : tgt.fake_pid_p <;>
      simp [names_pid]
  | some a =>
    by_cases hd : isdigit (deref a) = true
    · unfold linux_info_proc_args skip_spaces_or_null
      simp only [hd, if_true, Option.getD_some, Option.map_some', strtoul_digits a hd,
        names_pid, after_pid, pid_digits]
      simp
    · have hd' : isdigit (deref a) = false := by simpa using hd
      unfold linux_info_proc_args skip_spaces_or_null
      cases h1 : tgt.target_has_execution <;> cases h2 : tgt.fake_pid_p <;>
        simp [names_pid, after_pid, hd', not_digit_start a hd']

end LinuxTdep

namespace LinuxTdep

theorem after_pid_none : after_pid none = [] := rfl

theorem to_long_small (v : Nat) (h : v < 2 ^ 63) : to_long v = (v : Int) := by
  have h1 : v % 2 ^ 64 = v := Nat.mod_eq_of_lt (by omega)
  unfold to_long
  rw [h1, if_pos h]

/-- C21, as the code has it: `linux_info_proc` raises an error if and only if
(a) the argument text is absent or does not begin with a decimal digit and
there is no running process or the current process has no real pid, or (b)
after the leading decimal digits, if any, and the spaces that follow them some
text remains.  When it raises, nothing has been written.  Otherwise the report
begins with the pid: the decimal number given when that is below `2 ^ 63`, in
general the `long` that the `unsigned long` result of `strtoul` (at most
`2 ^ 64 - 1`) converts to, and the current process id when no number was
given. -/
theorem info_proc_arguments (gdbarch : Gdbarch) (tgt : ProcTarget)
    (args : Option (List Nat)) (what : info_proc_what) :
    ((linux_info_proc gdbarch tgt args what).error ≠ none ↔
        (names_pid args = false
            ∧ (tgt.target_has_execution = false ∨ tgt.fake_pid_p = true))
          ∨ deref (after_pid args) ≠ 0)
    ∧ ((linux_info_proc gdbarch tgt args what).error ≠ none →
        (linux_info_proc gdbarch tgt args what).out = [])
    ∧ ((linux_info_proc gdbarch tgt args what).error = none →
        (names_pid args = true → decimal_value (pid_digits args) < 2 ^ 63 →
          (linux_info_proc gdbarch tgt args what).out.head?
            = some (.process (decimal_value (pid_digits args))))
        ∧ (names_pid args = true →
          (linux_info_proc gdbarch tgt args what).out.head?
            = some (.process
                (to_long (min (decimal_value (pid_digits args)) (2 ^ 64 - 1)))))
        ∧ (names_pid args = false →
          (linux_info_proc gdbarch tgt args what).out.head?
            = some (.process tgt.pid))) := by
  have hnone : args = none → deref (after_pid args) = 0 := by
    rintro rfl
    rfl
  have hmin : (if decimal_value (pid_digits args) < ULONGEST_MOD
      then decimal_value (pid_digits args) else ULONGEST_MOD - 1)
      = min (decimal_value (pid_digits args)) (2 ^ 64 - 1) := by
    unfold ULONGEST_MOD
    split_ifs with h
    · exact (Nat.min_eq_left (by omega)).symm
    · exact (Nat.min_eq_right (by omega)).symm
  have hsmall : decimal_value (pid_digits args) < 2 ^ 63 →
      to_long (min (decimal_value (pid_digits args)) (2 ^ 64 - 1))
        = (decimal_value (pid_digits args) : Int) := by
    intro h
    rw [Nat.min_eq_left (by omega)]
    exact to_long_small _ h
  unfold linux_info_proc
  rw [linux_info_proc_args_eq, hmin]
  by_cases h1 : names_pid args = false ∧ tgt.target_has_execution = false
  · rw [if_pos h1]
    simp [h1.1, h1.2]
  · rw [if_neg h1]
    by_cases h2 : names_pid args = false ∧ tgt.fake_pid_p = true
    · rw [if_pos h2]
      simp [h2.1, h2.2]
    · rw [if_neg h2]
      by_cases h3 : args ≠ none ∧ deref (after_pid args) ≠ 0
      · rw [if_pos h3]
        simp [h3.2]
      · rw [if_neg h3]
        have h3' : deref (after_pid args) = 0 := by
          by_cases hn : args = none
          · exact hnone hn
          · by_contra hc
            exact h3 ⟨hn, hc⟩
        have ha : ¬ (names_pid args = false
            ∧ (tgt.target_has_execution = false ∨ tgt.fake_pid_p = true)) := by
          rintro ⟨hp, hq | hq⟩
          · exact h1 ⟨hp, hq⟩
          · exact h2 ⟨hp, hq⟩
        by_cases h4 : names_pid args = true
        · rw [if_pos h4]
          refine ⟨?_, ?_, ?_⟩
          · simp [h3', ha]
          · simp
          · intro _
            refine ⟨fun _ hlt => ?_, fun _ => ?_, fun hf => ?_⟩
            · simpa using hsmall hlt
            · simp
            · rw [h4] at hf
              exact absurd hf (by decide)
        · rw [if_neg h4]
          have h4' : names_pid args = false := by simpa using h4
          refine ⟨?_, ?_, ?_⟩
          · simp [h3', ha]
          · simp
          · intro _
            refine ⟨fun ht => ?_, fun ht => ?_, fun _ => ?_⟩
            · rw [h4'] at ht
              exact absurd ht (by decide)
            · rw [h4'] at ht
              exact absurd ht (by decide)
            · simp

theorem info_proc_arguments_witness :
    (linux_info_proc ⟨64, 64, 32, 64, .BFD_ENDIAN_LITTLE⟩
        (example_proc_target false false 0) (some (cs "1234  ")) .IP_CWD).error = none
    ∧ (linux_info_proc ⟨64, 64, 32, 64, .BFD_ENDIAN_LITTLE⟩
        (example_proc_target false false 0) (some (cs "1234  ")) .IP_CWD).out.head?
        = some (.process (decimal_value (pid_digits (some (cs "1234  "))))) :=
  ⟨by decide,
   ((info_proc_arguments ⟨64, 64, 32, 64, .BFD_ENDIAN_LITTLE⟩
      (example_proc_target false false 0) (some (cs "1234  ")) .IP_CWD).2.2
      (by decide)).1 (by decide) (by decide)⟩

/-- C21 as stated fails: for the argument text `9223372036854775808` (`2 ^
63`) no error is raised and the reported pid is not the decimal number given
but the `long` it converts to, `- 2 ^ 63`. -/
theorem pid_beyond_long_counterexample :
    linux_info_proc ⟨64, 64, 32, 64, .BFD_ENDIAN_LITTLE⟩
        (example_proc_target true false 42) (some (cs "9223372036854775808")) .IP_CMDLINE
      = { out := [.process (-9223372036854775808),
                  .warning_unable_to_open (cs "/proc/-9223372036854775808/cmdline")],
          error := none }
    ∧ decimal_value (pid_digits (some (cs "9223372036854775808")))
        = 9223372036854775808 := by
  decide

end LinuxTdep

namespace LinuxTdep

/-! ## `linux_info_proc`: the sections -/

/-- The error `linux_info_proc` raises is decided by the argument text and the
state of the current process alone. -/
theorem linux_info_proc_error (gdbarch : Gdbarch) (tgt : ProcTarget)
    (args : Option (List Nat)) (what : info_proc_what) :
    (linux_info_proc gdbarch tgt args what).error
      = if names_pid args = false
            ∧ tgt.target_has_execution = false then some .no_current_process
        else if names_pid args = false ∧ tgt.fake_pid_p = true then
          some .cannot_determine_pid
        else if args ≠ none ∧ deref (after_pid args) ≠ 0 then
          some (.too_many_parameters (cstring (after_pid args)))
        else none := by
  unfold linux_info_proc
  rw [linux_info_proc_args_eq]
  split_ifs <;> rfl

/-- The report of a run whose argument handling gave the pid. -/
theorem linux_info_proc_sections (gdbarch : Gdbarch) (tgt : ProcTarget)
    (args : Option (List Nat)) (what : info_proc_what) (pid : Int)
    (h : linux_info_proc_args tgt args = .ok pid) :
    linux_info_proc gdbarch tgt args what
      = { out := .process pid :: (selected_sources what).flatMap
            (source_item gdbarch tgt pid),
          error := none } := by
  unfold linux_info_proc
  rw [h]
  cases what <;>
    simp [selected_sources, source_item, source_data, source_section, source_warning,
      linux_info_proc_cmdline, linux_info_proc_cwd, linux_info_proc_exe,
      linux_info_proc_mappings, linux_info_proc_status, linux_info_proc_stat]

theorem stat_fields_loop_no_warning (labels : List (StatLabel × Bool)) :
    ∀ p : List Nat, ∀ o ∈ stat_fields_loop labels p, is_warning o = false := by
  induction labels with
  | nil =>
    intro p o ho
    simp [stat_fields_loop] at ho
  | cons l labels ih =>
    intro p o ho
    obtain ⟨label, hex⟩ := l
    unfold stat_fields_loop at ho
    split_ifs at ho
    · rcases List.mem_cons.1 ho with rfl | ho
      · rfl
      · exact ih _ o ho
    · exact ih _ o ho

/-- A section holds at least one line, and no warning. -/
theorem source_section_no_warning (gdbarch : Gdbarch) (s : ProcSource)
    (data : List Nat) :
    source_section gdbarch s data ≠ []
      ∧ ∀ o ∈ source_section gdbarch s data, is_warning o = false := by
  cases s
  case stat =>
    refine ⟨by simp [source_section, stat_decoder], ?_⟩
    intro o ho
    simp only [source_section, stat_decoder, List.mem_cons, List.mem_append] at ho
    rcases ho with ho | (ho | ho) | ho
    · rw [ho]
      rfl
    · unfold stat_exec_file at ho
      split_ifs at ho
      · split at ho
        · simp only [List.mem_singleton] at ho
          rw [ho]
          rfl
        · simp at ho
      · simp at ho
    · unfold stat_state at ho
      split_ifs at ho
      · simp only [List.mem_singleton] at ho
        rw [ho]
        rfl
      · simp at ho
    · exact stat_fields_loop_no_warning _ _ o ho
  case mappings =>
    refine ⟨by simp [source_section], ?_⟩
    intro o ho
    simp only [source_section, List.cons_append, List.nil_append, List.mem_cons,
      List.mem_map] at ho
    rcases ho with rfl | rfl | ⟨line, -, rfl⟩ <;> rfl
  all_goals
    refine ⟨by simp [source_section], ?_⟩
    intro o ho
    simp only [source_section, List.mem_singleton] at ho
    subst ho
    rfl

end LinuxTdep

namespace LinuxTdep

/-- C22: when no error is raised the report of `linux_info_proc` is the line
`process PID` followed, for the sources the mode selects, in the fixed order
command line, working directory, executable, mappings, status, stat, by one
item per source: its labelled section, which is never empty and holds no
warning, when the source can be read, and one warning when it cannot.  Whether
an error is raised does not depend on what can be read, nor on the mode.
"Minimal" selects exactly the first three sources, "all" selects all six,
every other mode its own source (`selected_sources`). -/
theorem sections_by_mode (gdbarch : Gdbarch) (tgt : ProcTarget)
    (args : Option (List Nat)) (what : info_proc_what) :
    ((linux_info_proc gdbarch tgt args what).error = none →
      ∃ pid, (linux_info_proc gdbarch tgt args what).out
        = .process pid :: (selected_sources what).flatMap (source_item gdbarch tgt pid))
    ∧ (∀ pid s,
        (∀ data, source_data tgt pid s = some data →
          source_item gdbarch tgt pid s = source_section gdbarch s data
          ∧ source_section gdbarch s data ≠ []
          ∧ ∀ o ∈ source_section gdbarch s data, is_warning o = false)
        ∧ (source_data tgt pid s = none →
            source_item gdbarch tgt pid s = [source_warning pid s]
            ∧ is_warning (source_warning pid s) = true))
    ∧ (∀ (tgt' : ProcTarget) (what' : info_proc_what),
        tgt'.target_has_execution = tgt.target_has_execution →
        tgt'.fake_pid_p = tgt.fake_pid_p →
        (linux_info_proc gdbarch tgt' args what').error
          = (linux_info_proc gdbarch tgt args what).error)
    ∧ (selected_sources what).Sublist
        [.cmdline, .cwd, .exe, .mappings, .status, .stat]
    ∧ selected_sources .IP_MINIMAL = [.cmdline, .cwd, .exe]
    ∧ selected_sources .IP_ALL = [.cmdline, .cwd, .exe, .mappings, .status, .stat]
    ∧ selected_sources .IP_CMDLINE = [.cmdline]
    ∧ selected_sources .IP_CWD = [.cwd]
    ∧ selected_sources .IP_EXE = [.exe]
    ∧ selected_sources .IP_MAPPINGS = [.mappings]
    ∧ selected_sources .IP_STATUS = [.status]
    ∧ selected_sources .IP_STAT = [.stat] := by
  refine ⟨?_, ?_, ?_, ?_, rfl, rfl, rfl, rfl, rfl, rfl, rfl, rfl⟩
  · intro herr
    cases h : linux_info_proc_args tgt args with
    | error e =>
      unfold linux_info_proc at herr
      rw [h] at herr
      simp at herr
    | ok pid =>
      exact ⟨pid, by rw [linux_info_proc_sections gdbarch tgt args what pid h]⟩
  · intro pid s
    refine ⟨fun data hdata => ?_, fun hnone => ?_⟩
    · refine ⟨by simp [source_item, hdata], source_section_no_warning gdbarch s data⟩
    · refine ⟨by simp [source_item, hnone], ?_⟩
      cases s <;> rfl
  · intro tgt' what' h1 h2
    rw [linux_info_proc_error, linux_info_proc_error, h1, h2]
  · cases what <;> decide

theorem sections_by_mode_witness :
    (linux_info_proc ⟨64, 64, 32, 64, .BFD_ENDIAN_LITTLE⟩
        (example_proc_files (cs "cat") (cs "42 (cat) R 1")) none .IP_MINIMAL).error = none
    ∧ ∃ pid, (linux_info_proc ⟨64, 64, 32, 64, .BFD_ENDIAN_LITTLE⟩
        (example_proc_files (cs "cat") (cs "42 (cat) R 1")) none .IP_MINIMAL).out
        = .process pid :: (selected_sources .IP_MINIMAL).flatMap
            (source_item ⟨64, 64, 32, 64, .BFD_ENDIAN_LITTLE⟩
              (example_proc_files (cs "cat") (cs "42 (cat) R 1")) pid) :=
  ⟨by decide,
   (sections_by_mode ⟨64, 64, 32, 64, .BFD_ENDIAN_LITTLE⟩
      (example_proc_files (cs "cat") (cs "42 (cat) R 1")) none .IP_MINIMAL).1
      (by decide)⟩

/-! ## The stat decoder -/

theorem space_head_ok (rest : List Nat)
    (h : rest = [] ∨ isspace (deref rest) = true) :
    is_digit_in_base (deref rest) 10 = false
      ∧ (deref rest ≠ 120 ∧ deref rest ≠ 88) := by
  rcases h with rfl | h
  · exact ⟨by decide, by decide, by decide⟩
  · have hc : deref rest = 32 ∨ (9 ≤ deref rest ∧ deref rest ≤ 13) := by
      simpa [isspace] using h
    have hal : isalnum (deref rest) = false := by
      simp only [isalnum, isdigit, isalpha, Bool.or_eq_false_iff, Bool.and_eq_false_iff,
        decide_eq_false_iff_not]
      omega
    refine ⟨by simp [is_digit_in_base, hal], by omega, by omega⟩

theorem stat_fields_loop_end (labels : List (StatLabel × Bool)) (p : List Nat)
    (h : deref p = 0) : stat_fields_loop labels p = [] := by
  induction labels with
  | nil => rfl
  | cons l labels ih =>
    obtain ⟨label, hex⟩ := l
    unfold stat_fields_loop
    simp only [h, ne_eq, not_true_eq_false, if_false]
    exact ih

/-- The decoder on fields that are decimal numerals, each after one space:
one line per field, in the order of the labels, then what it prints for the
rest of the text with the labels that are left. -/
theorem stat_fields_loop_fields (fields : List (List Nat)) :
    ∀ (labels : List (StatLabel × Bool)) (rest : List Nat),
      (∀ f ∈ fields, is_stat_field f) →
      (rest = [] ∨ isspace (deref rest) = true) →
      fields.length ≤ labels.length →
      stat_fields_loop labels (fields.flatMap (fun f => 32 :: f) ++ rest)
        = stat_lines labels fields
            ++ stat_fields_loop (labels.drop fields.length) rest := by
  induction fields with
  | nil =>
    intro labels rest _ _ _
    simp [stat_lines]
  | cons f fields ih =>
    intro labels rest hf hrest hlen
    cases labels with
    | nil => simp at hlen
    | cons l labels =>
      obtain ⟨label, hex⟩ := l
      have hmore : fields.flatMap (fun f => 32 :: f) ++ rest = []
          ∨ isspace (deref (fields.flatMap (fun f => 32 :: f) ++ rest)) = true := by
        cases fields with
        | nil => simpa using hrest
        | cons g fields => exact Or.inr (by simp [deref]; decide)
      obtain ⟨h1, h2⟩ := space_head_ok _ hmore
      have hs := strtoulst_numeral 10 (Or.inr rfl) [32] f
        (fields.flatMap (fun f => 32 :: f) ++ rest) (by decide)
        (hf f (List.mem_cons_self _ _)).1 h1 h2 (hf f (List.mem_cons_self _ _)).2
      simp only [List.singleton_append] at hs
      have hlen' : fields.length ≤ labels.length := by
        simpa using hlen
      simp only [List.flatMap_cons, List.cons_append, List.append_assoc]
      conv_lhs => unfold stat_fields_loop
      simp only [deref, List.headD_cons, ne_eq, OfNat.ofNat_ne_zero, not_false_eq_true,
        if_true]
      rw [hs]
      simp only [stat_lines, List.zipWith_cons_cons, List.cons_append, List.length_cons,
        List.drop_succ_cons]
      rw [ih labels rest (fun g hg => hf g (List.mem_cons_of_mem _ hg)) hrest hlen']
      rfl

end LinuxTdep

namespace LinuxTdep

theorem strchr_close (name rest : List Nat) (h : ∀ c ∈ name, c ≠ 0 ∧ c ≠ 41) :
    strchr (name ++ 41 :: rest) 41 = some (41 :: rest) := by
  induction name with
  | nil => simp [strchr]
  | cons c name ih =>
    obtain ⟨h0, h41⟩ := h c (List.mem_cons_self _ _)
    simp only [List.cons_append, strchr, h41, h0, if_false]
    exact ih (fun c hc => h c (List.mem_cons_of_mem _ hc))

theorem cstring_append (name rest : List Nat) (h : ∀ c ∈ name, c ≠ 0) :
    cstring (name ++ rest) = name ++ cstring rest := by
  induction name with
  | nil => rfl
  | cons c name ih =>
    have h0 := h c (List.mem_cons_self _ _)
    have := ih (fun c hc => h c (List.mem_cons_of_mem _ hc))
    simp only [cstring] at this ⊢
    simp [List.takeWhile_cons, h0, this]

theorem to_int_small (n : Nat) (h : n < 2 ^ 31) : to_int n = (n : Int) := by
  have h1 : n % 2 ^ 32 = n := Nat.mod_eq_of_lt (by omega)
  unfold to_int
  rw [h1, if_pos h]

theorem stat_exec_file_name (name rest : List Nat) (h : ∀ c ∈ name, c ≠ 0 ∧ c ≠ 41)
    (hlen : name.length < 2 ^ 31) :
    stat_exec_file (40 :: (name ++ 41 :: rest)) = ([.exec_file name], rest) := by
  have hchr : strchr (40 :: (name ++ 41 :: rest)) 41 = some (41 :: rest) := by
    simp only [strchr]
    simpa using strchr_close name rest h
  have hlen' : (40 :: (name ++ 41 :: rest)).length - (41 :: rest).length - 1
      = name.length := by
    simp only [List.length_cons, List.length_append]
    omega
  have hcs : (cstring (name ++ 41 :: rest)).take name.length = name := by
    rw [cstring_append name _ (fun c hc => (h c hc).1)]
    simp
  unfold stat_exec_file
  simp only [deref, List.headD_cons, if_true, hchr, hlen', to_int_small _ hlen,
    List.tail_cons, printf_precision_s]
  have hneg : ¬ ((name.length : Int) < 0) := by omega
  simp [hneg, hcs]

theorem stat_decoder_record (pid name : List Nat) (state : Nat)
    (tail : List Nat) (hpid : is_stat_field pid)
    (hname : ∀ c ∈ name, c ≠ 0 ∧ c ≠ 41) (hlen : name.length < 2 ^ 31)
    (hstate : state ≠ 0 ∧ isspace state = false) :
    stat_decoder (pid ++ 32 :: 40 :: (name ++ 41 :: 32 :: state :: tail))
      = stat_head pid name state ++ stat_fields_loop stat_fields tail := by
  have h1 := strtoulst_numeral 10 (Or.inr rfl) [] pid
    (32 :: 40 :: (name ++ 41 :: 32 :: state :: tail)) (by simp) hpid.1
    (by simp only [deref, List.headD_cons]; decide)
    (by simp only [deref, List.headD_cons]; decide) hpid.2
  simp only [List.nil_append] at h1
  have h2 : skip_spaces (32 :: 40 :: (name ++ 41 :: 32 :: state :: tail))
      = 40 :: (name ++ 41 :: 32 :: state :: tail) :=
    skip_spaces_space _ (by
      intro c hc
      simp only [List.head?_cons, Option.some.injEq] at hc
      subst hc
      decide)
  have h3 := stat_exec_file_name name (32 :: state :: tail) hname hlen
  have h4 : skip_spaces (32 :: state :: tail) = state :: tail :=
    skip_spaces_space _ (by
      intro c hc
      simp only [List.head?_cons, Option.some.injEq] at hc
      subst hc
      exact hstate.2)
  have h5 : stat_state (state :: tail) = ([.state state], tail) := by
    simp [stat_state, deref, hstate.1]
  unfold stat_decoder
  simp only [h1, h2, h3, h4, h5, stat_head]
  rfl

theorem strtoulst_spaces (ws : List Nat) (h : ∀ c ∈ ws, isspace c = true) :
    strtoulst ws 10 = (0, []) := by
  have hskip : skip_isspace ws = [] := by
    have := skip_isspace_spaces ws [] h (by decide)
    simpa using this
  unfold strtoulst
  simp only [hskip]
  rw [if_neg (by decide)]
  rfl

theorem stat_fields_loop_spaces (l : StatLabel × Bool) (labels : List (StatLabel × Bool))
    (ws : List Nat) (hne : ws ≠ []) (h : ∀ c ∈ ws, isspace c = true) :
    stat_fields_loop (l :: labels) ws = [.stat_value l.1 l.2 0] := by
  obtain ⟨label, hex⟩ := l
  have hd : deref ws ≠ 0 := by
    cases ws with
    | nil => exact absurd rfl hne
    | cons c ws =>
      have hc := h c (List.mem_cons_self _ _)
      simp only [deref, List.headD_cons]
      rintro rfl
      exact absurd hc (by decide)
  unfold stat_fields_loop
  simp only [hd, ne_eq, not_false_eq_true, if_true, strtoulst_spaces ws h]
  rw [stat_fields_loop_end labels [] rfl]

/-- Whatever the text, the lines after the state are those of the first labels
of the list, without a gap: once a line is left out all later ones are. -/
theorem stat_fields_loop_initial (labels : List (StatLabel × Bool)) :
    ∀ p : List Nat, ∃ values : List Nat, values.length ≤ labels.length
      ∧ stat_fields_loop labels p
        = List.zipWith (fun l v => ProcOutput.stat_value l.1 l.2 v) labels values := by
  induction labels with
  | nil => exact fun _ => ⟨[], le_rfl, rfl⟩
  | cons l labels ih =>
    intro p
    obtain ⟨label, hex⟩ := l
    by_cases hd : deref p = 0
    · exact ⟨[], by simp, by rw [stat_fields_loop_end _ p hd]; rfl⟩
    · obtain ⟨values, hlen, hv⟩ := ih (strtoulst p 10).2
      refine ⟨(strtoulst p 10).1 :: values, by simpa using hlen, ?_⟩
      conv_lhs => unfold stat_fields_loop
      simp only [hd, ne_eq, not_false_eq_true, if_true, hv, List.zipWith_cons_cons]

end LinuxTdep

namespace LinuxTdep

end LinuxTdep

namespace LinuxTdep

/-! ## The reader: the table header -/

/-- The loop of the reader adds rows of the table to the output, and nothing
else. -/
theorem mappings_loop_out (gdbarch : Gdbarch) (core : CoreBfd) (contents : List Nat)
    (page_size : Nat) :
    ∀ (fuel count descdata filenames : Nat) (out : List Output),
      ∃ rows, (mappings_loop gdbarch core contents page_size fuel count descdata
          filenames out).out = out ++ rows
        ∧ ∀ o ∈ rows, is_table_row o = true := by
  intro fuel
  induction fuel with
  | zero =>
    intro count descdata filenames out
    exact ⟨[], by simp [mappings_loop], by simp⟩
  | succ fuel ih =>
    intro count descdata filenames out
    simp only [mappings_loop]
    split_ifs
    · exact ⟨[], by simp, by simp⟩
    · split
      · rename_i start end_ file_ofs _ _ _
        obtain ⟨rows, h, hr⟩ := ih ((count + ULONGEST_MOD - 1) % ULONGEST_MOD)
          (descdata + core.addr_bit / 8 + core.addr_bit / 8 + core.addr_bit / 8)
          (filenames + (1 + (cstring (contents.drop filenames)).length))
          (out ++ [.table_row (gdbarch.addr_bit == 32) start end_
            ((end_ + ULONGEST_MOD - start) % ULONGEST_MOD)
            (file_ofs * page_size % ULONGEST_MOD) (cstring (contents.drop filenames))])
        refine ⟨Output.table_row (gdbarch.addr_bit == 32) start end_
            ((end_ + ULONGEST_MOD - start) % ULONGEST_MOD)
            (file_ofs * page_size % ULONGEST_MOD) (cstring (contents.drop filenames))
          :: rows, ?_, ?_⟩
        · rw [h]
          simp
        · intro o ho
          rcases List.mem_cons.1 ho with rfl | ho
          · rfl
          · exact hr o ho
      · exact ⟨[], by simp, by simp⟩
      · exact ⟨[], by simp, by simp⟩
      · exact ⟨[], by simp, by simp⟩
    · exact ⟨[], by simp, by simp⟩

/-- C25: for a core file without a section `.note.linuxcore.file` the reader
gives the warning "unable to find mappings in core file" and returns: nothing
is decoded, no table header and no row is printed.  For a core file that has
the section and passes the validations (long enough for the header, readable,
last byte NUL, header decoded, long enough for the declared count) the output
begins with the table header, and everything after it is a row of the
table. -/
theorem absent_mapping_note (gdbarch : Gdbarch) (core : CoreBfd) :
    (core.note_linuxcore_file = none →
      linux_core_info_proc_mappings gdbarch core
        = { out := [.warning_unable_to_find_mappings], stop := .returned })
    ∧ ∀ (sect : Section) (init : List Nat) (count page_size : Nat),
        core.note_linuxcore_file = some sect →
        2 * (core.addr_bit / 8) ≤ sect.contents.length →
        sect.readable = true →
        sect.contents = init ++ [0] →
        bfd_get core.addr_bit core.byte_order sect.contents 0 = .ok count →
        bfd_get core.addr_bit core.byte_order sect.contents (core.addr_bit / 8)
          = .ok page_size →
        ¬ sect.contents.length
            < (2 * (core.addr_bit / 8) + count * 3 * (core.addr_bit / 8)) % ULONGEST_MOD →
        ∃ rows, (linux_core_info_proc_mappings gdbarch core).out
            = .mapped_address_spaces :: .table_header (gdbarch.addr_bit == 32) :: rows
          ∧ ∀ o ∈ rows, is_table_row o = true := by
  refine ⟨fun hnone => ?_, ?_⟩
  · unfold linux_core_info_proc_mappings
    simp only [hnone]
  · intro sect init count page_size hsect hlong hread hcontents hcount hpage hfit
    have h1 : ¬ sect.contents.length < 2 * (core.addr_bit / 8) := by omega
    have h2 : sect.contents.length ≠ 0 := by simp [hcontents]
    have h3 : ¬ deref (sect.contents.drop (sect.contents.length - 1)) ≠ 0 := by
      rw [hcontents]
      simp [deref]
    obtain ⟨rows, h, hr⟩ := mappings_loop_out gdbarch core sect.contents page_size
      (sect.contents.length + 1) count (core.addr_bit / 8 + core.addr_bit / 8)
      ((core.addr_bit / 8 + core.addr_bit / 8 + count * 3 * (core.addr_bit / 8))
        % ULONGEST_MOD)
      [.mapped_address_spaces, .table_header (gdbarch.addr_bit == 32)]
    refine ⟨rows, ?_, hr⟩
    unfold linux_core_info_proc_mappings
    simp only [hsect, if_neg h1, hread, Bool.not_true, if_neg h2, if_neg h3, hcount,
      hpage, if_neg hfit, Bool.false_eq_true, if_false]
    rw [h]
    rfl

theorem absent_mapping_note_witness :
    linux_core_info_proc_mappings ⟨64, 64, 32, 64, .BFD_ENDIAN_LITTLE⟩
        ⟨none, 64, .BFD_ENDIAN_LITTLE⟩
      = { out := [.warning_unable_to_find_mappings], stop := .returned }
    ∧ ∃ rows, (linux_core_info_proc_mappings ⟨64, 64, 32, 64, .BFD_ENDIAN_LITTLE⟩
          ⟨some ⟨[2, 0, 0, 0, 1, 0, 0, 0, 0, 0, 64, 0, 0, 16, 64, 0, 3, 0, 0, 0,
                  0, 0, 0, 0, 0, 0, 0, 0, 0, 0, 0, 0, 47, 97, 0] ++ [0], true⟩, 32,
            .BFD_ENDIAN_LITTLE⟩).out
        = .mapped_address_spaces :: .table_header false :: rows
      ∧ ∀ o ∈ rows, is_table_row o = true :=
  ⟨(absent_mapping_note ⟨64, 64, 32, 64, .BFD_ENDIAN_LITTLE⟩
      ⟨none, 64, .BFD_ENDIAN_LITTLE⟩).1 rfl,
   (absent_mapping_note ⟨64, 64, 32, 64, .BFD_ENDIAN_LITTLE⟩
      ⟨some ⟨[2, 0, 0, 0, 1, 0, 0, 0, 0, 0, 64, 0, 0, 16, 64, 0, 3, 0, 0, 0,
              0, 0, 0, 0, 0, 0, 0, 0, 0, 0, 0, 0, 47, 97, 0] ++ [0], true⟩, 32,
        .BFD_ENDIAN_LITTLE⟩).2
      ⟨[2, 0, 0, 0, 1, 0, 0, 0, 0, 0, 64, 0, 0, 16, 64, 0, 3, 0, 0, 0,
        0, 0, 0, 0, 0, 0, 0, 0, 0, 0, 0, 0, 47, 97, 0] ++ [0], true⟩
      [2, 0, 0, 0, 1, 0, 0, 0, 0, 0, 64, 0, 0, 16, 64, 0, 3, 0, 0, 0,
        0, 0, 0, 0, 0, 0, 0, 0, 0, 0, 0, 0, 47, 97, 0] 2 1
      rfl (by decide) rfl rfl rfl rfl (by decide)⟩

end LinuxTdep

namespace LinuxTdep

/-! ## Detail lines, the signal-info note, the empty table -/

/-- C26 fails on the code: in a smaps text with the line `VmFlags: rd ex mr mw
me dw`, which begins with an upper-case letter and is not of the shape `Key: N
kB`, the scan of the detail lines stops at that line and leaves it as the
current line, so the enumerator then parses it as a mapping line and invokes the
callback for it: two mapping lines give three invocations, the second for a
region at address 0 of size 0 with the pathname `ex mr mw me dw`. -/
theorem unparsed_detail_line_becomes_region :
    delivered_regions ⟨false, some (cs
      "00400000-0040c000 r-xp 00000000 08:01 1234 /bin/cat\nSize:                 48 kB\nAnonymous:             0 kB\nVmFlags: rd ex mr mw me dw\n7ffd1000-7ffd2000 rw-p 00000000 00:00 0 [stack]\n"),
      none⟩
      = [⟨0x400000, 0xc000, 0, 1234, true, false, true, false, cs "/bin/cat"⟩,
         ⟨0, 0, 0, 0, false, false, false, true, cs "ex mr mw me dw"⟩,
         ⟨0x7ffd1000, 0x1000, 0, 0, true, true, false, true, cs "[stack]"⟩]
    ∧ ((strtok_tokens (cs
      "00400000-0040c000 r-xp 00000000 08:01 1234 /bin/cat\nSize:                 48 kB\nAnonymous:             0 kB\nVmFlags: rd ex mr mw me dw\n7ffd1000-7ffd2000 rw-p 00000000 00:00 0 [stack]\n")
        []).filter (fun line => ¬ starts_upper line)).length = 2 := by
  decide

/-- C27: for a thread of the process the callback writes the signal-info note
(name `CORE`, type `NT_SIGINFO`) on the stream the register collector returned
for that thread exactly when the architecture has a siginfo type and the number
of bytes read from the target is the length of that type; the descriptor is the
bytes read, which are the first bytes of the object when the object is at least
that long.  Otherwise (no siginfo type, a read that fails, a read of another
number of bytes, such as that of a shorter object) no signal-info note is
written, the stream is the one the collector returned, and the result of the
callback is nonzero only when that stream is `NULL`. -/
theorem siginfo_note_condition (arch : NoteArch) (tgt : LiveTarget)
    (w : ElfcoreWriter) (collect : Collector) (info : thread_info)
    (data : linux_corefile_thread_data × World) (h : info.ptid.pid = data.1.pid) :
    (∀ len, arch.siginfo_length = some len →
      (target_read (tgt.siginfo_object info.ptid) 0 len).1 = (len : Int) →
      (linux_corefile_thread_callback arch tgt w collect info data).2.1.note_data
        = w.elfcore_write_note
            (collect { ptid := info.ptid, fetched_as := some info.ptid } info.ptid
              data.1.note_data data.1.stop_signal)
            { name := cs "CORE", type := NT_SIGINFO,
              desc := (target_read (tgt.siginfo_object info.ptid) 0 len).2 })
    ∧ ((arch.siginfo_length = none
          ∨ ∃ len, arch.siginfo_length = some len
              ∧ (target_read (tgt.siginfo_object info.ptid) 0 len).1 ≠ (len : Int)) →
        (linux_corefile_thread_callback arch tgt w collect info data).2.1.note_data
          = collect { ptid := info.ptid, fetched_as := some info.ptid } info.ptid
              data.1.note_data data.1.stop_signal
        ∧ (linux_corefile_thread_callback arch tgt w collect info data).1
          = if collect { ptid := info.ptid, fetched_as := some info.ptid } info.ptid
                data.1.note_data data.1.stop_signal = none then 1 else 0)
    ∧ (∀ len, (target_read none 0 len).1 ≠ (len : Int))
    ∧ (∀ len bytes, bytes.length < len → (target_read (some bytes) 0 len).1 ≠ (len : Int))
    ∧ (∀ len bytes, len ≤ bytes.length →
        target_read (some bytes) 0 len = ((len : Int), bytes.take len)) := by
  refine ⟨?_, ?_, ?_, ?_, ?_⟩
  · intro len hlen hread
    unfold linux_corefile_thread_callback
    simp only [if_pos h, linux_get_siginfo_data, hlen, hread, if_true]
  · rintro (hnone | ⟨len, hlen, hread⟩)
    · unfold linux_corefile_thread_callback
      simp only [if_pos h, linux_get_siginfo_data, hnone]
      exact ⟨trivial, trivial⟩
    · unfold linux_corefile_thread_callback
      simp only [if_pos h, linux_get_siginfo_data, hlen, if_neg hread]
      exact ⟨trivial, trivial⟩
  · intro len
    simp only [target_read]
    omega
  · intro len bytes hlt
    simp only [target_read, List.drop_zero, List.length_take]
    omega
  · intro len bytes hle
    simp only [target_read, List.drop_zero, List.length_take, Nat.min_eq_left hle]

theorem siginfo_note_condition_witness :
    (linux_corefile_thread_callback (example_arch (some 2))
        (example_target none [⟨⟨10, 11, 0⟩, 11⟩]) recording_writer
        (linux_collect_thread_registers (example_arch (some 2))
          (example_target none [⟨⟨10, 11, 0⟩, 11⟩]) recording_writer)
        ⟨⟨10, 11, 0⟩, 11⟩
        (⟨10, none, 0, 11⟩, ⟨⟨10, 11, 0⟩, []⟩)).2.1.note_data
      = recording_writer.elfcore_write_note
          (linux_collect_thread_registers (example_arch (some 2))
            (example_target none [⟨⟨10, 11, 0⟩, 11⟩]) recording_writer
            { ptid := ⟨10, 11, 0⟩, fetched_as := some ⟨10, 11, 0⟩ } ⟨10, 11, 0⟩ none 11)
          { name := cs "CORE", type := NT_SIGINFO, desc := [1, 2] } :=
  (siginfo_note_condition (example_arch (some 2))
    (example_target none [⟨⟨10, 11, 0⟩, 11⟩]) recording_writer
    (linux_collect_thread_registers (example_arch (some 2))
      (example_target none [⟨⟨10, 11, 0⟩, 11⟩]) recording_writer)
    ⟨⟨10, 11, 0⟩, 11⟩ (⟨10, none, 0, 11⟩, ⟨⟨10, 11, 0⟩, []⟩) rfl).1 2 rfl (by decide)

/-- C28 fails on the code: a 64-bit note section that consists of the two
header fields, count 0 and page size 1, passes the header validations, and the
reader prints the table header and then stops with "malformed note - filenames
end too early": `while (--count > 0)` turns the count 0 into `2 ^ 64 - 1` and
enters the loop.  With a pathname after the header the loop reads a triple
outside the buffer instead. -/
theorem count_zero_enters_loop :
    linux_core_info_proc_mappings ⟨64, 64, 32, 64, .BFD_ENDIAN_LITTLE⟩
        ⟨some ⟨[0, 0, 0, 0, 0, 0, 0, 0, 1, 0, 0, 0, 0, 0, 0, 0], true⟩, 64,
          .BFD_ENDIAN_LITTLE⟩
      = { out := [.mapped_address_spaces, .table_header false],
          stop := .error .filenames_end_too_early }
    ∧ linux_core_info_proc_mappings ⟨64, 64, 32, 64, .BFD_ENDIAN_LITTLE⟩
        ⟨some ⟨[0, 0, 0, 0, 0, 0, 0, 0, 1, 0, 0, 0, 0, 0, 0, 0, 47, 97, 0], true⟩, 64,
          .BFD_ENDIAN_LITTLE⟩
      = { out := [.mapped_address_spaces, .table_header false],
          stop := .read_outside_buffer } := by
  decide

end LinuxTdep

namespace LinuxTdep

/-! ## `read_mapping` stays inside the line -/

theorem points_into_refl (p : List Nat) : points_into p p :=
  ⟨[], rfl, by simp⟩

theorem points_into_trans {a b c : List Nat} (h1 : points_into a b)
    (h2 : points_into b c) : points_into a c := by
  obtain ⟨p1, rfl, h1⟩ := h1
  obtain ⟨p2, rfl, h2⟩ := h2
  refine ⟨p1 ++ p2, by simp, ?_⟩
  intro d hd
  rcases List.mem_append.1 hd with hd | hd
  · exact h1 d hd
  · exact h2 d hd

theorem points_into_tail (p : List Nat) (h : deref p ≠ 0) : points_into p p.tail := by
  cases p with
  | nil => simp [deref] at h
  | cons c p => exact ⟨[c], rfl, by simpa [deref] using h⟩

theorem skip_isspace_points (p : List Nat) : points_into p (skip_isspace p) := by
  induction p with
  | nil => exact points_into_refl _
  | cons c p ih =>
    unfold skip_isspace
    split_ifs with h
    · have h0 : deref (c :: p) ≠ 0 := by
        simp only [deref, List.headD_cons]
        rintro rfl
        exact absurd h (by decide)
      exact points_into_trans (points_into_tail _ h0) ih
    · exact points_into_refl _

theorem skip_spaces_points (p : List Nat) : points_into p (skip_spaces p) := by
  induction p with
  | nil => exact points_into_refl _
  | cons c p ih =>
    unfold skip_spaces
    split_ifs with h
    · have h0 : deref (c :: p) ≠ 0 := by
        simp only [Bool.and_eq_true, bne_iff_ne, ne_eq] at h
        simpa [deref] using h.1
      exact points_into_trans (points_into_tail _ h0) ih
    · exact points_into_refl _

theorem skip_nonspaces_points (p : List Nat) : points_into p (skip_nonspaces p) := by
  induction p with
  | nil => exact points_into_refl _
  | cons c p ih =>
    unfold skip_nonspaces
    split_ifs with h
    · have h0 : deref (c :: p) ≠ 0 := by
        simp only [Bool.and_eq_true, bne_iff_ne, ne_eq] at h
        simpa [deref] using h.1
      exact points_into_trans (points_into_tail _ h0) ih
    · exact points_into_refl _

theorem strtoulst_digits_points (base : Nat) (p : List Nat) :
    ∀ acc, points_into p (strtoulst_digits base p acc).2 := by
  induction p with
  | nil => exact fun _ => points_into_refl _
  | cons c p ih =>
    intro acc
    unfold strtoulst_digits
    split_ifs with h1 h2
    · have h0 : deref (c :: p) ≠ 0 := by
        simpa [deref] using (digit_not_space c base h1).2.2.2
      exact points_into_trans (points_into_tail _ h0) (ih _)
    · exact points_into_refl _
    · exact points_into_refl _

theorem digits_start_points (num : List Nat) (base : Nat) :
    points_into num (digits_start num base) := by
  have h1 := skip_isspace_points num
  have h2 : points_into (skip_isspace num)
      (if deref (skip_isspace num) = 43 ∨ deref (skip_isspace num) = 45
        then (skip_isspace num).tail else skip_isspace num) := by
    split_ifs with h
    · exact points_into_tail _ (by rcases h with h | h <;> omega)
    · exact points_into_refl _
  unfold digits_start
  simp only
  generalize (if deref (skip_isspace num) = 43 ∨ deref (skip_isspace num) = 45
    then (skip_isspace num).tail else skip_isspace num) = q at h2 ⊢
  split_ifs with h3
  · exact points_into_trans h1 (points_into_trans h2
      (points_into_trans (points_into_tail _ (by omega))
        (points_into_tail _ (by rcases h3.2.2 with h | h <;> omega))))
  · exact points_into_trans h1 h2

/-- The trailer of `strtoulst` is where its digit loop stops. -/
theorem strtoulst_trailer (num : List Nat) (base : Nat) :
    (strtoulst num base).2
      = if base < 2 ∨ 36 < base then num
        else (strtoulst_digits base (digits_start num base) 0).2 := by
  unfold strtoulst digits_start
  simp only
  by_cases h43 : deref (skip_isspace num) = 43
  · simp only [h43, if_true, true_or]
    split_ifs <;> first | rfl | (split <;> simp_all)
  · by_cases h45 : deref (skip_isspace num) = 45
    · simp only [h45, if_true, or_true]
      split_ifs <;> first | rfl | (split <;> simp_all)
    · simp only [h43, h45, if_false, or_self]
      split_ifs <;> first | rfl | (split <;> simp_all)

theorem strtoulst_points (num : List Nat) (base : Nat) :
    points_into num (strtoulst num base).2 := by
  rw [strtoulst_trailer]
  split_ifs
  · exact points_into_refl _
  · exact points_into_trans (digits_start_points num base)
      (strtoulst_digits_points base _ 0)

theorem cstring_length_append (pre p : List Nat) (h : ∀ c ∈ pre, c ≠ 0) :
    strlen (pre ++ p) = pre.length + strlen p := by
  unfold strlen
  rw [cstring_append pre p h, List.length_append]

/-- A pointer into the line is the line from an index on that is at most the
length of the string. -/
theorem points_into_index (line p : List Nat) (h : points_into line p) :
    ∃ i, i ≤ strlen line ∧ p = line.drop i ∧ strlen line = i + strlen p := by
  obtain ⟨pre, rfl, hpre⟩ := h
  refine ⟨pre.length, ?_, by simp, cstring_length_append pre p hpre⟩
  rw [cstring_length_append pre p hpre]
  omega

/-- The length of a slice that ends at a pointer into the string. -/
theorem points_into_length (p q : List Nat) (h : points_into p q) :
    p.length - q.length ≤ strlen p ∧ p.drop (p.length - q.length) = q := by
  obtain ⟨pre, rfl, hpre⟩ := h
  have hlen : (pre ++ q).length - q.length = pre.length := by
    simp
  rw [hlen, cstring_length_append pre q hpre]
  exact ⟨by omega, by simp⟩

theorem dropWhile_not_digit (base : Nat) (p : List Nat) :
    is_digit_in_base (deref (p.dropWhile (fun c => is_digit_in_base c base))) base
      = false := by
  induction p with
  | nil => simp [deref, is_digit_in_base, isalnum, isdigit, isalpha]
  | cons c p ih =>
    by_cases h : is_digit_in_base c base = true
    · simpa [List.dropWhile_cons, h] using ih
    · simp [List.dropWhile_cons, h, deref]

/-- On a plain field `strtoulst` returns the value of the longest run of
digits after the white space, 0 when there is no digit. -/
theorem strtoulst_plain (base : Nat) (hbase : base = 16 ∨ base = 10) (p : List Nat)
    (h : plain_field base p) :
    (strtoulst p base).1 = numeral_value base (leading_digits base (skip_isspace p)) := by
  obtain ⟨h43, h45, h0x, hfit⟩ := h
  have hb1 : 1 ≤ base := by rcases hbase with h | h <;> omega
  have hb2 : ¬ (base < 2 ∨ 36 < base) := by rcases hbase with h | h <;> omega
  have hsplit : skip_isspace p
      = leading_digits base (skip_isspace p)
        ++ (skip_isspace p).dropWhile (fun c => is_digit_in_base c base) :=
    (List.takeWhile_append_dropWhile _ _).symm
  have hdigits := strtoulst_digits_numeral base hb1 (leading_digits base (skip_isspace p))
    ((skip_isspace p).dropWhile (fun c => is_digit_in_base c base)) 0
    (fun c hc => List.mem_takeWhile_imp (p := fun c => is_digit_in_base c base)
      (l := skip_isspace p) hc)
    (dropWhile_not_digit base _) hfit
  rw [← hsplit] at hdigits
  unfold strtoulst
  simp only [if_neg h43, if_neg h45, if_neg h0x, if_neg hb2, hdigits]
  rfl

/-- The fields of `read_mapping`, each in terms of the pointer the previous
step left. -/
theorem read_mapping_eq (line : List Nat) :
    read_mapping line
      = { addr := (strtoulst line 16).1,
          endaddr := (strtoulst (if deref (strtoulst line 16).2 = 45
            then (strtoulst line 16).2.tail else (strtoulst line 16).2) 16).1,
          permissions := skip_spaces (strtoulst (if deref (strtoulst line 16).2 = 45
            then (strtoulst line 16).2.tail else (strtoulst line 16).2) 16).2,
          permissions_len :=
            (skip_spaces (strtoulst (if deref (strtoulst line 16).2 = 45
              then (strtoulst line 16).2.tail else (strtoulst line 16).2) 16).2).length
            - (skip_nonspaces (skip_spaces (strtoulst (if deref (strtoulst line 16).2 = 45
              then (strtoulst line 16).2.tail
              else (strtoulst line 16).2) 16).2)).length,
          offset := (strtoulst (skip_nonspaces (skip_spaces
            (strtoulst (if deref (strtoulst line 16).2 = 45
              then (strtoulst line 16).2.tail else (strtoulst line 16).2) 16).2)) 16).1,
          device := skip_spaces (strtoulst (skip_nonspaces (skip_spaces
            (strtoulst (if deref (strtoulst line 16).2 = 45
              then (strtoulst line 16).2.tail else (strtoulst line 16).2) 16).2)) 16).2,
          device_len :=
            (skip_spaces (strtoulst (skip_nonspaces (skip_spaces
              (strtoulst (if deref (strtoulst line 16).2 = 45
                then (strtoulst line 16).2.tail
                else (strtoulst line 16).2) 16).2)) 16).2).length
            - (skip_nonspaces (skip_spaces (strtoulst (skip_nonspaces (skip_spaces
              (strtoulst (if deref (strtoulst line 16).2 = 45
                then (strtoulst line 16).2.tail
                else (strtoulst line 16).2) 16).2)) 16).2)).length,
          inode := (strtoulst (skip_nonspaces (skip_spaces (strtoulst
            (skip_nonspaces (skip_spaces
              (strtoulst (if deref (strtoulst line 16).2 = 45
                then (strtoulst line 16).2.tail
                else (strtoulst line 16).2) 16).2)) 16).2)) 10).1,
          filename := skip_spaces (strtoulst (skip_nonspaces (skip_spaces (strtoulst
            (skip_nonspaces (skip_spaces
              (strtoulst (if deref (strtoulst line 16).2 = 45
                then (strtoulst line 16).2.tail
                else (strtoulst line 16).2) 16).2)) 16).2)) 10).2 } := by
  unfold read_mapping
  simp only

/-- The positions `read_mapping` reads its fields at. -/
theorem read_mapping_positions (line : List Nat) :
    points_into line (read_mapping line).permissions
    ∧ (read_mapping line).permissions_len
        = (read_mapping line).permissions.length
          - (skip_nonspaces (read_mapping line).permissions).length
    ∧ (read_mapping line).offset
        = (strtoulst (skip_nonspaces (read_mapping line).permissions) 16).1
    ∧ points_into (read_mapping line).permissions (read_mapping line).device
    ∧ (read_mapping line).device_len
        = (read_mapping line).device.length
          - (skip_nonspaces (read_mapping line).device).length
    ∧ (read_mapping line).inode
        = (strtoulst (skip_nonspaces (read_mapping line).device) 10).1
    ∧ points_into (read_mapping line).device (read_mapping line).filename := by
  have h1 : points_into line (strtoulst line 16).2 := strtoulst_points _ _
  have h2 : points_into (strtoulst line 16).2
      (if deref (strtoulst line 16).2 = 45 then (strtoulst line 16).2.tail
        else (strtoulst line 16).2) := by
    split_ifs with h
    · exact points_into_tail _ (by omega)
    · exact points_into_refl _
  rw [read_mapping_eq]
  simp only
  refine ⟨?_, trivial, trivial, ?_, trivial, trivial, ?_⟩
  · exact points_into_trans h1 (points_into_trans h2
      (points_into_trans (strtoulst_points _ _) (skip_spaces_points _)))
  · exact points_into_trans (skip_nonspaces_points _)
      (points_into_trans (strtoulst_points _ _) (skip_spaces_points _))
  · exact points_into_trans (skip_nonspaces_points _)
      (points_into_trans (strtoulst_points _ _) (skip_spaces_points _))

/-- C29, as the code has it: `read_mapping` is a total function, and for every
line, the empty line and lines with malformed or missing fields included, the
permissions slice, the device slice and the pathname begin at an index of the
line that is at most the length of the string, and the two slices end at an
index that is at most that length: nothing at or beyond the terminator is part
of a result.  Each numeric field is the value `strtoulst` returns at its
position (the start of the line; the trailer of the start address after an
optional `-`; the end of the permissions slice; the end of the device slice),
a value below `2 ^ 64`; where the text at the position has, after optional
white space, no sign, no `0x` and digits whose value is below `2 ^ 64`, this is
the value of the longest run of digits there, 0 when there is none. -/
theorem read_mapping_stays_inside (line : List Nat) :
    (∃ i, i ≤ strlen line ∧ (read_mapping line).permissions = line.drop i
        ∧ i + (read_mapping line).permissions_len ≤ strlen line)
    ∧ (∃ i, i ≤ strlen line ∧ (read_mapping line).device = line.drop i
        ∧ i + (read_mapping line).device_len ≤ strlen line)
    ∧ (∃ i, i ≤ strlen line ∧ (read_mapping line).filename = line.drop i)
    ∧ ((read_mapping line).addr < 2 ^ 64 ∧ (read_mapping line).endaddr < 2 ^ 64
        ∧ (read_mapping line).offset < 2 ^ 64 ∧ (read_mapping line).inode < 2 ^ 64)
    ∧ (read_mapping line).addr = (strtoulst line 16).1
    ∧ (read_mapping line).endaddr
        = (strtoulst (if deref (strtoulst line 16).2 = 45 then (strtoulst line 16).2.tail
            else (strtoulst line 16).2) 16).1
    ∧ (read_mapping line).offset
        = (strtoulst ((read_mapping line).permissions.drop
            (read_mapping line).permissions_len) 16).1
    ∧ (read_mapping line).inode
        = (strtoulst ((read_mapping line).device.drop
            (read_mapping line).device_len) 10).1
    ∧ (∀ base p, (base = 16 ∨ base = 10) → plain_field base p →
        (strtoulst p base).1
          = numeral_value base (leading_digits base (skip_isspace p)))
    ∧ read_mapping []
        = { addr := 0, endaddr := 0, permissions := [], permissions_len := 0,
            offset := 0, device := [], device_len := 0, inode := 0, filename := [] } := by
  obtain ⟨hP, hPlen, hoff, hD, hDlen, hino, hF⟩ := read_mapping_positions line
  have hPl := points_into_length _ _ (skip_nonspaces_points (read_mapping line).permissions)
  have hDl := points_into_length _ _ (skip_nonspaces_points (read_mapping line).device)
  rw [← hPlen] at hPl
  rw [← hDlen] at hDl
  obtain ⟨i, hi, hPi, hsP⟩ := points_into_index line _ hP
  obtain ⟨j, hj, hDj, hsD⟩ := points_into_index line _ (points_into_trans hP hD)
  obtain ⟨k, hk, hFk, -⟩ := points_into_index line _
    (points_into_trans hP (points_into_trans hD hF))
  have hM : ULONGEST_MOD = 2 ^ 64 := rfl
  refine ⟨⟨i, hi, hPi, by omega⟩, ⟨j, hj, hDj, by omega⟩, ⟨k, hk, hFk⟩,
    ⟨hM ▸ read_mapping_addr_lt line, hM ▸ read_mapping_endaddr_lt line, ?_, ?_⟩,
    by rw [read_mapping_eq], by rw [read_mapping_eq], ?_, ?_,
    fun base p hbase h => strtoulst_plain base hbase p h, by decide⟩
  · rw [hoff, ← hM]
    exact strtoulst_lt _ _
  · rw [hino, ← hM]
    exact strtoulst_lt _ _
  · rw [hPl.2]
    exact hoff
  · rw [hDl.2]
    exact hino

theorem read_mapping_stays_inside_witness :
    plain_field 16 (cs " 00002000 08:01")
    ∧ (strtoulst (cs " 00002000 08:01") 16).1
        = numeral_value 16 (leading_digits 16 (skip_isspace (cs " 00002000 08:01"))) :=
  ⟨⟨by decide, by decide, by decide, by decide⟩,
   (read_mapping_stays_inside (cs "400000-401000 r-xp 00002000 08:01 1234 /bin/cat")).2.2.2.2.2.2.2.2.1
     16 (cs " 00002000 08:01") (Or.inl rfl) ⟨by decide, by decide, by decide, by decide⟩⟩

/-- C29 as stated fails: on a line that begins with 17 digits `f` the start
address is `2 ^ 64 - 1`, not the value `2 ^ 68 - 1` of the longest digit prefix
(which no `ULONGEST` holds), and the digit that did not fit is read as the end
address; on the line `-1000 r-xp`, which has no digit at its start, the start
address is not 0 but `2 ^ 64 - 0x1000`. -/
theorem leading_digits_value_counterexample :
    (read_mapping (cs "fffffffffffffffff-1000 r-xp")).addr = 2 ^ 64 - 1
    ∧ numeral_value 16 (leading_digits 16 (cs "fffffffffffffffff-1000 r-xp")) = 2 ^ 68 - 1
    ∧ (read_mapping (cs "fffffffffffffffff-1000 r-xp")).endaddr = 15
    ∧ (read_mapping (cs "-1000 r-xp")).addr = 2 ^ 64 - 0x1000
    ∧ leading_digits 16 (cs "-1000 r-xp") = [] := by
  decide

end LinuxTdep
